import Mathlib

/-! Cobalt layout: text boxes and replaced boxes.

A shallow embedding of `cobalt/layout/text_box.cc` and
`cobalt/layout/replaced_box.cc`.

Conventions of the embedding:

* a C++ member function that mutates `this` becomes a function returning the
  new state of the box (together with the returned value, if any);
* `int32` text positions are `Int`: the only arithmetic on them is `+ 1` and
  `- 1` on positions inside the paragraph, and signed overflow is undefined in
  the source language;
* `float` quantities are rationals (`ℚ`); every concrete value used below is a
  dyadic rational on which `float` arithmetic is exact;
* classes that are not part of the translated files (`Paragraph`, the font
  list, the used-style helpers) appear as records of the member functions the
  translated code calls.
-/

namespace cobalt

namespace cssom

/-- The keyword values the translated code compares against
(`cssom::KeywordValue::GetPre()`, `GetNoWrap()`, `GetBreakWord()`), and
`kNormal` standing for any other value. -/
inductive KeywordValue where
  | kBreakWord
  | kNormal
  | kNoWrap
  | kPre
  deriving DecidableEq, Repr

/-- The part of the computed style read by `TextBox`. -/
structure ComputedStyle where
  white_space : KeywordValue
  overflow_wrap : KeywordValue
  deriving DecidableEq, Repr

end cssom

namespace layout

open cssom

/-- The enumeration `Paragraph::OverflowWrap`. -/
inductive OverflowWrap where
  | kBreakWordOverflowWrap
  | kSoftWrapOverflowWrap
  deriving DecidableEq, Repr

/-- The font list held in `used_font_`: the members `TextBox` calls.
`GetBoundsWidth text` is `GetBounds(text).width()`; `used_line_height` and
`baseline_offset_from_top` are the results of the `UsedLineHeightProvider`
built from `GetFontMetrics()`. -/
structure FontList where
  GetSpaceWidth : ℚ
  GetBoundsWidth : String → ℚ
  used_line_height : ℚ
  baseline_offset_from_top : ℚ

/-- The class `Paragraph`, by the member functions `TextBox` calls. A member
with a `bool` result and out-parameters returns `some` of the out-values when
the C++ result is `true` and `none` when it is `false`. -/
structure Paragraph where
  IsSpace : Int → Bool
  GetNextRunPosition : Int → Option Int
  CalculateBreakPosition :
    FontList → Int → Int → ℚ → Bool → OverflowWrap → Option (Int × ℚ)
  RetrieveUtf8SubString : Int → Int → String

/-- The state of a `TextBox`: its own members and the `Box` geometry that
`UpdateContentSizeAndMargins` writes. -/
structure TextBox where
  computed_style : ComputedStyle
  paragraph_ : Paragraph
  text_start_position_ : Int
  text_end_position_ : Int
  used_font_ : FontList
  text_has_leading_white_space_ : Bool
  text_has_trailing_white_space_ : Bool
  should_collapse_leading_white_space_ : Bool
  should_collapse_trailing_white_space_ : Bool
  triggers_line_break_ : Bool
  update_size_results_valid_ : Bool
  baseline_offset_from_top_ : Option ℚ
  margin_left : ℚ
  margin_top : ℚ
  margin_right : ℚ
  margin_bottom : ℚ
  width : ℚ
  height : ℚ

namespace TextBox

/-- `TextBox::WhiteSpaceStyleAllowsCollapsing`. -/
def WhiteSpaceStyleAllowsCollapsing (b : TextBox) : Bool :=
  b.computed_style.white_space != KeywordValue.kPre

/-- `TextBox::WhiteSpaceStyleAllowsWrapping`. -/
def WhiteSpaceStyleAllowsWrapping (b : TextBox) : Bool :=
  b.computed_style.white_space != KeywordValue.kPre &&
    b.computed_style.white_space != KeywordValue.kNoWrap

/-- `TextBox::UpdateTextHasLeadingWhiteSpace`. -/
def UpdateTextHasLeadingWhiteSpace (b : TextBox) : TextBox :=
  if b.WhiteSpaceStyleAllowsCollapsing then
    { b with
      text_has_leading_white_space_ :=
        b.text_start_position_ != b.text_end_position_ &&
          b.paragraph_.IsSpace b.text_start_position_ }
  else b

/-- `TextBox::UpdateTextHasTrailingWhiteSpace`. -/
def UpdateTextHasTrailingWhiteSpace (b : TextBox) : TextBox :=
  if b.WhiteSpaceStyleAllowsCollapsing then
    { b with
      text_has_trailing_white_space_ :=
        b.text_start_position_ != b.text_end_position_ &&
          b.paragraph_.IsSpace (b.text_end_position_ - 1) }
  else b

/-- The constructor `TextBox::TextBox`: the member initialisers followed by the
two white-space updates. The `Box` geometry starts at zero and the baseline
offset is unset. -/
def create (computed_style : ComputedStyle) (paragraph : Paragraph)
    (text_start_position text_end_position : Int) (triggers_line_break : Bool)
    (used_font : FontList) : TextBox :=
  UpdateTextHasTrailingWhiteSpace
    (UpdateTextHasLeadingWhiteSpace
      { computed_style := computed_style
        paragraph_ := paragraph
        text_start_position_ := text_start_position
        text_end_position_ := text_end_position
        used_font_ := used_font
        text_has_leading_white_space_ := false
        text_has_trailing_white_space_ := false
        should_collapse_leading_white_space_ := false
        should_collapse_trailing_white_space_ := false
        triggers_line_break_ := triggers_line_break
        update_size_results_valid_ := false
        baseline_offset_from_top_ := none
        margin_left := 0
        margin_top := 0
        margin_right := 0
        margin_bottom := 0
        width := 0
        height := 0 })

/-- `TextBox::GetNonCollapsibleTextStartPosition`. -/
def GetNonCollapsibleTextStartPosition (b : TextBox) : Int :=
  if b.text_has_leading_white_space_ then b.text_start_position_ + 1
  else b.text_start_position_

/-- `TextBox::GetNonCollapsibleTextEndPosition`. -/
def GetNonCollapsibleTextEndPosition (b : TextBox) : Int :=
  if b.text_has_trailing_white_space_ then b.text_end_position_ - 1
  else b.text_end_position_

/-- `TextBox::HasNonCollapsibleText`. -/
def HasNonCollapsibleText (b : TextBox) : Bool :=
  decide (b.GetNonCollapsibleTextStartPosition < b.GetNonCollapsibleTextEndPosition)

/-- `TextBox::GetNonCollapsibleText` (the text order argument is fixed to
`Paragraph::kVisualTextOrder` in the source). -/
def GetNonCollapsibleText (b : TextBox) : String :=
  b.paragraph_.RetrieveUtf8SubString b.GetNonCollapsibleTextStartPosition
    b.GetNonCollapsibleTextEndPosition

/-- `TextBox::HasLeadingWhiteSpace`. -/
def HasLeadingWhiteSpace (b : TextBox) : Bool :=
  b.text_has_leading_white_space_ &&
    !b.should_collapse_leading_white_space_ &&
    (b.HasNonCollapsibleText || !b.should_collapse_trailing_white_space_)

/-- `TextBox::HasTrailingWhiteSpace`. -/
def HasTrailingWhiteSpace (b : TextBox) : Bool :=
  b.text_has_trailing_white_space_ &&
    !b.should_collapse_trailing_white_space_ &&
    (b.HasNonCollapsibleText || !b.should_collapse_leading_white_space_)

/-- `TextBox::IsCollapsed`. -/
def IsCollapsed (b : TextBox) : Bool :=
  !b.HasLeadingWhiteSpace && !b.HasTrailingWhiteSpace && !b.HasNonCollapsibleText

/-- `TextBox::JustifiesLineExistence`. -/
def JustifiesLineExistence (b : TextBox) : Bool :=
  b.HasNonCollapsibleText || b.triggers_line_break_

/-- `TextBox::GetLeadingWhiteSpaceWidth`. -/
def GetLeadingWhiteSpaceWidth (b : TextBox) : ℚ :=
  if b.HasLeadingWhiteSpace then b.used_font_.GetSpaceWidth else 0

/-- `TextBox::GetTrailingWhiteSpaceWidth`. -/
def GetTrailingWhiteSpaceWidth (b : TextBox) : ℚ :=
  if b.HasTrailingWhiteSpace && b.HasNonCollapsibleText then
    b.used_font_.GetSpaceWidth
  else 0

/-- The local `non_collapsible_text_width` of
`TextBox::UpdateContentSizeAndMargins`. -/
def non_collapsible_text_width (b : TextBox) : ℚ :=
  if b.HasNonCollapsibleText then b.used_font_.GetBoundsWidth b.GetNonCollapsibleText
  else 0

/-- `TextBox::UpdateContentSizeAndMargins`. The function
`RoundToFixedPointPrecision` of `cobalt/layout/math.h` is the parameter
`round`. -/
def UpdateContentSizeAndMargins (round : ℚ → ℚ) (b : TextBox) : TextBox :=
  let width :=
    round (b.GetLeadingWhiteSpaceWidth + b.non_collapsible_text_width +
      b.GetTrailingWhiteSpaceWidth)
  let b1 : TextBox :=
    { b with
      margin_left := 0
      margin_top := 0
      margin_right := 0
      margin_bottom := 0
      width := width }
  if b1.baseline_offset_from_top_.isNone then
    { b1 with
      height := b1.used_font_.used_line_height
      baseline_offset_from_top_ := some b1.used_font_.baseline_offset_from_top }
  else b1

/-- `TextBox::SetShouldCollapseLeadingWhiteSpace`. -/
def SetShouldCollapseLeadingWhiteSpace (b : TextBox)
    (should_collapse_leading_white_space : Bool) : TextBox :=
  if b.should_collapse_leading_white_space_ != should_collapse_leading_white_space then
    { b with
      should_collapse_leading_white_space_ := should_collapse_leading_white_space
      update_size_results_valid_ := false }
  else b

/-- `TextBox::SetShouldCollapseTrailingWhiteSpace`. -/
def SetShouldCollapseTrailingWhiteSpace (b : TextBox)
    (should_collapse_trailing_white_space : Bool) : TextBox :=
  if b.should_collapse_trailing_white_space_ != should_collapse_trailing_white_space then
    { b with
      should_collapse_trailing_white_space_ := should_collapse_trailing_white_space
      update_size_results_valid_ := false }
  else b

/-- `TextBox::SplitAtPosition`: the first component is this box after the call,
the second the returned `box_after_split`. The new box is built by the
constructor from the old end position and the old line-break trigger, which are
read before this box is changed. -/
def SplitAtPosition (b : TextBox) (split_start_position : Int) : TextBox × TextBox :=
  let split_end_position := b.text_end_position_
  let b1 : TextBox :=
    { b with
      text_end_position_ := split_start_position
      update_size_results_valid_ := false }
  let b2 := UpdateTextHasTrailingWhiteSpace b1
  let box_after_split :=
    create b2.computed_style b2.paragraph_ split_start_position split_end_position
      b2.triggers_line_break_ b2.used_font_
  ({ b2 with triggers_line_break_ := false }, box_after_split)

/-- `TextBox::TrySplitAt`: this box after the call and the returned box, `none`
for the null `scoped_refptr`. -/
def TrySplitAt (b : TextBox) (available_width : ℚ) (allow_overflow : Bool) :
    TextBox × Option TextBox :=
  if !b.WhiteSpaceStyleAllowsWrapping then (b, none)
  else
    let available_width := available_width - b.GetLeadingWhiteSpaceWidth
    let start_position := b.GetNonCollapsibleTextStartPosition
    let overflow_wrap :=
      if b.computed_style.overflow_wrap = KeywordValue.kBreakWord then
        OverflowWrap.kBreakWordOverflowWrap
      else OverflowWrap.kSoftWrapOverflowWrap
    match b.paragraph_.CalculateBreakPosition b.used_font_ start_position
        b.text_end_position_ available_width allow_overflow overflow_wrap with
    | some (split_position, _) =>
      let r := b.SplitAtPosition split_position
      (r.1, some r.2)
    | none => (b, none)

/-- `TextBox::TrySplitAtSecondBidiLevelRun`. -/
def TrySplitAtSecondBidiLevelRun (b : TextBox) : TextBox × Option TextBox :=
  match b.paragraph_.GetNextRunPosition b.text_start_position_ with
  | some split_position =>
    if split_position < b.text_end_position_ then
      let r := b.SplitAtPosition split_position
      (r.1, some r.2)
    else (b, none)
  | none => (b, none)

end TextBox

/-- Modelled from the spec: `RoundToFixedPointPrecision` is declared in
`cobalt/layout/math.h`, which is not among the translated files. The spec says
that widths are "rounded to a fixed subpixel precision"; the model rounds to the
nearest multiple of 1/64. It is used only to evaluate
`TextBox.UpdateContentSizeAndMargins` at concrete inputs; the general results
about that function hold for every rounding function. -/
def RoundToFixedPointPrecision (value : ℚ) : ℚ :=
  ((value * 64 + 1 / 2).floor : ℚ) / 64

/-- One cut in a row of text boxes kept in text order: `SplitAtPosition` is
called on the box with index `i`, and the box it returns is placed right after
that box (it is the new trailing sibling). An index outside the row changes
nothing. -/
def SplitBoxAt : List TextBox → Nat → Int → List TextBox
  | [], _, _ => []
  | b :: rest, 0, p => (b.SplitAtPosition p).1 :: (b.SplitAtPosition p).2 :: rest
  | b :: rest, i + 1, p => b :: SplitBoxAt rest i p

/-- The cut `(i, p)` addresses a box of the row and `p` lies between the start
and the end of that box, both included. -/
def SplitAllowed : List TextBox → Nat → Int → Bool
  | [], _, _ => false
  | b :: _, 0, p => decide (b.text_start_position_ ≤ p) && decide (p ≤ b.text_end_position_)
  | _ :: rest, i + 1, p => SplitAllowed rest i p

/-- A finite sequence of cuts, applied from left to right. -/
def ApplySplits : List TextBox → List (Nat × Int) → List TextBox
  | boxes, [] => boxes
  | boxes, op :: ops => ApplySplits (SplitBoxAt boxes op.1 op.2) ops

/-- Every cut of the sequence is allowed on the row it is applied to. -/
def SplitsAllowed : List TextBox → List (Nat × Int) → Bool
  | _, [] => true
  | boxes, op :: ops =>
    SplitAllowed boxes op.1 op.2 && SplitsAllowed (SplitBoxAt boxes op.1 op.2) ops

/-- The row `boxes` tiles `[s, e)`: the first box starts at `s`, no box ends
before its own start, each box starts where the previous one ends, and the
last box ends at `e`. -/
def Tiles : Int → Int → List TextBox → Prop
  | s, e, [] => s = e
  | s, e, b :: rest =>
    b.text_start_position_ = s ∧ b.text_start_position_ ≤ b.text_end_position_ ∧
      Tiles b.text_end_position_ e rest

/-- The fallback ratio `kFallbackIntrinsicRatio` of `replaced_box.cc`. -/
def kFallbackIntrinsicRatio : ℚ := 2

/-- The fallback width `kFallbackWidth` of `replaced_box.cc`. -/
def kFallbackWidth : ℚ := 300

/-- The state of a `ReplacedBox` read or written by
`UpdateContentSizeAndMargins`: its intrinsic sizes and the `Box` geometry. -/
structure ReplacedBox where
  maybe_intrinsic_width_ : Option ℚ
  maybe_intrinsic_height_ : Option ℚ
  intrinsic_ratio_ : ℚ
  text_position_ : Int
  border_left_width : ℚ
  padding_left : ℚ
  padding_right : ℚ
  border_right_width : ℚ
  margin_left : ℚ
  margin_top : ℚ
  margin_right : ℚ
  margin_bottom : ℚ
  width : ℚ
  height : ℚ
  deriving DecidableEq, Repr

/-- The values `ReplacedBox::UpdateContentSizeAndMargins` obtains from the
used-style helpers (`GetUsedWidthIfNotAuto`, `GetUsedHeightIfNotAuto`,
`GetUsedMargin...IfNotAuto`; `none` is `auto`) and the width of the containing
block. -/
structure ReplacedLayoutParams where
  containing_block_width : ℚ
  maybe_width : Option ℚ
  maybe_height : Option ℚ
  maybe_margin_left : Option ℚ
  maybe_margin_right : Option ℚ
  maybe_margin_top : Option ℚ
  maybe_margin_bottom : Option ℚ
  deriving DecidableEq, Repr

namespace ReplacedBox

/-- The constructor `ReplacedBox::ReplacedBox`: a missing intrinsic ratio is
replaced by `kFallbackIntrinsicRatio`. Borders, paddings and the geometry start
at zero. -/
def create (text_position : Int) (maybe_intrinsic_width maybe_intrinsic_height
    maybe_intrinsic_ratio : Option ℚ) : ReplacedBox :=
  { maybe_intrinsic_width_ := maybe_intrinsic_width
    maybe_intrinsic_height_ := maybe_intrinsic_height
    intrinsic_ratio_ := maybe_intrinsic_ratio.getD kFallbackIntrinsicRatio
    text_position_ := text_position
    border_left_width := 0
    padding_left := 0
    padding_right := 0
    border_right_width := 0
    margin_left := 0
    margin_top := 0
    margin_right := 0
    margin_bottom := 0
    width := 0
    height := 0 }

/-- `Box::GetBorderBoxWidth`. -/
def GetBorderBoxWidth (b : ReplacedBox) : ℚ :=
  b.border_left_width + b.padding_left + b.width + b.padding_right + b.border_right_width

/-- `ReplacedBox::UpdateContentSizeAndMargins`. The virtual
`UpdateHorizontalMargins`, implemented by the block-level and inline-level
subclasses, is the parameter of the same name: from the containing block width,
the border box width and the two optional margins it gives the used left and
right margins. Division is that of `ℚ`; it stands for the division of the
source when the divisor is not zero, and the results about a height obtained
by division assume a ratio that is not zero. -/
def UpdateContentSizeAndMargins
    (UpdateHorizontalMargins : ℚ → ℚ → Option ℚ → Option ℚ → ℚ × ℚ)
    (b : ReplacedBox) (layout_params : ReplacedLayoutParams) : ReplacedBox :=
  let maybe_width := layout_params.maybe_width
  let maybe_height := layout_params.maybe_height
  let b1 : ReplacedBox :=
    match maybe_width with
    | none =>
      match maybe_height with
      | none =>
        match b.maybe_intrinsic_width_ with
        | some intrinsic_width => { b with width := intrinsic_width }
        | none =>
          match b.maybe_intrinsic_height_ with
          | some intrinsic_height => { b with width := intrinsic_height * b.intrinsic_ratio_ }
          | none => { b with width := kFallbackWidth }
      | some height => { b with width := height * b.intrinsic_ratio_ }
    | some width => { b with width := width }
  let border_box_width := b1.GetBorderBoxWidth
  let margins :=
    UpdateHorizontalMargins layout_params.containing_block_width border_box_width
      layout_params.maybe_margin_left layout_params.maybe_margin_right
  let b2 : ReplacedBox := { b1 with margin_left := margins.1, margin_right := margins.2 }
  let b3 : ReplacedBox :=
    { b2 with
      margin_top := layout_params.maybe_margin_top.getD 0
      margin_bottom := layout_params.maybe_margin_bottom.getD 0 }
  match maybe_height with
  | none =>
    if maybe_width.isNone && b3.maybe_intrinsic_height_.isSome then
      { b3 with height := b3.maybe_intrinsic_height_.getD 0 }
    else { b3 with height := b3.width / b3.intrinsic_ratio_ }
  | some height => { b3 with height := height }

end ReplacedBox

/-! ### Concrete inputs -/

/-- A font list with a space 1027/256 wide and every shaped text 2562/256
wide. -/
def sampleFont : FontList :=
  { GetSpaceWidth := 1027 / 256
    GetBoundsWidth := fun _ => 2562 / 256
    used_line_height := 16
    baseline_offset_from_top := 12 }

/-- A paragraph of ten characters with spaces at positions 0, 4 and 9, a bidi
run boundary at position 6, and a break search that accepts position 5 when
the available width is at least 20 or overflow is allowed. -/
def sampleParagraph : Paragraph :=
  { IsSpace := fun i => decide (i = 0 ∨ i = 4 ∨ i = 9)
    GetNextRunPosition := fun i => if i < 6 then some 6 else none
    CalculateBreakPosition := fun _ start_position end_position available_width
        allow_overflow _ =>
      if start_position < 5 ∧ 5 < end_position ∧ (20 ≤ available_width ∨ allow_overflow = true)
      then some (5, 20) else none
    RetrieveUtf8SubString := fun _ _ => "text" }

/-- The paragraph that holds a single space character. -/
def spaceParagraph : Paragraph :=
  { IsSpace := fun i => decide (i = 0)
    GetNextRunPosition := fun _ => none
    CalculateBreakPosition := fun _ _ _ _ _ _ => none
    RetrieveUtf8SubString := fun _ _ => "" }

/-- The style `white-space: normal; overflow-wrap: normal`. -/
def normalStyle : ComputedStyle :=
  { white_space := KeywordValue.kNormal, overflow_wrap := KeywordValue.kNormal }

/-- The text box built over the whole of `sampleParagraph`. -/
def sampleBox : TextBox :=
  TextBox.create normalStyle sampleParagraph 0 10 true sampleFont

/-- The text box built over the single space of `spaceParagraph`, after the
formatting pass has asked for both edges to be collapsed. -/
def collapsedSpaceBox : TextBox :=
  ((TextBox.create normalStyle spaceParagraph 0 1 false sampleFont).SetShouldCollapseLeadingWhiteSpace
    true).SetShouldCollapseTrailingWhiteSpace true

/-- Three cuts of `sampleBox`: at 4, then the second box at 7, then the first
box at 2. -/
def sampleSplits : List (Nat × Int) := [(0, 4), (1, 7), (0, 2)]

namespace ReplacedBox

/-- The used width as the specification words it, for comparison with the
width set by `UpdateContentSizeAndMargins`: the used width when it is not
`auto`, else the intrinsic width when it exists, else the intrinsic height
times the intrinsic ratio when the intrinsic height exists, else 300. -/
def StatedUsedWidth (b : ReplacedBox) (layout_params : ReplacedLayoutParams) : ℚ :=
  match layout_params.maybe_width with
  | some width => width
  | none =>
    match b.maybe_intrinsic_width_ with
    | some intrinsic_width => intrinsic_width
    | none =>
      match b.maybe_intrinsic_height_ with
      | some intrinsic_height => intrinsic_height * b.intrinsic_ratio_
      | none => 300

/-- The used height as the specification words it, for comparison with the
height set by `UpdateContentSizeAndMargins`: the used height when it is not
`auto`, else the intrinsic height when it exists, else the resolved used width
divided by the intrinsic ratio. -/
def StatedUsedHeight (b : ReplacedBox) (layout_params : ReplacedLayoutParams)
    (used_width : ℚ) : ℚ :=
  match layout_params.maybe_height with
  | some height => height
  | none =>
    match b.maybe_intrinsic_height_ with
    | some intrinsic_height => intrinsic_height
    | none => used_width / b.intrinsic_ratio_

end ReplacedBox

/-- A replaced box with intrinsic size 50 by 30 and the fallback ratio. -/
def sampleReplacedBox : ReplacedBox :=
  ReplacedBox.create 0 (some 50) (some 30) none

/-- Used width `auto`, used height 100, margin-top 7, the other margins
`auto`, in a containing block 1280 wide. -/
def heightOnlyParams : ReplacedLayoutParams :=
  { containing_block_width := 1280
    maybe_width := none
    maybe_height := some 100
    maybe_margin_left := none
    maybe_margin_right := none
    maybe_margin_top := some 7
    maybe_margin_bottom := none }

/-- Used width 100, used height `auto`, all margins `auto`, in a containing
block 1280 wide. -/
def widthOnlyParams : ReplacedLayoutParams :=
  { containing_block_width := 1280
    maybe_width := some 100
    maybe_height := none
    maybe_margin_left := none
    maybe_margin_right := none
    maybe_margin_top := none
    maybe_margin_bottom := none }

/-- A horizontal margin rule that turns `auto` into 0. -/
def zeroAutoMargins : ℚ → ℚ → Option ℚ → Option ℚ → ℚ × ℚ :=
  fun _ _ maybe_margin_left maybe_margin_right =>
    (maybe_margin_left.getD 0, maybe_margin_right.getD 0)

end layout

namespace cssom

/-- Modelled from the spec: the class `Specificity` of
`cobalt/cssom/specificity.h`, which is not among the translated files. The spec
describes it as the triple (id-count, class/attribute/pseudo-class-count,
type/pseudo-element-count). -/
structure Specificity where
  v0 : Nat
  v1 : Nat
  v2 : Nat
  deriving DecidableEq, Repr

namespace Specificity

/-- Modelled from the spec: the comparison of `Specificity` values (declared in
the absent `cobalt/cssom/specificity.h`); the spec fixes it as the
lexicographic order on the triples. -/
def Less (a b : Specificity) : Prop :=
  a.v0 < b.v0 ∨ (a.v0 = b.v0 ∧ (a.v1 < b.v1 ∨ (a.v1 = b.v1 ∧ a.v2 < b.v2)))

instance (a b : Specificity) : Decidable (Less a b) := by
  unfold Less
  infer_instance

end Specificity

/-- The class `IdSelector` of `cobalt/cssom/id_selector.h`. -/
structure IdSelector where
  id_ : String
  deriving DecidableEq, Repr

namespace IdSelector

/-- `IdSelector::GetSpecificity`. -/
def GetSpecificity (_selector : IdSelector) : Specificity :=
  { v0 := 1, v1 := 0, v2 := 0 }

/-- `IdSelector::id`. -/
def id (selector : IdSelector) : String :=
  selector.id_

end IdSelector

/-- A media query, known by the identity of the object (the test compares
pointers). -/
structure MediaQuery where
  handle : Nat
  deriving DecidableEq, Repr

/-- Modelled from the spec: the class `MediaList` of
`cobalt/cssom/media_list.h`, of which only the test `media_list_test.cc` is
among the translated files. It holds its queries in the order they were
appended. -/
structure MediaList where
  media_queries_ : List MediaQuery
  deriving DecidableEq, Repr

namespace MediaList

/-- Modelled from the spec: the constructor of `MediaList` (absent
`media_list.cc`): "an empty list". -/
def create : MediaList :=
  { media_queries_ := [] }

/-- Modelled from the spec: `MediaList::Append` (absent `media_list.cc`): the
query is added after the queries already held. -/
def Append (media_list : MediaList) (media_query : MediaQuery) : MediaList :=
  { media_list with media_queries_ := media_list.media_queries_ ++ [media_query] }

/-- Modelled from the spec: `MediaList::length` (absent `media_list.cc`): the
number of queries held. -/
def length (media_list : MediaList) : Nat :=
  media_list.media_queries_.length

/-- Modelled from the spec: `MediaList::Item` (absent `media_list.cc`): the
query at the index, and none (the null pointer) past the last query. -/
def Item (media_list : MediaList) (index : Nat) : Option MediaQuery :=
  if index < media_list.media_queries_.length then media_list.media_queries_[index]?
  else none

/-- The list obtained from the empty list by appending the given queries one
after the other. -/
def AppendAll (media_queries : List MediaQuery) : MediaList :=
  media_queries.foldl Append create

end MediaList

/-- Modelled from the spec: the origin of a style sheet (`cssom::Origin` of the
absent `cobalt/cssom/cascade_priority.h`), "tagged with an Origin {UserAgent,
Author, Inline}". -/
inductive Origin where
  | kUserAgent
  | kAuthor
  | kInline
  deriving DecidableEq, Repr

/-- Modelled from the spec: the rank of an origin in the cascade, "Origin
ordering UserAgent < Author < Inline" (absent
`cobalt/cssom/cascade_priority.h`). -/
def Origin.rank : Origin → Nat
  | Origin.kUserAgent => 0
  | Origin.kAuthor => 1
  | Origin.kInline => 2

/-- Modelled from the spec: one declaration matched for an element, with what
the cascade looks at (the cascade code is not among the translated files;
`rule_matching.h` only declares the matching functions). A value of `none` is a
value the parser could not produce. -/
structure MatchedDeclaration where
  property : String
  value : Option String
  important : Bool
  origin : Origin
  specificity : Specificity
  source_index : Nat
  deriving DecidableEq, Repr

/-- Modelled from the spec: the cascade order of section 4.2 (absent
`cobalt/cssom/cascade_priority.h`): `x` loses to `y` when `y` is important and
`x` is not; else, at equal importance, when the origin of `x` ranks lower;
else, at equal origin, when the specificity of `x` is lower; else, at equal
specificity, when the source index of `x` is smaller. -/
def CascadeLess (x y : MatchedDeclaration) : Prop :=
  (x.important = false ∧ y.important = true) ∨
    (x.important = y.important ∧
      (x.origin.rank < y.origin.rank ∨
        (x.origin.rank = y.origin.rank ∧
          (Specificity.Less x.specificity y.specificity ∨
            (x.specificity = y.specificity ∧ x.source_index < y.source_index)))))

instance (x y : MatchedDeclaration) : Decidable (CascadeLess x y) := by
  unfold CascadeLess
  infer_instance

/-- Modelled from the spec: the scan that keeps the best candidate seen so far
(absent cascade code); a candidate replaces the best one unless it loses to
it. -/
def PickWinner : Option MatchedDeclaration → List MatchedDeclaration → Option MatchedDeclaration
  | best, [] => best
  | none, d :: rest => PickWinner (some d) rest
  | some b, d :: rest => PickWinner (some (if CascadeLess d b then b else d)) rest

/-- Modelled from the spec: the candidates for a property (absent cascade
code): the matched declarations of that property whose value is not null
("dropped at this stage and never considered a candidate"). -/
def CascadeCandidates (matched : List MatchedDeclaration) (property : String) :
    List MatchedDeclaration :=
  matched.filter (fun d => decide (d.property = property) && d.value.isSome)

/-- Modelled from the spec: the winning declaration of a property for an
element (absent cascade code), `none` when no declaration applies. -/
def CascadeWinner (matched : List MatchedDeclaration) (property : String) :
    Option MatchedDeclaration :=
  PickWinner none (CascadeCandidates matched property)

/-- Six matched declarations of `color` and one of `width`: a user-agent
important one, a normal author one from an ID selector, two important author
ones from the same class selector at source indices 2 and 5, a normal inline
one, and an important author one whose value is null. -/
def sampleMatched : List MatchedDeclaration :=
  [ { property := "color", value := some "black", important := true,
      origin := Origin.kUserAgent, specificity := { v0 := 0, v1 := 0, v2 := 1 },
      source_index := 0 },
    { property := "color", value := some "red", important := false,
      origin := Origin.kAuthor, specificity := { v0 := 1, v1 := 0, v2 := 0 },
      source_index := 1 },
    { property := "color", value := some "blue", important := true,
      origin := Origin.kAuthor, specificity := { v0 := 0, v1 := 1, v2 := 0 },
      source_index := 2 },
    { property := "color", value := some "green", important := false,
      origin := Origin.kInline, specificity := { v0 := 0, v1 := 0, v2 := 0 },
      source_index := 3 },
    { property := "color", value := none, important := true,
      origin := Origin.kAuthor, specificity := { v0 := 1, v1 := 0, v2 := 0 },
      source_index := 4 },
    { property := "color", value := some "navy", important := true,
      origin := Origin.kAuthor, specificity := { v0 := 0, v1 := 1, v2 := 0 },
      source_index := 5 },
    { property := "width", value := some "10px", important := true,
      origin := Origin.kInline, specificity := { v0 := 0, v1 := 0, v2 := 0 },
      source_index := 6 } ]

/-- The declaration of `sampleMatched` that wins for `color`. -/
def sampleWinner : MatchedDeclaration :=
  { property := "color", value := some "navy", important := true,
    origin := Origin.kAuthor, specificity := { v0 := 0, v1 := 1, v2 := 0 },
    source_index := 5 }

end cssom

namespace dom

/-- The enumeration `Event::EventPhase`, of which `event_target.cc` names
`kNone`, `kCapturingPhase`, `kAtTarget` and `kBubblingPhase`. -/
inductive EventPhase where
  | kNone
  | kCapturingPhase
  | kAtTarget
  | kBubblingPhase
  deriving DecidableEq, Repr

/-- Modelled from the spec: the class `Event` of `cobalt/dom/event.h`, which is
not among the translated files and on which the spec is silent; the members are
those `event_target.cc` and `event_target_test.cc` use. An event target is
named by its address. -/
structure Event where
  type_ : String
  target_ : Option Nat
  current_target_ : Option Nat
  event_phase_ : EventPhase
  bubbles_ : Bool
  cancelable_ : Bool
  default_prevented_ : Bool
  propagation_stopped_ : Bool
  immediate_propagation_stopped_ : Bool
  deriving DecidableEq, Repr

namespace Event

/-- The constructor `Event(type, bubbles, cancelable)`: no target, phase
`kNone`, no flag set. -/
def create (type : String) (bubbles cancelable : Bool) : Event :=
  { type_ := type
    target_ := none
    current_target_ := none
    event_phase_ := EventPhase.kNone
    bubbles_ := bubbles
    cancelable_ := cancelable
    default_prevented_ := false
    propagation_stopped_ := false
    immediate_propagation_stopped_ := false }

/-- `Event::set_target`. -/
def set_target (event : Event) (target : Option Nat) : Event :=
  { event with target_ := target }

/-- `Event::set_current_target`. -/
def set_current_target (event : Event) (target : Option Nat) : Event :=
  { event with current_target_ := target }

/-- `Event::set_event_phase`. -/
def set_event_phase (event : Event) (phase : EventPhase) : Event :=
  { event with event_phase_ := phase }

/-- `Event::IsBeingDispatched`. -/
def IsBeingDispatched (event : Event) : Bool :=
  event.event_phase_ != EventPhase.kNone

/-- `Event::StopPropagation`. -/
def StopPropagation (event : Event) : Event :=
  { event with propagation_stopped_ := true }

/-- `Event::StopImmediatePropagation`. -/
def StopImmediatePropagation (event : Event) : Event :=
  { event with propagation_stopped_ := true, immediate_propagation_stopped_ := true }

/-- `Event::PreventDefault`: it has an effect on a cancelable event only (the
test `PreventDefault` expects `DispatchEvent` to return true for an event that
is not cancelable). -/
def PreventDefault (event : Event) : Event :=
  if event.cancelable_ then { event with default_prevented_ := true } else event

end Event

/-- The operations a listener can call on the event it is handed: the three
operations of the script interface of `Event` (the other attributes are
read-only for a listener). -/
inductive EventCall where
  | StopPropagation
  | StopImmediatePropagation
  | PreventDefault
  deriving DecidableEq, Repr

/-- The effect of one call of a listener on the event. -/
def EventCall.apply (event : Event) : EventCall → Event
  | EventCall.StopPropagation => event.StopPropagation
  | EventCall.StopImmediatePropagation => event.StopImmediatePropagation
  | EventCall.PreventDefault => event.PreventDefault

/-- Modelled from the spec: the class `EventListener` (absent
`cobalt/dom/event_listener.h`, spec silent). A listener wraps a script object,
named by `script_object`; `calls event` are the operations its handler calls on
the event it receives. -/
structure EventListener where
  script_object : Nat
  calls : Event → List EventCall

namespace EventListener

/-- `EventListener::EqualTo`: two listeners are equal when they wrap the same
script object. -/
def EqualTo (listener other : EventListener) : Bool :=
  listener.script_object == other.script_object

/-- `EventListener::HandleEvent`, by its effect on the event. -/
def HandleEvent (listener : EventListener) (event : Event) : Event :=
  (listener.calls event).foldl EventCall.apply event

end EventListener

/-- The record `EventTarget::EventListenerInfo`. -/
structure EventListenerInfo where
  type : String
  listener : EventListener
  use_capture : Bool

/-- The condition tested by the loops of `AddEventListener` and
`RemoveEventListener`. -/
def EventListenerInfo.Matches (info : EventListenerInfo) (type : String)
    (listener : EventListener) (use_capture : Bool) : Bool :=
  info.type == type && info.listener.EqualTo listener && info.use_capture == use_capture

/-- The class `EventTarget`: its address (the value of `this`) and its listener
registrations. -/
structure EventTarget where
  address : Nat
  event_listener_infos_ : List EventListenerInfo

/-- One `HandleEvent` call made during a dispatch: the registration whose
listener was called and the event as it was when the call was made. -/
structure Invocation where
  info : EventListenerInfo
  event : Event

/-- What `DispatchEvent` leaves behind: the returned value, the event after the
call, and the `HandleEvent` calls made, in the order they were made. -/
structure DispatchResult where
  result : Bool
  event : Event
  invocations : List Invocation

namespace EventTarget

/-- `EventTarget::AddEventListener`: the loop returns at the first matching
registration; without one the new registration is pushed at the back. -/
def AddEventListener (this : EventTarget) (type : String) (listener : EventListener)
    (use_capture : Bool) : EventTarget :=
  if this.event_listener_infos_.any (fun info => info.Matches type listener use_capture) then
    this
  else
    { this with
      event_listener_infos_ :=
        this.event_listener_infos_ ++
          [{ type := type, listener := listener, use_capture := use_capture }] }

/-- The loop of `EventTarget::RemoveEventListener`: the first matching
registration is erased and the loop returns. -/
def EraseFirstMatch (type : String) (listener : EventListener) (use_capture : Bool) :
    List EventListenerInfo → List EventListenerInfo
  | [] => []
  | info :: rest =>
    if info.Matches type listener use_capture then rest
    else info :: EraseFirstMatch type listener use_capture rest

/-- `EventTarget::RemoveEventListener`. -/
def RemoveEventListener (this : EventTarget) (type : String) (listener : EventListener)
    (use_capture : Bool) : EventTarget :=
  { this with
    event_listener_infos_ := EraseFirstMatch type listener use_capture this.event_listener_infos_ }

/-- The loop of `EventTarget::FireEventOnListeners` over the copied list: the
event after the loop and the `HandleEvent` calls made. -/
def FireLoop : List EventListenerInfo → Event → Event × List Invocation
  | [], event => (event, [])
  | info :: rest, event =>
    if event.immediate_propagation_stopped_ then FireLoop rest event
    else if info.type != event.type_ then FireLoop rest event
    else if event.event_phase_ == EventPhase.kCapturingPhase && !info.use_capture then
      FireLoop rest event
    else if event.event_phase_ == EventPhase.kBubblingPhase && info.use_capture then
      FireLoop rest event
    else
      ((FireLoop rest (info.listener.HandleEvent event)).1,
        { info := info, event := event } ::
          (FireLoop rest (info.listener.HandleEvent event)).2)

/-- `EventTarget::FireEventOnListeners`. The three `DCHECK`s are debug
assertions and are not part of the model. -/
def FireEventOnListeners (this : EventTarget) (event : Event) : Event × List Invocation :=
  let event1 := event.set_current_target (some this.address)
  let event_listener_infos := this.event_listener_infos_
  let fired := FireLoop event_listener_infos event1
  (fired.1.set_current_target none, fired.2)

/-- `EventTarget::DispatchEvent`. -/
def DispatchEvent (this : EventTarget) (event : Event) : DispatchResult :=
  let event1 := event.set_target (some this.address)
  let event2 := event1.set_event_phase EventPhase.kAtTarget
  let fired := this.FireEventOnListeners event2
  let event3 := fired.1.set_event_phase EventPhase.kNone
  { result := !event3.default_prevented_, event := event3, invocations := fired.2 }

end EventTarget

/-- A listener that calls nothing on the event. -/
def quietListener (script_object : Nat) : EventListener :=
  { script_object := script_object, calls := fun _ => [] }

/-- A listener that makes one call on the event. -/
def callingListener (script_object : Nat) (call : EventCall) : EventListener :=
  { script_object := script_object, calls := fun _ => [call] }

/-- The target of the test `MultipleEventListeners`: listener 1 for "fired",
listener 3 for "notfired", listener 2 for "fired" with the capture flag. -/
def multipleListenersTarget : EventTarget :=
  (((({ address := 1, event_listener_infos_ := [] } : EventTarget).AddEventListener "fired"
    (quietListener 1) false).AddEventListener "notfired" (quietListener 3)
    false).AddEventListener "fired" (quietListener 2) true)

/-- The target of the test `StopImmediatePropagation`: the first listener for
"fired" stops immediate propagation, the second is quiet. -/
def stopImmediateTarget : EventTarget :=
  (({ address := 2, event_listener_infos_ := [] } : EventTarget).AddEventListener "fired"
    (callingListener 1 EventCall.StopImmediatePropagation) false).AddEventListener "fired"
    (quietListener 2) true

/-- The target of the test `StopPropagation`: the first listener for "fired"
stops propagation, the second is quiet. -/
def stopPropagationTarget : EventTarget :=
  (({ address := 3, event_listener_infos_ := [] } : EventTarget).AddEventListener "fired"
    (callingListener 1 EventCall.StopPropagation) false).AddEventListener "fired"
    (quietListener 2) true

/-- The target of the test `PreventDefault`: one listener for "fired" that
prevents the default. -/
def preventDefaultTarget : EventTarget :=
  ({ address := 4, event_listener_infos_ := [] } : EventTarget).AddEventListener "fired"
    (callingListener 1 EventCall.PreventDefault) false

/-- A call of `AddEventListener` or `RemoveEventListener` with its three
arguments. -/
inductive ListenerCommand where
  | Add (type : String) (listener : EventListener) (use_capture : Bool)
  | Remove (type : String) (listener : EventListener) (use_capture : Bool)

/-- The target after one call. -/
def ApplyListenerCommand (target : EventTarget) : ListenerCommand → EventTarget
  | ListenerCommand.Add type listener use_capture =>
    target.AddEventListener type listener use_capture
  | ListenerCommand.Remove type listener use_capture =>
    target.RemoveEventListener type listener use_capture

/-- The target after a sequence of calls, made from left to right. -/
def ApplyListenerCommands (target : EventTarget) (commands : List ListenerCommand) :
    EventTarget :=
  commands.foldl ApplyListenerCommand target

/-- Four calls on one listener: it is added for "fired", added again, added
with the capture flag, and removed without it. -/
def sampleListenerCommands : List ListenerCommand :=
  [ ListenerCommand.Add "fired" (quietListener 1) false,
    ListenerCommand.Add "fired" (quietListener 1) false,
    ListenerCommand.Add "fired" (quietListener 1) true,
    ListenerCommand.Remove "fired" (quietListener 1) false ]

end dom

namespace layout

namespace TextBox

/-- `TextBox::DoesTriggerLineBreak`. -/
def DoesTriggerLineBreak (b : TextBox) : Bool :=
  b.triggers_line_break_

/-- `TextBox::ValidateUpdateSizeInputs`: the returned value and the box after
the call. The result of `Box::ValidateUpdateSizeInputs(params)`, a member of the
base class, is the argument `box_inputs_valid`. -/
def ValidateUpdateSizeInputs (b : TextBox) (box_inputs_valid : Bool) : Bool × TextBox :=
  if box_inputs_valid && b.update_size_results_valid_ then (true, b)
  else (false, { b with update_size_results_valid_ := true })

end TextBox

/-- The cut `(i, p)` addresses a box of the row and `p` lies after the start of
that box and not after its end. -/
def SplitInside : List TextBox → Nat → Int → Bool
  | [], _, _ => false
  | b :: _, 0, p => decide (b.text_start_position_ < p) && decide (p ≤ b.text_end_position_)
  | _ :: rest, i + 1, p => SplitInside rest i p

/-- Every cut of the sequence lies inside the box it is applied to. -/
def SplitsInside : List TextBox → List (Nat × Int) → Bool
  | _, [] => true
  | boxes, op :: ops =>
    SplitInside boxes op.1 op.2 && SplitsInside (SplitBoxAt boxes op.1 op.2) ops

/-- In the row `boxes` only the last box may trigger a line break, and it does
exactly when `trigger` is set. -/
def TriggerAtEnd (trigger : Bool) : List TextBox → Prop
  | [] => True
  | b :: rest => b.triggers_line_break_ = (rest.isEmpty && trigger) ∧ TriggerAtEnd trigger rest

/-- The cached white-space flags of the box are those its range gives: the
leading flag says that the range is not empty and starts with a space, the
trailing flag that it is not empty and has a space as last character. -/
def FlagsAgree (b : TextBox) : Prop :=
  b.text_has_leading_white_space_ =
      (decide (b.text_start_position_ < b.text_end_position_) &&
        b.paragraph_.IsSpace b.text_start_position_) ∧
    b.text_has_trailing_white_space_ =
      (decide (b.text_start_position_ < b.text_end_position_) &&
        b.paragraph_.IsSpace (b.text_end_position_ - 1))

/-- The text box built over the single space of `spaceParagraph`, with no
collapse requested. -/
def spaceBox : TextBox :=
  TextBox.create normalStyle spaceParagraph 0 1 false sampleFont

end layout

namespace webdriver

/-- The constant `kWebDriverSessionId`. -/
def kWebDriverSessionId : String := "session-0"

/-- The constant `kMaxSessionsCreatedMessage`. -/
def kMaxSessionsCreatedMessage : String := "Maximum number of sessions have been created."

/-- The constant `kUnsupportedCapabilities`. -/
def kUnsupportedCapabilities : String := "An unsupported capability was requested."

/-- The constant `kUnknownSessionCreationError`. -/
def kUnknownSessionCreationError : String :=
  "An unknown error occurred trying to create a new session."

namespace protocol

/-- The status codes of `protocol::Response` that `web_driver_module.cc`
names. -/
inductive StatusCode where
  | kSuccess
  | kUnknownError
  | kSessionNotCreatedException
  deriving DecidableEq, Repr

/-- The class `protocol::Capabilities`, by what `CreateSessionInternal` asks of
it. -/
structure Capabilities where
  browser_name : String
  AreCapabilitiesSupported : Bool
  deriving DecidableEq, Repr

/-- The class `protocol::RequestedCapabilities`: the optional required
capabilities (the desired ones are ignored by the code). -/
structure RequestedCapabilities where
  required : Option Capabilities
  deriving DecidableEq, Repr

end protocol

open protocol

/-- The class `util::CommandResult<protocol::Capabilities>`: a status code with
either a result or an error message. -/
structure CommandResult where
  status_code : StatusCode
  result : Option Capabilities
  error_message : String
  deriving DecidableEq, Repr

/-- The class `SessionDriver`, by the members the module calls. -/
structure SessionDriver where
  session_id : String
  GetCapabilities : CommandResult
  deriving DecidableEq, Repr

/-- The state of `WebDriverModule` that the session commands read or write. -/
structure WebDriverModule where
  create_session_driver_cb_ : String → Option SessionDriver
  session_ : Option SessionDriver

namespace WebDriverModule

/-- `WebDriverModule::CreateSessionInternal`: the returned result and the
module after the call. -/
def CreateSessionInternal (module : WebDriverModule)
    (requested_capabilities : RequestedCapabilities) : CommandResult × WebDriverModule :=
  if module.session_.isSome then
    ({ status_code := StatusCode.kSessionNotCreatedException, result := none,
       error_message := kMaxSessionsCreatedMessage }, module)
  else if requested_capabilities.required.isSome &&
      !(requested_capabilities.required.map
        (fun c => c.AreCapabilitiesSupported)).getD true then
    ({ status_code := StatusCode.kSessionNotCreatedException, result := none,
       error_message := kUnsupportedCapabilities }, module)
  else
    match module.create_session_driver_cb_ kWebDriverSessionId with
    | none =>
      ({ status_code := StatusCode.kUnknownError, result := none,
         error_message := kUnknownSessionCreationError },
        { module with session_ := none })
    | some session => (session.GetCapabilities, { module with session_ := some session })

/-- `WebDriverModule::DeleteSession`, by its effect on the module;
`session_id_variable` is the value of the path variable `:sessionId`. -/
def DeleteSession (module : WebDriverModule) (session_id_variable : String) :
    WebDriverModule :=
  match module.session_ with
  | some session =>
    if session_id_variable = session.session_id then { module with session_ := none }
    else module
  | none => module

end WebDriverModule

/-- A request that creates or deletes a session. -/
inductive SessionCommand where
  | Create (requested_capabilities : RequestedCapabilities)
  | Delete (session_id_variable : String)

/-- The module after one request. -/
def ApplySessionCommand (module : WebDriverModule) : SessionCommand → WebDriverModule
  | SessionCommand.Create requested_capabilities =>
    (module.CreateSessionInternal requested_capabilities).2
  | SessionCommand.Delete session_id_variable => module.DeleteSession session_id_variable

/-- The module after a sequence of requests. -/
def ApplySessionCommands (module : WebDriverModule) (commands : List SessionCommand) :
    WebDriverModule :=
  commands.foldl ApplySessionCommand module

/-- A session-creation callback that always succeeds and gives the driver the
id it is handed. -/
def sampleCreateSessionDriver : String → Option SessionDriver :=
  fun session_id =>
    some { session_id := session_id,
           GetCapabilities :=
             { status_code := StatusCode.kSuccess,
               result := some { browser_name := "cobalt", AreCapabilitiesSupported := true },
               error_message := "" } }

/-- A module without session. -/
def sampleModule : WebDriverModule :=
  { create_session_driver_cb_ := sampleCreateSessionDriver, session_ := none }

end webdriver

namespace debug

/-- The mode constants of `debug::DebugHub`, declared in the absent
`cobalt/debug/debug_hub.h`; `debug_console.cc` uses them by name only. -/
structure DebugHubModes where
  kDebugConsoleOff : Int
  kDebugConsoleHud : Int
  kDebugConsoleOn : Int
  kDebugConsoleNumModes : Int
  deriving DecidableEq, Repr

end debug

namespace browser

open debug

/-- The constant `kDebugConsoleOffString`. -/
def kDebugConsoleOffString : String := "off"

/-- The constant `kDebugConsoleOnString`. -/
def kDebugConsoleOnString : String := "on"

/-- The constant `kDebugConsoleHudString`. -/
def kDebugConsoleHudString : String := "hud"

/-- `DebugConsoleModeIntToString`: the `switch` over the three mode constants,
with the "off" string as default. -/
def DebugConsoleModeIntToString (modes : DebugHubModes) (mode : Int) : String :=
  if mode = modes.kDebugConsoleHud then kDebugConsoleHudString
  else if mode = modes.kDebugConsoleOn then kDebugConsoleOnString
  else if mode = modes.kDebugConsoleOff then kDebugConsoleOffString
  else kDebugConsoleOffString

/-- The state of `DebugConsole` that the mode functions read or write: the
member `mode_` and the contents of the preferences file written by
`SaveModeToPreferences` (`none` while nothing has been written). -/
structure DebugConsole where
  mode_ : Int
  saved_preferences : Option String
  deriving DecidableEq, Repr

namespace DebugConsole

/-- `SaveModeToPreferences`, by its effect on the preferences file. -/
def SaveModeToPreferences (modes : DebugHubModes) (console : DebugConsole) (mode : Int) :
    DebugConsole :=
  { console with saved_preferences := some (DebugConsoleModeIntToString modes mode) }

/-- `DebugConsole::SetMode`. -/
def SetMode (modes : DebugHubModes) (console : DebugConsole) (mode : Int) : DebugConsole :=
  let console1 : DebugConsole := { console with mode_ := mode }
  let mode_to_save := console1.mode_
  SaveModeToPreferences modes console1 mode_to_save

/-- `DebugConsole::CycleMode`; `%` on `int` is the truncating remainder. -/
def CycleMode (modes : DebugHubModes) (console : DebugConsole) : DebugConsole :=
  let console1 : DebugConsole :=
    { console with mode_ := (console.mode_ + 1).tmod modes.kDebugConsoleNumModes }
  let mode_to_save := console1.mode_
  SaveModeToPreferences modes console1 mode_to_save

/-- `DebugConsole::GetMode`. -/
def GetMode (console : DebugConsole) : Int :=
  console.mode_

end DebugConsole

/-- Mode constants with off = 0, hud = 1, on = 2 and three modes. -/
def sampleModes : DebugHubModes :=
  { kDebugConsoleOff := 0, kDebugConsoleHud := 1, kDebugConsoleOn := 2,
    kDebugConsoleNumModes := 3 }

/-- A console in mode 1 with nothing saved. -/
def sampleConsole : DebugConsole :=
  { mode_ := 1, saved_preferences := none }

end browser

end cobalt

namespace glimp

namespace gles

/-- `std::min` on `float`, as the standard defines it. -/
def std_min (a b : ℚ) : ℚ :=
  if b < a then b else a

/-- `std::max` on `float`, as the standard defines it. -/
def std_max (a b : ℚ) : ℚ :=
  if a < b then b else a

/-- The struct `ClearColor` of `glimp/gles/draw_state.h`. -/
structure ClearColor where
  red : ℚ
  green : ℚ
  blue : ℚ
  alpha : ℚ
  deriving DecidableEq, Repr

namespace ClearColor

/-- The default constructor `ClearColor()`. -/
def init : ClearColor :=
  { red := 0, green := 0, blue := 0, alpha := 0 }

/-- The constructor `ClearColor(red, green, blue, alpha)`. -/
def create (red green blue alpha : ℚ) : ClearColor :=
  { red := std_min 1 (std_max 1 red)
    green := std_min 1 (std_max 1 green)
    blue := std_min 1 (std_max 1 blue)
    alpha := std_min 1 (std_max 1 alpha) }

/-- The clamping of a component to `[0,1]` that the specification of
`glClearColor` asks for, to compare with what `create` stores. -/
def Clamped (value : ℚ) : ℚ :=
  if value < 0 then 0 else if 1 < value then 1 else value

end ClearColor

end gles

end glimp

namespace sh

/-- The enumeration `TOperator` of `Operator_autogen.h`, with its enumerators in
the order of the source, so that the index of a constructor is the value of the
enumerator. The alias `EOpLastNonBuiltIn` is a definition of its own. -/
inductive TOperator where
  | EOpNull
  | EOpCallFunctionInAST
  | EOpCallInternalRawFunction
  | EOpKill
  | EOpReturn
  | EOpBreak
  | EOpContinue
  | EOpConstruct
  | EOpNegative
  | EOpPositive
  | EOpLogicalNot
  | EOpBitwiseNot
  | EOpPostIncrement
  | EOpPostDecrement
  | EOpPreIncrement
  | EOpPreDecrement
  | EOpArrayLength
  | EOpAdd
  | EOpSub
  | EOpMul
  | EOpDiv
  | EOpIMod
  | EOpEqual
  | EOpNotEqual
  | EOpLessThan
  | EOpGreaterThan
  | EOpLessThanEqual
  | EOpGreaterThanEqual
  | EOpComma
  | EOpVectorTimesScalar
  | EOpVectorTimesMatrix
  | EOpMatrixTimesVector
  | EOpMatrixTimesScalar
  | EOpMatrixTimesMatrix
  | EOpLogicalOr
  | EOpLogicalXor
  | EOpLogicalAnd
  | EOpBitShiftLeft
  | EOpBitShiftRight
  | EOpBitwiseAnd
  | EOpBitwiseXor
  | EOpBitwiseOr
  | EOpIndexDirect
  | EOpIndexIndirect
  | EOpIndexDirectStruct
  | EOpIndexDirectInterfaceBlock
  | EOpAssign
  | EOpInitialize
  | EOpAddAssign
  | EOpSubAssign
  | EOpMulAssign
  | EOpVectorTimesMatrixAssign
  | EOpVectorTimesScalarAssign
  | EOpMatrixTimesScalarAssign
  | EOpMatrixTimesMatrixAssign
  | EOpDivAssign
  | EOpIModAssign
  | EOpBitShiftLeftAssign
  | EOpBitShiftRightAssign
  | EOpBitwiseAndAssign
  | EOpBitwiseXorAssign
  | EOpBitwiseOrAssign
  | EOpRadians
  | EOpDegrees
  | EOpSin
  | EOpCos
  | EOpTan
  | EOpAsin
  | EOpAcos
  | EOpAtan
  | EOpSinh
  | EOpCosh
  | EOpTanh
  | EOpAsinh
  | EOpAcosh
  | EOpAtanh
  | EOpPow
  | EOpExp
  | EOpLog
  | EOpExp2
  | EOpLog2
  | EOpSqrt
  | EOpInversesqrt
  | EOpAbs
  | EOpSign
  | EOpFloor
  | EOpTrunc
  | EOpRound
  | EOpRoundEven
  | EOpCeil
  | EOpFract
  | EOpMod
  | EOpMin
  | EOpMax
  | EOpClamp
  | EOpMix
  | EOpStep
  | EOpSmoothstep
  | EOpModf
  | EOpIsnan
  | EOpIsinf
  | EOpFloatBitsToInt
  | EOpFloatBitsToUint
  | EOpIntBitsToFloat
  | EOpUintBitsToFloat
  | EOpFma
  | EOpFrexp
  | EOpLdexp
  | EOpPackSnorm2x16
  | EOpPackHalf2x16
  | EOpUnpackSnorm2x16
  | EOpUnpackHalf2x16
  | EOpPackUnorm2x16
  | EOpUnpackUnorm2x16
  | EOpPackUnorm4x8
  | EOpPackSnorm4x8
  | EOpUnpackUnorm4x8
  | EOpUnpackSnorm4x8
  | EOpPackDouble2x32
  | EOpUnpackDouble2x32
  | EOpLength
  | EOpDistance
  | EOpDot
  | EOpCross
  | EOpNormalize
  | EOpFaceforward
  | EOpReflect
  | EOpRefract
  | EOpFtransform
  | EOpMatrixCompMult
  | EOpOuterProduct
  | EOpTranspose
  | EOpDeterminant
  | EOpInverse
  | EOpLessThanComponentWise
  | EOpLessThanEqualComponentWise
  | EOpGreaterThanComponentWise
  | EOpGreaterThanEqualComponentWise
  | EOpEqualComponentWise
  | EOpNotEqualComponentWise
  | EOpAny
  | EOpAll
  | EOpNotComponentWise
  | EOpBitfieldExtract
  | EOpBitfieldInsert
  | EOpBitfieldReverse
  | EOpBitCount
  | EOpFindLSB
  | EOpFindMSB
  | EOpUaddCarry
  | EOpUsubBorrow
  | EOpUmulExtended
  | EOpImulExtended
  | EOpTexture2D
  | EOpTexture2DProj
  | EOpTextureCube
  | EOpTexture1D
  | EOpTexture1DProj
  | EOpTexture3D
  | EOpTexture3DProj
  | EOpShadow1D
  | EOpShadow1DProj
  | EOpShadow2D
  | EOpShadow2DProj
  | EOpShadow2DEXT
  | EOpShadow2DProjEXT
  | EOpTexture2DRect
  | EOpTexture2DRectProj
  | EOpTexture2DGradEXT
  | EOpTexture2DProjGradEXT
  | EOpTextureCubeGradEXT
  | EOpTextureVideoWEBGL
  | EOpTexture2DBias
  | EOpTexture2DProjBias
  | EOpTextureCubeBias
  | EOpTexture3DBias
  | EOpTexture3DProjBias
  | EOpTexture1DBias
  | EOpTexture1DProjBias
  | EOpShadow1DBias
  | EOpShadow1DProjBias
  | EOpShadow2DBias
  | EOpShadow2DProjBias
  | EOpTexture2DLod
  | EOpTexture2DProjLod
  | EOpTextureCubeLod
  | EOpTexture1DLod
  | EOpTexture1DProjLod
  | EOpShadow1DLod
  | EOpShadow1DProjLod
  | EOpShadow2DLod
  | EOpShadow2DProjLod
  | EOpTexture3DLod
  | EOpTexture3DProjLod
  | EOpTexture2DLodVS
  | EOpTexture2DProjLodVS
  | EOpTextureCubeLodVS
  | EOpTexture2DLodEXTFS
  | EOpTexture2DProjLodEXTFS
  | EOpTextureCubeLodEXTFS
  | EOpTexture
  | EOpTextureProj
  | EOpTextureLod
  | EOpTextureSize
  | EOpTextureProjLod
  | EOpTexelFetch
  | EOpTextureGrad
  | EOpTextureProjGrad
  | EOpTextureQueryLevels
  | EOpTextureSamples
  | EOpTextureBias
  | EOpTextureProjBias
  | EOpTextureQueryLod
  | EOpTextureOffset
  | EOpTextureProjOffset
  | EOpTextureLodOffset
  | EOpTextureProjLodOffset
  | EOpTexelFetchOffset
  | EOpTextureGradOffset
  | EOpTextureProjGradOffset
  | EOpTextureOffsetBias
  | EOpTextureProjOffsetBias
  | EOpTextureGather
  | EOpTextureGatherOffset
  | EOpTextureGatherOffsetComp
  | EOpTextureGatherOffsets
  | EOpTextureGatherOffsetsComp
  | EOpRgb_2_yuv
  | EOpYuv_2_rgb
  | EOpDFdx
  | EOpDFdy
  | EOpFwidth
  | EOpDFdxFine
  | EOpDFdyFine
  | EOpDFdxCoarse
  | EOpDFdyCoarse
  | EOpFwidthFine
  | EOpFwidthCoarse
  | EOpInterpolateAtCentroid
  | EOpInterpolateAtSample
  | EOpInterpolateAtOffset
  | EOpAtomicCounter
  | EOpAtomicCounterIncrement
  | EOpAtomicCounterDecrement
  | EOpAtomicCounterAdd
  | EOpAtomicCounterSubtract
  | EOpAtomicCounterMin
  | EOpAtomicCounterMax
  | EOpAtomicCounterAnd
  | EOpAtomicCounterOr
  | EOpAtomicCounterXor
  | EOpAtomicCounterExchange
  | EOpAtomicCounterCompSwap
  | EOpAtomicAdd
  | EOpAtomicMin
  | EOpAtomicMax
  | EOpAtomicAnd
  | EOpAtomicOr
  | EOpAtomicXor
  | EOpAtomicExchange
  | EOpAtomicCompSwap
  | EOpImageSize
  | EOpImageSamples
  | EOpImageStore
  | EOpImageLoad
  | EOpImageAtomicAdd
  | EOpImageAtomicMin
  | EOpImageAtomicMax
  | EOpImageAtomicAnd
  | EOpImageAtomicOr
  | EOpImageAtomicXor
  | EOpImageAtomicExchange
  | EOpImageAtomicCompSwap
  | EOpPixelLocalLoadANGLE
  | EOpPixelLocalStoreANGLE
  | EOpBeginInvocationInterlockNV
  | EOpEndInvocationInterlockNV
  | EOpBeginFragmentShaderOrderingINTEL
  | EOpBeginInvocationInterlockARB
  | EOpEndInvocationInterlockARB
  | EOpNoise1
  | EOpNoise2
  | EOpNoise3
  | EOpNoise4
  | EOpMemoryBarrier
  | EOpMemoryBarrierAtomicCounter
  | EOpMemoryBarrierBuffer
  | EOpMemoryBarrierImage
  | EOpBarrier
  | EOpMemoryBarrierShared
  | EOpGroupMemoryBarrier
  | EOpBarrierTCS
  | EOpEmitVertex
  | EOpEndPrimitive
  | EOpEmitStreamVertex
  | EOpEndStreamPrimitive
  | EOpSubpassLoad
  | EOpAnyInvocation
  | EOpAllInvocations
  | EOpAllInvocationsEqual
  | EOpNumSamples
  | EOpSamplePosition
  | EOpSaturate
  deriving DecidableEq, Repr

namespace TOperator

/-- The enumerator `EOpLastNonBuiltIn = EOpBitwiseOrAssign`. -/
def EOpLastNonBuiltIn : TOperator :=
  TOperator.EOpBitwiseOrAssign

/-- The numeric value of an operator, on which the comparisons of the source
work. -/
def value (op : TOperator) : Nat :=
  op.toCtorIdx

end TOperator

namespace BuiltInGroup

open TOperator

/-- `BuiltInGroup::IsBuiltIn`. -/
def IsBuiltIn (op : TOperator) : Bool :=
  decide (op.value > EOpLastNonBuiltIn.value)

/-- `BuiltInGroup::IsMath`. -/
def IsMath (op : TOperator) : Bool :=
  decide (op.value ≥ EOpRadians.value) && decide (op.value ≤ EOpImulExtended.value)

/-- `BuiltInGroup::IsTextureOffsetNoBias`. -/
def IsTextureOffsetNoBias (op : TOperator) : Bool :=
  decide (op.value ≥ EOpTextureOffset.value) &&
    decide (op.value ≤ EOpTextureProjGradOffset.value)

/-- `BuiltInGroup::IsTextureOffsetBias`. -/
def IsTextureOffsetBias (op : TOperator) : Bool :=
  decide (op.value ≥ EOpTextureOffsetBias.value) &&
    decide (op.value ≤ EOpTextureProjOffsetBias.value)

/-- `BuiltInGroup::IsTextureGatherOffsetNoComp`. -/
def IsTextureGatherOffsetNoComp (op : TOperator) : Bool :=
  decide (op.value ≥ EOpTextureGatherOffset.value) &&
    decide (op.value ≤ EOpTextureGatherOffset.value)

/-- `BuiltInGroup::IsTextureGatherOffsetComp`. -/
def IsTextureGatherOffsetComp (op : TOperator) : Bool :=
  decide (op.value ≥ EOpTextureGatherOffsetComp.value) &&
    decide (op.value ≤ EOpTextureGatherOffsetComp.value)

/-- `BuiltInGroup::IsTextureGatherOffset`. -/
def IsTextureGatherOffset (op : TOperator) : Bool :=
  decide (op.value ≥ EOpTextureGatherOffset.value) &&
    decide (op.value ≤ EOpTextureGatherOffsetComp.value)

/-- `BuiltInGroup::IsTextureGatherOffsetsNoComp`. -/
def IsTextureGatherOffsetsNoComp (op : TOperator) : Bool :=
  decide (op.value ≥ EOpTextureGatherOffsets.value) &&
    decide (op.value ≤ EOpTextureGatherOffsets.value)

/-- `BuiltInGroup::IsTextureGatherOffsetsComp`. -/
def IsTextureGatherOffsetsComp (op : TOperator) : Bool :=
  decide (op.value ≥ EOpTextureGatherOffsetsComp.value) &&
    decide (op.value ≤ EOpTextureGatherOffsetsComp.value)

/-- `BuiltInGroup::IsTextureGatherOffsets`. -/
def IsTextureGatherOffsets (op : TOperator) : Bool :=
  decide (op.value ≥ EOpTextureGatherOffsets.value) &&
    decide (op.value ≤ EOpTextureGatherOffsetsComp.value)

/-- `BuiltInGroup::IsTextureGather`. -/
def IsTextureGather (op : TOperator) : Bool :=
  decide (op.value ≥ EOpTextureGather.value) &&
    decide (op.value ≤ EOpTextureGatherOffsetsComp.value)

/-- `BuiltInGroup::IsTexture`. -/
def IsTexture (op : TOperator) : Bool :=
  decide (op.value ≥ EOpTexture2D.value) &&
    decide (op.value ≤ EOpTextureGatherOffsetsComp.value)

/-- `BuiltInGroup::IsDerivativesFS`. -/
def IsDerivativesFS (op : TOperator) : Bool :=
  decide (op.value ≥ EOpDFdx.value) && decide (op.value ≤ EOpFwidthCoarse.value)

/-- `BuiltInGroup::IsInterpolationFS`. -/
def IsInterpolationFS (op : TOperator) : Bool :=
  decide (op.value ≥ EOpInterpolateAtCentroid.value) &&
    decide (op.value ≤ EOpInterpolateAtOffset.value)

/-- `BuiltInGroup::IsAtomicCounter`. -/
def IsAtomicCounter (op : TOperator) : Bool :=
  decide (op.value ≥ EOpAtomicCounter.value) &&
    decide (op.value ≤ EOpAtomicCounterCompSwap.value)

/-- `BuiltInGroup::IsAtomicMemory`. -/
def IsAtomicMemory (op : TOperator) : Bool :=
  decide (op.value ≥ EOpAtomicAdd.value) && decide (op.value ≤ EOpAtomicCompSwap.value)

/-- `BuiltInGroup::IsImageStore`. -/
def IsImageStore (op : TOperator) : Bool :=
  decide (op.value ≥ EOpImageStore.value) && decide (op.value ≤ EOpImageStore.value)

/-- `BuiltInGroup::IsImageLoad`. -/
def IsImageLoad (op : TOperator) : Bool :=
  decide (op.value ≥ EOpImageLoad.value) && decide (op.value ≤ EOpImageLoad.value)

/-- `BuiltInGroup::IsImageAtomic`. -/
def IsImageAtomic (op : TOperator) : Bool :=
  decide (op.value ≥ EOpImageAtomicAdd.value) &&
    decide (op.value ≤ EOpImageAtomicCompSwap.value)

/-- `BuiltInGroup::IsImage`. -/
def IsImage (op : TOperator) : Bool :=
  decide (op.value ≥ EOpImageSize.value) &&
    decide (op.value ≤ EOpImageAtomicCompSwap.value)

/-- `BuiltInGroup::IsPixelLocalLoad`. -/
def IsPixelLocalLoad (op : TOperator) : Bool :=
  decide (op.value ≥ EOpPixelLocalLoadANGLE.value) &&
    decide (op.value ≤ EOpPixelLocalLoadANGLE.value)

/-- `BuiltInGroup::IsPixelLocalStore`. -/
def IsPixelLocalStore (op : TOperator) : Bool :=
  decide (op.value ≥ EOpPixelLocalStoreANGLE.value) &&
    decide (op.value ≤ EOpPixelLocalStoreANGLE.value)

/-- `BuiltInGroup::IsPixelLocal`. -/
def IsPixelLocal (op : TOperator) : Bool :=
  decide (op.value ≥ EOpPixelLocalLoadANGLE.value) &&
    decide (op.value ≤ EOpPixelLocalStoreANGLE.value)

end BuiltInGroup

end sh

namespace cobalt

namespace layout

open cssom

/-! ### Field lemmas for the white-space updates and the cut -/

namespace TextBox

theorem UpdateTextHasTrailingWhiteSpace_fields (b : TextBox) :
    (UpdateTextHasTrailingWhiteSpace b).text_start_position_ = b.text_start_position_ ∧
    (UpdateTextHasTrailingWhiteSpace b).text_end_position_ = b.text_end_position_ ∧
    (UpdateTextHasTrailingWhiteSpace b).paragraph_ = b.paragraph_ ∧
    (UpdateTextHasTrailingWhiteSpace b).computed_style = b.computed_style ∧
    (UpdateTextHasTrailingWhiteSpace b).used_font_ = b.used_font_ ∧
    (UpdateTextHasTrailingWhiteSpace b).text_has_leading_white_space_ =
      b.text_has_leading_white_space_ ∧
    (UpdateTextHasTrailingWhiteSpace b).should_collapse_leading_white_space_ =
      b.should_collapse_leading_white_space_ ∧
    (UpdateTextHasTrailingWhiteSpace b).should_collapse_trailing_white_space_ =
      b.should_collapse_trailing_white_space_ ∧
    (UpdateTextHasTrailingWhiteSpace b).triggers_line_break_ = b.triggers_line_break_ ∧
    (UpdateTextHasTrailingWhiteSpace b).update_size_results_valid_ =
      b.update_size_results_valid_ := by
  unfold UpdateTextHasTrailingWhiteSpace
  split <;> simp

theorem UpdateTextHasLeadingWhiteSpace_fields (b : TextBox) :
    (UpdateTextHasLeadingWhiteSpace b).text_start_position_ = b.text_start_position_ ∧
    (UpdateTextHasLeadingWhiteSpace b).text_end_position_ = b.text_end_position_ ∧
    (UpdateTextHasLeadingWhiteSpace b).paragraph_ = b.paragraph_ ∧
    (UpdateTextHasLeadingWhiteSpace b).computed_style = b.computed_style ∧
    (UpdateTextHasLeadingWhiteSpace b).used_font_ = b.used_font_ := by
  unfold UpdateTextHasLeadingWhiteSpace
  split <;> simp

theorem create_fields (cs : ComputedStyle) (para : Paragraph) (s e : Int) (t : Bool)
    (f : FontList) :
    (create cs para s e t f).text_start_position_ = s ∧
    (create cs para s e t f).text_end_position_ = e ∧
    (create cs para s e t f).paragraph_ = para ∧
    (create cs para s e t f).computed_style = cs ∧
    (create cs para s e t f).used_font_ = f := by
  unfold create
  obtain ⟨h1, h2, h3, h4, h5, -⟩ := UpdateTextHasTrailingWhiteSpace_fields
    (UpdateTextHasLeadingWhiteSpace
      { computed_style := cs, paragraph_ := para, text_start_position_ := s,
        text_end_position_ := e, used_font_ := f, text_has_leading_white_space_ := false,
        text_has_trailing_white_space_ := false,
        should_collapse_leading_white_space_ := false,
        should_collapse_trailing_white_space_ := false, triggers_line_break_ := t,
        update_size_results_valid_ := false, baseline_offset_from_top_ := none,
        margin_left := 0, margin_top := 0, margin_right := 0, margin_bottom := 0,
        width := 0, height := 0 })
  obtain ⟨g1, g2, g3, g4, g5⟩ := UpdateTextHasLeadingWhiteSpace_fields
    { computed_style := cs, paragraph_ := para, text_start_position_ := s,
      text_end_position_ := e, used_font_ := f, text_has_leading_white_space_ := false,
      text_has_trailing_white_space_ := false,
      should_collapse_leading_white_space_ := false,
      should_collapse_trailing_white_space_ := false, triggers_line_break_ := t,
      update_size_results_valid_ := false, baseline_offset_from_top_ := none,
      margin_left := 0, margin_top := 0, margin_right := 0, margin_bottom := 0,
      width := 0, height := 0 }
  rw [h1, h2, h3, h4, h5, g1, g2, g3, g4, g5]
  simp

theorem SplitAtPosition_range (b : TextBox) (p : Int) :
    (b.SplitAtPosition p).1.text_start_position_ = b.text_start_position_ ∧
    (b.SplitAtPosition p).1.text_end_position_ = p ∧
    (b.SplitAtPosition p).2.text_start_position_ = p ∧
    (b.SplitAtPosition p).2.text_end_position_ = b.text_end_position_ := by
  unfold SplitAtPosition
  obtain ⟨h1, h2, -⟩ := UpdateTextHasTrailingWhiteSpace_fields
    { b with text_end_position_ := p, update_size_results_valid_ := false }
  refine ⟨?_, ?_, ?_, ?_⟩
  · simpa using h1
  · simpa using h2
  · exact (create_fields _ _ _ _ _ _).1
  · exact (create_fields _ _ _ _ _ _).2.1

theorem SplitAtPosition_shares (b : TextBox) (p : Int) :
    (b.SplitAtPosition p).2.paragraph_ = b.paragraph_ ∧
    (b.SplitAtPosition p).1.paragraph_ = b.paragraph_ ∧
    (b.SplitAtPosition p).2.computed_style = b.computed_style ∧
    (b.SplitAtPosition p).1.update_size_results_valid_ = false := by
  refine ⟨?_, ?_, ?_, ?_⟩
  · unfold SplitAtPosition
    rw [(create_fields _ _ _ _ _ _).2.2.1]
    simpa using (UpdateTextHasTrailingWhiteSpace_fields
      { b with text_end_position_ := p, update_size_results_valid_ := false }).2.2.1
  · unfold SplitAtPosition
    simpa using (UpdateTextHasTrailingWhiteSpace_fields
      { b with text_end_position_ := p, update_size_results_valid_ := false }).2.2.1
  · unfold SplitAtPosition
    rw [(create_fields _ _ _ _ _ _).2.2.2.1]
    simpa using (UpdateTextHasTrailingWhiteSpace_fields
      { b with text_end_position_ := p, update_size_results_valid_ := false }).2.2.2.1
  · unfold SplitAtPosition
    simpa using (UpdateTextHasTrailingWhiteSpace_fields
      { b with text_end_position_ := p, update_size_results_valid_ := false }).2.2.2.2.2.2.2.2.2

/-- Claim C2: `SplitAtPosition(p)` on a box over `[s,e)` leaves this box over
`[s,p)`, returns a new box over `[p,e)` that refers to the same paragraph and
the same computed style, and clears `update_size_results_valid_` of this box.
The code does so for every `p`, in particular for `s ≤ p ≤ e`. -/
theorem SplitAtPosition_spec (b : TextBox) (p : Int) :
    (b.SplitAtPosition p).1.text_start_position_ = b.text_start_position_ ∧
    (b.SplitAtPosition p).1.text_end_position_ = p ∧
    (b.SplitAtPosition p).2.text_start_position_ = p ∧
    (b.SplitAtPosition p).2.text_end_position_ = b.text_end_position_ ∧
    (b.SplitAtPosition p).2.paragraph_ = b.paragraph_ ∧
    (b.SplitAtPosition p).1.paragraph_ = b.paragraph_ ∧
    (b.SplitAtPosition p).2.computed_style = b.computed_style ∧
    (b.SplitAtPosition p).1.update_size_results_valid_ = false := by
  obtain ⟨r1, r2, r3, r4⟩ := SplitAtPosition_range b p
  obtain ⟨s1, s2, s3, s4⟩ := SplitAtPosition_shares b p
  exact ⟨r1, r2, r3, r4, s1, s2, s3, s4⟩

/-- Claim C3: of the white-space state of this box, `SplitAtPosition(p)` with
`start ≤ p` changes only `text_has_trailing_white_space_`: the leading flag and
the two collapse requests keep their values, and when the white-space style
allows collapsing the trailing flag becomes "the new range `[start,p)` is not
empty and the character at `p - 1` is a space". -/
theorem SplitAtPosition_white_space (b : TextBox) (p : Int)
    (hp : b.text_start_position_ ≤ p) :
    (b.SplitAtPosition p).1.text_has_leading_white_space_ =
      b.text_has_leading_white_space_ ∧
    (b.SplitAtPosition p).1.should_collapse_leading_white_space_ =
      b.should_collapse_leading_white_space_ ∧
    (b.SplitAtPosition p).1.should_collapse_trailing_white_space_ =
      b.should_collapse_trailing_white_space_ ∧
    (b.WhiteSpaceStyleAllowsCollapsing = true →
      (b.SplitAtPosition p).1.text_has_trailing_white_space_ =
        (decide (b.text_start_position_ < p) && b.paragraph_.IsSpace (p - 1))) := by
  obtain ⟨-, -, -, -, -, h6, h7, h8, -⟩ := UpdateTextHasTrailingWhiteSpace_fields
    { b with text_end_position_ := p, update_size_results_valid_ := false }
  refine ⟨?_, ?_, ?_, ?_⟩
  · unfold SplitAtPosition
    simpa using h6
  · unfold SplitAtPosition
    simpa using h7
  · unfold SplitAtPosition
    simpa using h8
  · intro hc
    have hc2 : WhiteSpaceStyleAllowsCollapsing
        { b with text_end_position_ := p, update_size_results_valid_ := false } = true := by
      simpa [WhiteSpaceStyleAllowsCollapsing] using hc
    unfold SplitAtPosition
    simp only [UpdateTextHasTrailingWhiteSpace, hc2, if_true]
    have hne : (b.text_start_position_ != p) = decide (b.text_start_position_ < p) := by
      by_cases hlt : b.text_start_position_ < p
      · have : b.text_start_position_ ≠ p := by omega
        simp [hlt, this]
      · have : b.text_start_position_ = p := by omega
        simp [this]
    rw [hne]

/-- A concrete instance of claim C3: cutting `sampleBox` (over `[0,10)`) at 5,
just after the space at position 4, sets the trailing flag. -/
theorem SplitAtPosition_white_space_witness :
    sampleBox.text_start_position_ ≤ 5 ∧
    (sampleBox.SplitAtPosition 5).1.text_has_leading_white_space_ =
      sampleBox.text_has_leading_white_space_ ∧
    (sampleBox.SplitAtPosition 5).1.should_collapse_leading_white_space_ =
      sampleBox.should_collapse_leading_white_space_ ∧
    (sampleBox.SplitAtPosition 5).1.should_collapse_trailing_white_space_ =
      sampleBox.should_collapse_trailing_white_space_ ∧
    (sampleBox.SplitAtPosition 5).1.text_has_trailing_white_space_ = true := by
  have h0 : sampleBox.text_start_position_ ≤ 5 := by decide
  obtain ⟨h1, h2, h3, h4⟩ := SplitAtPosition_white_space sampleBox 5 h0
  refine ⟨h0, h1, h2, h3, ?_⟩
  rw [h4 (by decide)]
  decide

/-- Claim C4: `HasLeadingWhiteSpace()` is true exactly when the text has a
leading space, the leading edge is not asked to collapse, and the box has
non-collapsible text or the trailing edge is not asked to collapse;
`HasTrailingWhiteSpace()` obeys the same rule with leading and trailing
exchanged. -/
theorem HasWhiteSpace_iff (b : TextBox) :
    (b.HasLeadingWhiteSpace = true ↔
      (b.text_has_leading_white_space_ = true ∧
        b.should_collapse_leading_white_space_ = false ∧
        (b.HasNonCollapsibleText = true ∨ b.should_collapse_trailing_white_space_ = false))) ∧
    (b.HasTrailingWhiteSpace = true ↔
      (b.text_has_trailing_white_space_ = true ∧
        b.should_collapse_trailing_white_space_ = false ∧
        (b.HasNonCollapsibleText = true ∨ b.should_collapse_leading_white_space_ = false))) := by
  constructor
  · unfold HasLeadingWhiteSpace
    simp [and_assoc]
  · unfold HasTrailingWhiteSpace
    simp [and_assoc]

/-- Claim C7: each of the two collapse setters, called with a value that
differs from the stored flag, stores the value and clears
`update_size_results_valid_`; called with the stored value it changes no field
of the box. -/
theorem SetShouldCollapse_spec (b : TextBox) (v : Bool) :
    (v ≠ b.should_collapse_leading_white_space_ →
      (b.SetShouldCollapseLeadingWhiteSpace v).should_collapse_leading_white_space_ = v ∧
      (b.SetShouldCollapseLeadingWhiteSpace v).update_size_results_valid_ = false) ∧
    (v = b.should_collapse_leading_white_space_ →
      b.SetShouldCollapseLeadingWhiteSpace v = b) ∧
    (v ≠ b.should_collapse_trailing_white_space_ →
      (b.SetShouldCollapseTrailingWhiteSpace v).should_collapse_trailing_white_space_ = v ∧
      (b.SetShouldCollapseTrailingWhiteSpace v).update_size_results_valid_ = false) ∧
    (v = b.should_collapse_trailing_white_space_ →
      b.SetShouldCollapseTrailingWhiteSpace v = b) := by
  refine ⟨?_, ?_, ?_, ?_⟩
  · intro h
    have h2 : (b.should_collapse_leading_white_space_ != v) = true := by
      simpa [bne_iff_ne] using fun e => h e.symm
    simp [SetShouldCollapseLeadingWhiteSpace, h2]
  · intro h
    simp [SetShouldCollapseLeadingWhiteSpace, h]
  · intro h
    have h2 : (b.should_collapse_trailing_white_space_ != v) = true := by
      simpa [bne_iff_ne] using fun e => h e.symm
    simp [SetShouldCollapseTrailingWhiteSpace, h2]
  · intro h
    simp [SetShouldCollapseTrailingWhiteSpace, h]

/-- A concrete instance of claim C7 on `sampleBox` with its size marked valid:
asking for a collapse that is not yet stored stores it and clears the validity
flag, and repeating the stored value leaves the box as it is. -/
theorem SetShouldCollapse_spec_witness :
    (({ sampleBox with update_size_results_valid_ := true } : TextBox).SetShouldCollapseLeadingWhiteSpace
        true).should_collapse_leading_white_space_ = true ∧
    (({ sampleBox with update_size_results_valid_ := true } : TextBox).SetShouldCollapseLeadingWhiteSpace
        true).update_size_results_valid_ = false ∧
    ({ sampleBox with update_size_results_valid_ := true } : TextBox).SetShouldCollapseTrailingWhiteSpace
        false = { sampleBox with update_size_results_valid_ := true } :=
  ⟨((SetShouldCollapse_spec { sampleBox with update_size_results_valid_ := true } true).1
      (by decide)).1,
    ((SetShouldCollapse_spec { sampleBox with update_size_results_valid_ := true } true).1
      (by decide)).2,
    (SetShouldCollapse_spec { sampleBox with update_size_results_valid_ := true } false).2.2.2
      (by decide)⟩

theorem UpdateContentSizeAndMargins_width_eq (round : ℚ → ℚ) (b : TextBox) :
    (UpdateContentSizeAndMargins round b).width =
      round (b.GetLeadingWhiteSpaceWidth + b.non_collapsible_text_width +
        b.GetTrailingWhiteSpaceWidth) := by
  unfold UpdateContentSizeAndMargins
  simp only
  split <;> rfl

/-- Claim C5: a box without non-collapsible text whose two edges are both asked
to collapse is collapsed and contributes zero width: the leading-space term,
the text term and the trailing-space term of `UpdateContentSizeAndMargins` are
all 0, so the width set is the rounding of 0, which is 0 for a rounding
function that fixes 0. -/
theorem collapsed_box_zero_width (b : TextBox)
    (hn : b.HasNonCollapsibleText = false)
    (hl : b.should_collapse_leading_white_space_ = true)
    (ht : b.should_collapse_trailing_white_space_ = true) :
    b.IsCollapsed = true ∧
    b.GetLeadingWhiteSpaceWidth = 0 ∧
    b.non_collapsible_text_width = 0 ∧
    b.GetTrailingWhiteSpaceWidth = 0 ∧
    (∀ round : ℚ → ℚ, (UpdateContentSizeAndMargins round b).width = round 0) ∧
    (∀ round : ℚ → ℚ, round 0 = 0 → (UpdateContentSizeAndMargins round b).width = 0) := by
  have h1 : b.HasLeadingWhiteSpace = false := by
    simp [HasLeadingWhiteSpace, hl]
  have h2 : b.HasTrailingWhiteSpace = false := by
    simp [HasTrailingWhiteSpace, ht]
  have h3 : b.GetLeadingWhiteSpaceWidth = 0 := by
    simp [GetLeadingWhiteSpaceWidth, h1]
  have h4 : b.non_collapsible_text_width = 0 := by
    simp [non_collapsible_text_width, hn]
  have h5 : b.GetTrailingWhiteSpaceWidth = 0 := by
    simp [GetTrailingWhiteSpaceWidth, h2]
  have h6 : ∀ round : ℚ → ℚ, (UpdateContentSizeAndMargins round b).width = round 0 := by
    intro round
    rw [UpdateContentSizeAndMargins_width_eq, h3, h4, h5]
    norm_num
  refine ⟨?_, h3, h4, h5, h6, ?_⟩
  · simp [IsCollapsed, h1, h2, hn]
  · intro round h0
    rw [h6 round, h0]

/-- A concrete instance of claim C5: the box over a single space character with
both edges asked to collapse is collapsed and gets width 0. -/
theorem collapsed_box_zero_width_witness :
    collapsedSpaceBox.HasNonCollapsibleText = false ∧
    collapsedSpaceBox.text_start_position_ = 0 ∧
    collapsedSpaceBox.text_end_position_ = 1 ∧
    collapsedSpaceBox.paragraph_.IsSpace 0 = true ∧
    collapsedSpaceBox.IsCollapsed = true ∧
    (UpdateContentSizeAndMargins RoundToFixedPointPrecision collapsedSpaceBox).width = 0 :=
  ⟨by decide, by decide, by decide, by decide,
    (collapsed_box_zero_width collapsedSpaceBox (by decide) (by decide) (by decide)).1,
    (collapsed_box_zero_width collapsedSpaceBox (by decide) (by decide) (by decide)).2.2.2.2.2
      RoundToFixedPointPrecision (by norm_num [RoundToFixedPointPrecision, Rat.floor_def'])⟩

theorem sampleBox_terms :
    sampleBox.GetLeadingWhiteSpaceWidth = 1027 / 256 ∧
    sampleBox.non_collapsible_text_width = 2562 / 256 ∧
    sampleBox.GetTrailingWhiteSpaceWidth = 1027 / 256 := by
  have h1 : sampleBox.HasLeadingWhiteSpace = true := by decide
  have h2 : sampleBox.HasTrailingWhiteSpace = true := by decide
  have h3 : sampleBox.HasNonCollapsibleText = true := by decide
  have hf : sampleBox.used_font_ = sampleFont := (create_fields _ _ _ _ _ _).2.2.2.2
  refine ⟨?_, ?_, ?_⟩
  · simp [GetLeadingWhiteSpaceWidth, h1, hf, sampleFont]
  · simp [non_collapsible_text_width, h3, hf, sampleFont]
  · simp [GetTrailingWhiteSpaceWidth, h2, h3, hf, sampleFont]

/-- Claim C6 fails as stated: for `sampleBox` (a leading space, text and a
trailing space, with the space 1027/256 wide and the text 2562/256 wide) the
width set by `UpdateContentSizeAndMargins` is 1154/64, while the sum of the
three separately rounded terms is 1155/64. -/
theorem UpdateContentSizeAndMargins_width_not_termwise :
    (UpdateContentSizeAndMargins RoundToFixedPointPrecision sampleBox).width = 1154 / 64 ∧
    RoundToFixedPointPrecision sampleBox.GetLeadingWhiteSpaceWidth +
      RoundToFixedPointPrecision sampleBox.non_collapsible_text_width +
      RoundToFixedPointPrecision sampleBox.GetTrailingWhiteSpaceWidth = 1155 / 64 ∧
    (UpdateContentSizeAndMargins RoundToFixedPointPrecision sampleBox).width ≠
      RoundToFixedPointPrecision sampleBox.GetLeadingWhiteSpaceWidth +
        RoundToFixedPointPrecision sampleBox.non_collapsible_text_width +
        RoundToFixedPointPrecision sampleBox.GetTrailingWhiteSpaceWidth := by
  obtain ⟨h1, h2, h3⟩ := sampleBox_terms
  have hw : (UpdateContentSizeAndMargins RoundToFixedPointPrecision sampleBox).width =
      1154 / 64 := by
    rw [UpdateContentSizeAndMargins_width_eq, h1, h2, h3]
    norm_num [RoundToFixedPointPrecision, Rat.floor_def']
  have hs : RoundToFixedPointPrecision sampleBox.GetLeadingWhiteSpaceWidth +
      RoundToFixedPointPrecision sampleBox.non_collapsible_text_width +
      RoundToFixedPointPrecision sampleBox.GetTrailingWhiteSpaceWidth = 1155 / 64 := by
    rw [h1, h2, h3]
    norm_num [RoundToFixedPointPrecision, Rat.floor_def']
  refine ⟨hw, hs, ?_⟩
  rw [hw, hs]
  norm_num

/-- Claim C6 as amended: the width set by `UpdateContentSizeAndMargins` is the
rounding of the sum of the leading-space width, the width of the
non-collapsible text and the trailing-space width; the sum of the unrounded
terms is rounded once. This holds for every rounding function. -/
theorem UpdateContentSizeAndMargins_width_rounds_sum (round : ℚ → ℚ) (b : TextBox) :
    (UpdateContentSizeAndMargins round b).width =
      round (b.GetLeadingWhiteSpaceWidth +
        (if b.HasNonCollapsibleText then b.used_font_.GetBoundsWidth b.GetNonCollapsibleText
          else 0) +
        b.GetTrailingWhiteSpaceWidth) :=
  UpdateContentSizeAndMargins_width_eq round b

/-- Claim C8: `TrySplitAt(available_width, allow_overflow)` returns a box
exactly when the white-space style is neither `pre` nor `nowrap` and the break
search of the paragraph, started at the non-collapsible text start with the
available width reduced by the leading-space width, reports a position `p`;
then the outcome is that of `SplitAtPosition(p)`; in every other case no box is
returned and the box is left as it was. -/
theorem TrySplitAt_spec (b : TextBox) (available_width : ℚ) (allow_overflow : Bool)
    (search : Option (Int × ℚ))
    (hsearch : search =
      b.paragraph_.CalculateBreakPosition b.used_font_ b.GetNonCollapsibleTextStartPosition
        b.text_end_position_ (available_width - b.GetLeadingWhiteSpaceWidth) allow_overflow
        (if b.computed_style.overflow_wrap = KeywordValue.kBreakWord then
          OverflowWrap.kBreakWordOverflowWrap
        else OverflowWrap.kSoftWrapOverflowWrap)) :
    ((b.TrySplitAt available_width allow_overflow).2.isSome = true ↔
      (b.computed_style.white_space ≠ KeywordValue.kPre ∧
        b.computed_style.white_space ≠ KeywordValue.kNoWrap ∧
        ∃ p split_width, search = some (p, split_width))) ∧
    (∀ p split_width,
      b.computed_style.white_space ≠ KeywordValue.kPre →
      b.computed_style.white_space ≠ KeywordValue.kNoWrap →
      search = some (p, split_width) →
      b.TrySplitAt available_width allow_overflow =
        ((b.SplitAtPosition p).1, some (b.SplitAtPosition p).2)) ∧
    (¬ (b.computed_style.white_space ≠ KeywordValue.kPre ∧
        b.computed_style.white_space ≠ KeywordValue.kNoWrap ∧
        ∃ p split_width, search = some (p, split_width)) →
      b.TrySplitAt available_width allow_overflow = (b, none)) := by
  subst hsearch
  by_cases hw : b.WhiteSpaceStyleAllowsWrapping = true
  · have hw2 : b.computed_style.white_space ≠ KeywordValue.kPre ∧
        b.computed_style.white_space ≠ KeywordValue.kNoWrap := by
      simpa [WhiteSpaceStyleAllowsWrapping] using hw
    cases hc : b.paragraph_.CalculateBreakPosition b.used_font_
        b.GetNonCollapsibleTextStartPosition b.text_end_position_
        (available_width - b.GetLeadingWhiteSpaceWidth) allow_overflow
        (if b.computed_style.overflow_wrap = KeywordValue.kBreakWord then
          OverflowWrap.kBreakWordOverflowWrap
        else OverflowWrap.kSoftWrapOverflowWrap) with
    | none =>
      have hr : b.TrySplitAt available_width allow_overflow = (b, none) := by
        simp [TrySplitAt, hw, hc]
      refine ⟨?_, ?_, ?_⟩
      · rw [hr]
        simp
      · intro p sw _ _ h
        cases h
      · intro _
        exact hr
    | some r =>
      obtain ⟨p, sw⟩ := r
      have hr : b.TrySplitAt available_width allow_overflow =
          ((b.SplitAtPosition p).1, some (b.SplitAtPosition p).2) := by
        simp [TrySplitAt, hw, hc]
      refine ⟨?_, ?_, ?_⟩
      · rw [hr]
        simp only [Option.isSome_some, true_iff]
        exact ⟨hw2.1, hw2.2, p, sw, rfl⟩
      · intro q sw2 _ _ h
        cases h
        exact hr
      · intro hneg
        exact absurd ⟨hw2.1, hw2.2, p, sw, rfl⟩ hneg
  · have hw1 : b.WhiteSpaceStyleAllowsWrapping = false := by
      simpa using hw
    have hw2 : ¬ (b.computed_style.white_space ≠ KeywordValue.kPre ∧
        b.computed_style.white_space ≠ KeywordValue.kNoWrap) := by
      intro h
      apply hw
      simpa [WhiteSpaceStyleAllowsWrapping] using h
    have hr : b.TrySplitAt available_width allow_overflow = (b, none) := by
      simp [TrySplitAt, hw1]
    refine ⟨?_, ?_, ?_⟩
    · rw [hr]
      simp only [Option.isSome_none, Bool.false_eq_true, false_iff]
      rintro ⟨h1, h2, -⟩
      exact hw2 ⟨h1, h2⟩
    · intro p sw h1 h2 _
      exact absurd ⟨h1, h2⟩ hw2
    · intro _
      exact hr

theorem sampleBox_break_search :
    sampleBox.paragraph_.CalculateBreakPosition sampleBox.used_font_
        sampleBox.GetNonCollapsibleTextStartPosition sampleBox.text_end_position_
        (100 - sampleBox.GetLeadingWhiteSpaceWidth) false
        (if sampleBox.computed_style.overflow_wrap = KeywordValue.kBreakWord then
          OverflowWrap.kBreakWordOverflowWrap
        else OverflowWrap.kSoftWrapOverflowWrap) = some (5, 20) := by
  have hp : sampleBox.paragraph_ = sampleParagraph := (create_fields _ _ _ _ _ _).2.2.1
  have hs : sampleBox.GetNonCollapsibleTextStartPosition = 1 := by decide
  have he : sampleBox.text_end_position_ = 10 := by decide
  rw [hp, hs, he, sampleBox_terms.1]
  simp only [sampleParagraph]
  norm_num

/-- A concrete instance of claim C8: with 100 units available `sampleBox` is
cut at the position 5 reported by the break search, and the same text under
`white-space: nowrap` is not cut. -/
theorem TrySplitAt_spec_witness :
    sampleBox.TrySplitAt 100 false =
      ((sampleBox.SplitAtPosition 5).1, some (sampleBox.SplitAtPosition 5).2) ∧
    (sampleBox.TrySplitAt 100 false).1.text_end_position_ = 5 ∧
    (TextBox.create { white_space := KeywordValue.kNoWrap, overflow_wrap := KeywordValue.kNormal }
        sampleParagraph 0 10 true sampleFont).TrySplitAt 100 true =
      (TextBox.create { white_space := KeywordValue.kNoWrap, overflow_wrap := KeywordValue.kNormal }
        sampleParagraph 0 10 true sampleFont, none) := by
  have h1 := (TrySplitAt_spec sampleBox 100 false _ rfl).2.1 5 20 (by decide) (by decide)
    sampleBox_break_search
  refine ⟨h1, ?_, ?_⟩
  · rw [h1]
    exact (SplitAtPosition_range sampleBox 5).2.1
  · exact (TrySplitAt_spec _ 100 true _ rfl).2.2
      (fun h => h.2.1 ((create_fields _ _ _ _ _ _).2.2.2.1 ▸ rfl))

/-- Claim C9: when the run table gives a next run position `p` after the start
of the box with `p` before its end, `TrySplitAtSecondBidiLevelRun` makes the
box `[start,p)` and returns the non-empty box `[p,end)`, after which the box no
longer reaches past its next run boundary (a second call returns no box);
otherwise it returns no box and leaves the box as it was. -/
theorem TrySplitAtSecondBidiLevelRun_spec (b : TextBox) :
    (∀ p, b.paragraph_.GetNextRunPosition b.text_start_position_ = some p →
      p < b.text_end_position_ →
      b.TrySplitAtSecondBidiLevelRun =
        ((b.SplitAtPosition p).1, some (b.SplitAtPosition p).2) ∧
      (b.SplitAtPosition p).1.text_start_position_ = b.text_start_position_ ∧
      (b.SplitAtPosition p).1.text_end_position_ = p ∧
      (b.SplitAtPosition p).2.text_start_position_ = p ∧
      (b.SplitAtPosition p).2.text_end_position_ = b.text_end_position_ ∧
      (b.SplitAtPosition p).2.text_start_position_ <
        (b.SplitAtPosition p).2.text_end_position_ ∧
      (b.SplitAtPosition p).1.TrySplitAtSecondBidiLevelRun =
        ((b.SplitAtPosition p).1, none)) ∧
    ((¬ ∃ p, b.paragraph_.GetNextRunPosition b.text_start_position_ = some p ∧
        p < b.text_end_position_) →
      b.TrySplitAtSecondBidiLevelRun = (b, none)) := by
  constructor
  · intro p hrun hlt
    obtain ⟨r1, r2, r3, r4⟩ := SplitAtPosition_range b p
    have hpar : (b.SplitAtPosition p).1.paragraph_ = b.paragraph_ :=
      (SplitAtPosition_shares b p).2.1
    refine ⟨?_, r1, r2, r3, r4, ?_, ?_⟩
    · simp [TrySplitAtSecondBidiLevelRun, hrun, hlt]
    · rw [r3, r4]
      exact hlt
    · unfold TrySplitAtSecondBidiLevelRun
      rw [hpar, r1, hrun]
      simp [r2]
  · intro hneg
    unfold TrySplitAtSecondBidiLevelRun
    cases hrun : b.paragraph_.GetNextRunPosition b.text_start_position_ with
    | none => rfl
    | some p =>
      have : ¬ p < b.text_end_position_ := fun h => hneg ⟨p, hrun, h⟩
      simp [this]

/-- A concrete instance of claim C9: `sampleBox` over `[0,10)` with a run
boundary at 6 becomes `[0,6)` and the returned box is `[6,10)`. -/
theorem TrySplitAtSecondBidiLevelRun_spec_witness :
    sampleBox.paragraph_.GetNextRunPosition sampleBox.text_start_position_ = some 6 ∧
    sampleBox.TrySplitAtSecondBidiLevelRun =
      ((sampleBox.SplitAtPosition 6).1, some (sampleBox.SplitAtPosition 6).2) ∧
    (sampleBox.SplitAtPosition 6).1.text_end_position_ = 6 ∧
    (sampleBox.SplitAtPosition 6).2.text_start_position_ = 6 ∧
    (sampleBox.SplitAtPosition 6).2.text_end_position_ = 10 :=
  have h := (TrySplitAtSecondBidiLevelRun_spec sampleBox).1 6 (by decide) (by decide)
  ⟨by decide, h.1, h.2.2.1, h.2.2.2.1, h.2.2.2.2.1⟩

end TextBox

/-! ### Rows of boxes produced by cuts -/

theorem Tiles_SplitBoxAt (l : List TextBox) :
    ∀ (s e : Int) (i : Nat) (p : Int), Tiles s e l → SplitAllowed l i p = true →
      Tiles s e (SplitBoxAt l i p) := by
  induction l with
  | nil =>
    intro s e i p _ h
    simp [SplitAllowed] at h
  | cons b rest ih =>
    intro s e i p ht ha
    obtain ⟨h1, h2, h3⟩ := ht
    cases i with
    | zero =>
      obtain ⟨r1, r2, r3, r4⟩ := TextBox.SplitAtPosition_range b p
      simp only [SplitAllowed, Bool.and_eq_true, decide_eq_true_eq] at ha
      simp only [SplitBoxAt, Tiles]
      rw [r1, r2, r3, r4]
      exact ⟨h1, ha.1, rfl, ha.2, h3⟩
    | succ n =>
      simp only [SplitAllowed] at ha
      simp only [SplitBoxAt, Tiles]
      exact ⟨h1, h2, ih _ _ _ _ h3 ha⟩

theorem Tiles_ApplySplits (ops : List (Nat × Int)) :
    ∀ (s e : Int) (l : List TextBox), Tiles s e l → SplitsAllowed l ops = true →
      Tiles s e (ApplySplits l ops) := by
  induction ops with
  | nil =>
    intro s e l ht _
    exact ht
  | cons op ops ih =>
    intro s e l ht ha
    simp only [SplitsAllowed, Bool.and_eq_true] at ha
    simp only [ApplySplits]
    exact ih _ _ _ (Tiles_SplitBoxAt l s e op.1 op.2 ht ha.1) ha.2

theorem Tiles_bounds (l : List TextBox) :
    ∀ (s e : Int), Tiles s e l →
      s ≤ e ∧ ∀ c ∈ l, s ≤ c.text_start_position_ ∧
        c.text_start_position_ ≤ c.text_end_position_ ∧ c.text_end_position_ ≤ e := by
  induction l with
  | nil =>
    intro s e ht
    simp only [Tiles] at ht
    exact ⟨by omega, by simp⟩
  | cons b rest ih =>
    intro s e ht
    obtain ⟨h1, h2, h3⟩ := ht
    obtain ⟨g1, g2⟩ := ih _ _ h3
    refine ⟨by omega, ?_⟩
    intro c hc
    rcases List.mem_cons.mp hc with hcb | hcr
    · subst hcb
      exact ⟨by omega, h2, g1⟩
    · obtain ⟨k1, k2, k3⟩ := g2 c hcr
      exact ⟨by omega, k2, k3⟩

theorem Tiles_adjacent (l : List TextBox) :
    ∀ (s e : Int), Tiles s e l → ∀ (i : Nat) (c d : TextBox),
      l[i]? = some c → l[i + 1]? = some d →
      c.text_end_position_ = d.text_start_position_ := by
  induction l with
  | nil =>
    intro s e _ i c d hc _
    simp at hc
  | cons b rest ih =>
    intro s e ht i c d hc hd
    obtain ⟨-, -, h3⟩ := ht
    cases i with
    | zero =>
      simp only [List.getElem?_cons_zero, Option.some.injEq] at hc
      simp only [zero_add, List.getElem?_cons_succ] at hd
      subst hc
      cases rest with
      | nil => simp at hd
      | cons b2 rest2 =>
        simp only [List.getElem?_cons_zero, Option.some.injEq] at hd
        subst hd
        exact h3.1.symm
    | succ n =>
      simp only [List.getElem?_cons_succ] at hc hd
      exact ih _ _ h3 n c d hc hd

theorem Tiles_ordered (l : List TextBox) :
    ∀ (s e : Int), Tiles s e l → ∀ (i j : Nat) (c d : TextBox), i < j →
      l[i]? = some c → l[j]? = some d →
      c.text_start_position_ ≤ c.text_end_position_ ∧
      c.text_end_position_ ≤ d.text_start_position_ ∧
      d.text_start_position_ ≤ d.text_end_position_ := by
  induction l with
  | nil =>
    intro s e _ i j c d _ hc _
    simp at hc
  | cons b rest ih =>
    intro s e ht i j c d hij hc hd
    obtain ⟨-, h2, h3⟩ := ht
    cases j with
    | zero => omega
    | succ m =>
      simp only [List.getElem?_cons_succ] at hd
      cases i with
      | zero =>
        simp only [List.getElem?_cons_zero, Option.some.injEq] at hc
        subst hc
        obtain ⟨k1, k2, -⟩ := (Tiles_bounds rest _ _ h3).2 d (List.getElem?_mem hd)
        exact ⟨h2, k1, k2⟩
      | succ n =>
        simp only [List.getElem?_cons_succ] at hc
        exact ih _ _ h3 n m c d (by omega) hc hd

theorem Tiles_cover (l : List TextBox) :
    ∀ (s e : Int), Tiles s e l → ∀ x : Int,
      (s ≤ x ∧ x < e) ↔
        ∃ c ∈ l, c.text_start_position_ ≤ x ∧ x < c.text_end_position_ := by
  induction l with
  | nil =>
    intro s e ht x
    simp only [Tiles] at ht
    simp only [List.not_mem_nil, false_and, exists_false, iff_false]
    omega
  | cons b rest ih =>
    intro s e ht x
    obtain ⟨h1, h2, h3⟩ := ht
    have hb := (Tiles_bounds rest _ _ h3).1
    have hi := ih _ _ h3 x
    constructor
    · intro hx
      by_cases hlt : x < b.text_end_position_
      · exact ⟨b, List.mem_cons_self _ _, by omega, hlt⟩
      · obtain ⟨c, hc, hcx⟩ := hi.mp ⟨by omega, hx.2⟩
        exact ⟨c, List.mem_cons_of_mem _ hc, hcx⟩
    · rintro ⟨c, hc, hcx⟩
      rcases List.mem_cons.mp hc with hcb | hcr
      · subst hcb
        omega
      · have := hi.mpr ⟨c, hcr, hcx⟩
        omega

/-- Claim C1: start from any text box over `[s,e)` and apply any finite
sequence of `SplitAtPosition` calls, each to one of the boxes produced so far
at a position between the start and the end of that box. Then, in the resulting
row, each box ends where the next one starts, a box earlier in the row lies
entirely before a later one (original text order), two different boxes share no
position, and the positions covered by the boxes are exactly those of
`[s,e)`. -/
theorem split_coverage (b : TextBox) (ops : List (Nat × Int))
    (h : SplitsAllowed [b] ops = true) :
    (∀ (i : Nat) (c d : TextBox),
      (ApplySplits [b] ops)[i]? = some c → (ApplySplits [b] ops)[i + 1]? = some d →
      c.text_end_position_ = d.text_start_position_) ∧
    (∀ (i j : Nat) (c d : TextBox), i < j →
      (ApplySplits [b] ops)[i]? = some c → (ApplySplits [b] ops)[j]? = some d →
      c.text_end_position_ ≤ d.text_start_position_) ∧
    (∀ (i j : Nat) (c d : TextBox), i ≠ j →
      (ApplySplits [b] ops)[i]? = some c → (ApplySplits [b] ops)[j]? = some d →
      ∀ x : Int, ¬ ((c.text_start_position_ ≤ x ∧ x < c.text_end_position_) ∧
        (d.text_start_position_ ≤ x ∧ x < d.text_end_position_))) ∧
    (∀ x : Int, (b.text_start_position_ ≤ x ∧ x < b.text_end_position_) ↔
      ∃ c ∈ ApplySplits [b] ops,
        c.text_start_position_ ≤ x ∧ x < c.text_end_position_) := by
  cases ops with
  | nil =>
    simp only [ApplySplits]
    refine ⟨?_, ?_, ?_, ?_⟩
    · intro i c d _ hd
      simp at hd
    · intro i j c d hij _ hd
      cases j with
      | zero => omega
      | succ m => simp at hd
    · intro i j c d hij hc hd
      cases i with
      | zero =>
        cases j with
        | zero => omega
        | succ m => simp at hd
      | succ n => simp at hc
    · intro x
      simp
  | cons op ops =>
    have h0 := h
    simp only [SplitsAllowed, Bool.and_eq_true] at h0
    have hle : b.text_start_position_ ≤ b.text_end_position_ := by
      have ha := h0.1
      cases hi : op.1 with
      | zero =>
        rw [hi] at ha
        simp only [SplitAllowed, Bool.and_eq_true, decide_eq_true_eq] at ha
        omega
      | succ n =>
        rw [hi] at ha
        simp [SplitAllowed] at ha
    have ht0 : Tiles b.text_start_position_ b.text_end_position_ [b] := ⟨rfl, hle, rfl⟩
    have ht := Tiles_ApplySplits (op :: ops) _ _ _ ht0 h
    refine ⟨Tiles_adjacent _ _ _ ht, ?_, ?_, Tiles_cover _ _ _ ht⟩
    · intro i j c d hij hc hd
      exact (Tiles_ordered _ _ _ ht i j c d hij hc hd).2.1
    · intro i j c d hij hc hd x hx
      rcases Nat.lt_or_gt_of_ne hij with hlt | hgt
      · have := (Tiles_ordered _ _ _ ht i j c d hlt hc hd).2.1
        omega
      · have := (Tiles_ordered _ _ _ ht j i d c hgt hd hc).2.1
        omega

/-- A concrete instance of claim C1: `sampleBox` over `[0,10)` cut at 4, then
its second part at 7, then its first part at 2, gives the row
`[0,2) [2,4) [4,7) [7,10)`, whose boxes cover exactly the positions 0 to 9. -/
theorem split_coverage_witness :
    SplitsAllowed [sampleBox] sampleSplits = true ∧
    (ApplySplits [sampleBox] sampleSplits).map
        (fun c => (c.text_start_position_, c.text_end_position_)) =
      [(0, 2), (2, 4), (4, 7), (7, 10)] ∧
    (∀ x : Int, (sampleBox.text_start_position_ ≤ x ∧ x < sampleBox.text_end_position_) ↔
      ∃ c ∈ ApplySplits [sampleBox] sampleSplits,
        c.text_start_position_ ≤ x ∧ x < c.text_end_position_) :=
  ⟨by decide, by decide, (split_coverage sampleBox sampleSplits (by decide)).2.2.2⟩

namespace ReplacedBox

/-- Claim C10: for a replaced box without intrinsic width and height, with the
fallback ratio in place of the absent intrinsic ratio, and with used width and
used height both `auto`, `UpdateContentSizeAndMargins` sets the width to 300
and the height to 150. -/
theorem fallback_size (UpdateHorizontalMargins : ℚ → ℚ → Option ℚ → Option ℚ → ℚ × ℚ)
    (b : ReplacedBox) (layout_params : ReplacedLayoutParams)
    (hiw : b.maybe_intrinsic_width_ = none) (hih : b.maybe_intrinsic_height_ = none)
    (hir : b.intrinsic_ratio_ = kFallbackIntrinsicRatio)
    (hw : layout_params.maybe_width = none) (hh : layout_params.maybe_height = none) :
    (UpdateContentSizeAndMargins UpdateHorizontalMargins b layout_params).width = 300 ∧
    (UpdateContentSizeAndMargins UpdateHorizontalMargins b layout_params).height = 150 := by
  unfold UpdateContentSizeAndMargins
  simp only [hiw, hih, hw, hh, hir, kFallbackWidth, kFallbackIntrinsicRatio]
  norm_num

/-- A concrete instance of claim C10: the box built by the constructor with no
intrinsic width, height or ratio gets the size 300 by 150 when both used sizes
are `auto`. -/
theorem fallback_size_witness :
    (create 0 none none none).intrinsic_ratio_ = 2 ∧
    (UpdateContentSizeAndMargins (fun _ _ _ _ => (0, 0)) (create 0 none none none)
      { containing_block_width := 1280, maybe_width := none, maybe_height := none,
        maybe_margin_left := none, maybe_margin_right := none, maybe_margin_top := none,
        maybe_margin_bottom := none }).width = 300 ∧
    (UpdateContentSizeAndMargins (fun _ _ _ _ => (0, 0)) (create 0 none none none)
      { containing_block_width := 1280, maybe_width := none, maybe_height := none,
        maybe_margin_left := none, maybe_margin_right := none, maybe_margin_top := none,
        maybe_margin_bottom := none }).height = 150 :=
  ⟨rfl, fallback_size (fun _ _ _ _ => (0, 0)) (create 0 none none none)
    { containing_block_width := 1280, maybe_width := none, maybe_height := none,
      maybe_margin_left := none, maybe_margin_right := none, maybe_margin_top := none,
      maybe_margin_bottom := none } rfl rfl rfl rfl rfl⟩

/-- Claim C11 fails as stated: for `sampleReplacedBox` (intrinsic width 50,
ratio 2) with used width `auto` and used height 100 the width set is
100 × 2 = 200, while the stated rule gives the intrinsic width 50. -/
theorem used_width_not_as_stated :
    (UpdateContentSizeAndMargins zeroAutoMargins sampleReplacedBox heightOnlyParams).width = 200 ∧
    StatedUsedWidth sampleReplacedBox heightOnlyParams = 50 ∧
    (UpdateContentSizeAndMargins zeroAutoMargins sampleReplacedBox heightOnlyParams).width ≠
      StatedUsedWidth sampleReplacedBox heightOnlyParams := by
  have h1 : (UpdateContentSizeAndMargins zeroAutoMargins sampleReplacedBox
      heightOnlyParams).width = 200 := by
    norm_num [UpdateContentSizeAndMargins, sampleReplacedBox, heightOnlyParams, create,
      kFallbackIntrinsicRatio]
  have h2 : StatedUsedWidth sampleReplacedBox heightOnlyParams = 50 := by
    simp [StatedUsedWidth, sampleReplacedBox, heightOnlyParams, create]
  refine ⟨h1, h2, ?_⟩
  rw [h1, h2]
  norm_num

theorem UpdateContentSizeAndMargins_width_cases
    (UpdateHorizontalMargins : ℚ → ℚ → Option ℚ → Option ℚ → ℚ × ℚ)
    (b : ReplacedBox) (layout_params : ReplacedLayoutParams) :
    (UpdateContentSizeAndMargins UpdateHorizontalMargins b layout_params).width =
      match layout_params.maybe_width, layout_params.maybe_height with
      | some width, _ => width
      | none, some height => height * b.intrinsic_ratio_
      | none, none =>
        match b.maybe_intrinsic_width_, b.maybe_intrinsic_height_ with
        | some intrinsic_width, _ => intrinsic_width
        | none, some intrinsic_height => intrinsic_height * b.intrinsic_ratio_
        | none, none => kFallbackWidth := by
  unfold UpdateContentSizeAndMargins
  cases hw : layout_params.maybe_width <;> cases hh : layout_params.maybe_height <;>
    cases hiw : b.maybe_intrinsic_width_ <;> cases hih : b.maybe_intrinsic_height_ <;>
    simp

/-- Claim C11 as amended: the used width resolved by
`UpdateContentSizeAndMargins` is the specified used width if it is not `auto`;
otherwise the used height times the intrinsic ratio if the used height is not
`auto`; otherwise (both `auto`) the intrinsic width if it exists; otherwise the
intrinsic height times the intrinsic ratio if the intrinsic height exists;
otherwise 300. -/
theorem used_width_resolution
    (UpdateHorizontalMargins : ℚ → ℚ → Option ℚ → Option ℚ → ℚ × ℚ)
    (b : ReplacedBox) (layout_params : ReplacedLayoutParams) :
    (∀ width, layout_params.maybe_width = some width →
      (UpdateContentSizeAndMargins UpdateHorizontalMargins b layout_params).width = width) ∧
    (layout_params.maybe_width = none → ∀ height, layout_params.maybe_height = some height →
      (UpdateContentSizeAndMargins UpdateHorizontalMargins b layout_params).width =
        height * b.intrinsic_ratio_) ∧
    (layout_params.maybe_width = none → layout_params.maybe_height = none →
      ∀ intrinsic_width, b.maybe_intrinsic_width_ = some intrinsic_width →
      (UpdateContentSizeAndMargins UpdateHorizontalMargins b layout_params).width =
        intrinsic_width) ∧
    (layout_params.maybe_width = none → layout_params.maybe_height = none →
      b.maybe_intrinsic_width_ = none →
      ∀ intrinsic_height, b.maybe_intrinsic_height_ = some intrinsic_height →
      (UpdateContentSizeAndMargins UpdateHorizontalMargins b layout_params).width =
        intrinsic_height * b.intrinsic_ratio_) ∧
    (layout_params.maybe_width = none → layout_params.maybe_height = none →
      b.maybe_intrinsic_width_ = none → b.maybe_intrinsic_height_ = none →
      (UpdateContentSizeAndMargins UpdateHorizontalMargins b layout_params).width = 300) := by
  have h := UpdateContentSizeAndMargins_width_cases UpdateHorizontalMargins b layout_params
  refine ⟨?_, ?_, ?_, ?_, ?_⟩
  · intro width hw
    rw [h, hw]
  · intro hw height hh
    rw [h, hw, hh]
  · intro hw hh iw hiw
    rw [h, hw, hh, hiw]
  · intro hw hh hiw ih hih
    rw [h, hw, hh, hiw, hih]
  · intro hw hh hiw hih
    rw [h, hw, hh, hiw, hih]
    rfl

/-- A concrete instance of claim C11 as amended: with used width `auto` and
used height 100 the box with ratio 2 gets the width 200, and with used width
100 it gets the width 100. -/
theorem used_width_resolution_witness :
    (UpdateContentSizeAndMargins zeroAutoMargins sampleReplacedBox heightOnlyParams).width =
      100 * sampleReplacedBox.intrinsic_ratio_ ∧
    (UpdateContentSizeAndMargins zeroAutoMargins sampleReplacedBox widthOnlyParams).width = 100 :=
  ⟨(used_width_resolution zeroAutoMargins sampleReplacedBox heightOnlyParams).2.1 rfl 100 rfl,
    (used_width_resolution zeroAutoMargins sampleReplacedBox widthOnlyParams).1 100 rfl⟩

/-- Claim C12 fails as stated: for `sampleReplacedBox` (intrinsic height 30,
ratio 2) with used width 100 and used height `auto` the height set is
100 / 2 = 50, while the stated rule gives the intrinsic height 30. -/
theorem used_height_not_as_stated :
    (UpdateContentSizeAndMargins zeroAutoMargins sampleReplacedBox widthOnlyParams).height = 50 ∧
    StatedUsedHeight sampleReplacedBox widthOnlyParams
      (UpdateContentSizeAndMargins zeroAutoMargins sampleReplacedBox widthOnlyParams).width = 30 ∧
    (UpdateContentSizeAndMargins zeroAutoMargins sampleReplacedBox widthOnlyParams).height ≠
      StatedUsedHeight sampleReplacedBox widthOnlyParams
        (UpdateContentSizeAndMargins zeroAutoMargins sampleReplacedBox widthOnlyParams).width := by
  have h1 : (UpdateContentSizeAndMargins zeroAutoMargins sampleReplacedBox
      widthOnlyParams).height = 50 := by
    norm_num [UpdateContentSizeAndMargins, sampleReplacedBox, widthOnlyParams, create,
      kFallbackIntrinsicRatio]
  have h2 : StatedUsedHeight sampleReplacedBox widthOnlyParams
      (UpdateContentSizeAndMargins zeroAutoMargins sampleReplacedBox widthOnlyParams).width =
      30 := by
    simp [StatedUsedHeight, sampleReplacedBox, widthOnlyParams, create]
  refine ⟨h1, h2, ?_⟩
  rw [h1, h2]
  norm_num

theorem UpdateContentSizeAndMargins_height_cases
    (UpdateHorizontalMargins : ℚ → ℚ → Option ℚ → Option ℚ → ℚ × ℚ)
    (b : ReplacedBox) (layout_params : ReplacedLayoutParams) :
    (UpdateContentSizeAndMargins UpdateHorizontalMargins b layout_params).height =
      match layout_params.maybe_height, layout_params.maybe_width, b.maybe_intrinsic_height_ with
      | some height, _, _ => height
      | none, none, some intrinsic_height => intrinsic_height
      | none, _, _ =>
        (UpdateContentSizeAndMargins UpdateHorizontalMargins b layout_params).width /
          b.intrinsic_ratio_ := by
  unfold UpdateContentSizeAndMargins
  cases hw : layout_params.maybe_width <;> cases hh : layout_params.maybe_height <;>
    cases hiw : b.maybe_intrinsic_width_ <;> cases hih : b.maybe_intrinsic_height_ <;>
    simp

/-- Claim C12 as amended: the used height resolved by
`UpdateContentSizeAndMargins` is the specified used height if it is not `auto`;
otherwise the intrinsic height if it exists and the used width is `auto` as
well; otherwise, for an intrinsic ratio that is not zero, the resolved used
width divided by the intrinsic ratio (so that height × ratio is the width). A
ratio of zero is left out: there the source divides a `float` by zero. -/
theorem used_height_resolution
    (UpdateHorizontalMargins : ℚ → ℚ → Option ℚ → Option ℚ → ℚ × ℚ)
    (b : ReplacedBox) (layout_params : ReplacedLayoutParams) :
    (∀ height, layout_params.maybe_height = some height →
      (UpdateContentSizeAndMargins UpdateHorizontalMargins b layout_params).height = height) ∧
    (layout_params.maybe_height = none → layout_params.maybe_width = none →
      ∀ intrinsic_height, b.maybe_intrinsic_height_ = some intrinsic_height →
      (UpdateContentSizeAndMargins UpdateHorizontalMargins b layout_params).height =
        intrinsic_height) ∧
    (b.intrinsic_ratio_ ≠ 0 → layout_params.maybe_height = none →
      (layout_params.maybe_width ≠ none ∨ b.maybe_intrinsic_height_ = none) →
      (UpdateContentSizeAndMargins UpdateHorizontalMargins b layout_params).height =
        (UpdateContentSizeAndMargins UpdateHorizontalMargins b layout_params).width /
          b.intrinsic_ratio_ ∧
      (UpdateContentSizeAndMargins UpdateHorizontalMargins b layout_params).height *
          b.intrinsic_ratio_ =
        (UpdateContentSizeAndMargins UpdateHorizontalMargins b layout_params).width) := by
  have h := UpdateContentSizeAndMargins_height_cases UpdateHorizontalMargins b layout_params
  refine ⟨?_, ?_, ?_⟩
  · intro height hh
    rw [h, hh]
  · intro hh hw ih hih
    rw [h, hh, hw, hih]
  · intro hr hh hor
    have hdiv : (UpdateContentSizeAndMargins UpdateHorizontalMargins b layout_params).height =
        (UpdateContentSizeAndMargins UpdateHorizontalMargins b layout_params).width /
          b.intrinsic_ratio_ := by
      rw [h, hh]
      rcases hor with hw | hih
      · cases hw2 : layout_params.maybe_width with
        | none => exact absurd hw2 hw
        | some w => rfl
      · rw [hih]
        cases layout_params.maybe_width <;> rfl
    refine ⟨hdiv, ?_⟩
    rw [hdiv]
    exact div_mul_cancel₀ _ hr

/-- A concrete instance of claim C12 as amended: with used width 100 and used
height `auto` the box with intrinsic height 30 and ratio 2 (which is not zero)
gets the height width / ratio, and with used height 100 it gets the height
100. -/
theorem used_height_resolution_witness :
    sampleReplacedBox.intrinsic_ratio_ ≠ 0 ∧
    (UpdateContentSizeAndMargins zeroAutoMargins sampleReplacedBox widthOnlyParams).height =
      (UpdateContentSizeAndMargins zeroAutoMargins sampleReplacedBox widthOnlyParams).width /
        sampleReplacedBox.intrinsic_ratio_ ∧
    (UpdateContentSizeAndMargins zeroAutoMargins sampleReplacedBox heightOnlyParams).height =
      100 :=
  have hr : sampleReplacedBox.intrinsic_ratio_ ≠ 0 := by
    simp [sampleReplacedBox, create, kFallbackIntrinsicRatio]
  ⟨hr,
    ((used_height_resolution zeroAutoMargins sampleReplacedBox widthOnlyParams).2.2 hr rfl
      (Or.inl (by simp [widthOnlyParams]))).1,
    (used_height_resolution zeroAutoMargins sampleReplacedBox heightOnlyParams).1 100 rfl⟩

/-- Claim C13: `UpdateContentSizeAndMargins` sets margin-top to 0 when the
computed margin-top is `auto` and to its used value otherwise, and likewise
margin-bottom. -/
theorem vertical_margins
    (UpdateHorizontalMargins : ℚ → ℚ → Option ℚ → Option ℚ → ℚ × ℚ)
    (b : ReplacedBox) (layout_params : ReplacedLayoutParams) :
    (layout_params.maybe_margin_top = none →
      (UpdateContentSizeAndMargins UpdateHorizontalMargins b layout_params).margin_top = 0) ∧
    (∀ margin, layout_params.maybe_margin_top = some margin →
      (UpdateContentSizeAndMargins UpdateHorizontalMargins b layout_params).margin_top =
        margin) ∧
    (layout_params.maybe_margin_bottom = none →
      (UpdateContentSizeAndMargins UpdateHorizontalMargins b layout_params).margin_bottom = 0) ∧
    (∀ margin, layout_params.maybe_margin_bottom = some margin →
      (UpdateContentSizeAndMargins UpdateHorizontalMargins b layout_params).margin_bottom =
        margin) := by
  have ht : (UpdateContentSizeAndMargins UpdateHorizontalMargins b layout_params).margin_top =
      layout_params.maybe_margin_top.getD 0 := by
    unfold UpdateContentSizeAndMargins
    cases layout_params.maybe_height with
    | some height => simp only
    | none =>
      simp only
      split <;> rfl
  have hb : (UpdateContentSizeAndMargins UpdateHorizontalMargins b layout_params).margin_bottom =
      layout_params.maybe_margin_bottom.getD 0 := by
    unfold UpdateContentSizeAndMargins
    cases layout_params.maybe_height with
    | some height => simp only
    | none =>
      simp only
      split <;> rfl
  refine ⟨?_, ?_, ?_, ?_⟩
  · intro h
    rw [ht, h]
    rfl
  · intro margin h
    rw [ht, h]
    rfl
  · intro h
    rw [hb, h]
    rfl
  · intro margin h
    rw [hb, h]
    rfl

/-- A concrete instance of claim C13: with margin-top 7 and margin-bottom
`auto` the box gets margin-top 7 and margin-bottom 0. -/
theorem vertical_margins_witness :
    (UpdateContentSizeAndMargins zeroAutoMargins sampleReplacedBox heightOnlyParams).margin_top =
      7 ∧
    (UpdateContentSizeAndMargins zeroAutoMargins sampleReplacedBox
      heightOnlyParams).margin_bottom = 0 :=
  ⟨(vertical_margins zeroAutoMargins sampleReplacedBox heightOnlyParams).2.1 7 rfl,
    (vertical_margins zeroAutoMargins sampleReplacedBox heightOnlyParams).2.2.1 rfl⟩

end ReplacedBox

end layout

namespace cssom

/-- Claim C14: for every id string the specificity of the ID selector is the
triple (1,0,0), and in the lexicographic order (1,0,0) is strictly greater than
every triple (0,b,c), the specificity of a selector without ID component. -/
theorem IdSelector_specificity (id : String) :
    ({ id_ := id } : IdSelector).GetSpecificity = { v0 := 1, v1 := 0, v2 := 0 } ∧
    (∀ b c : Nat, Specificity.Less { v0 := 0, v1 := b, v2 := c }
      ({ id_ := id } : IdSelector).GetSpecificity) ∧
    (∀ b c : Nat, ¬ Specificity.Less ({ id_ := id } : IdSelector).GetSpecificity
      { v0 := 0, v1 := b, v2 := c }) := by
  refine ⟨rfl, ?_, ?_⟩
  · intro b c
    simp [Specificity.Less, IdSelector.GetSpecificity]
  · intro b c
    simp [Specificity.Less, IdSelector.GetSpecificity]

theorem MediaList_foldl_Append (media_queries : List MediaQuery) :
    ∀ media_list : MediaList,
      (media_queries.foldl MediaList.Append media_list).media_queries_ =
        media_list.media_queries_ ++ media_queries := by
  induction media_queries with
  | nil =>
    intro media_list
    simp
  | cons q rest ih =>
    intro media_list
    simp only [List.foldl_cons]
    rw [ih]
    simp [MediaList.Append]

theorem MediaList_AppendAll_queries (media_queries : List MediaQuery) :
    (MediaList.AppendAll media_queries).media_queries_ = media_queries := by
  unfold MediaList.AppendAll
  rw [MediaList_foldl_Append]
  simp [MediaList.create]

/-- Claim C15: for the list built from the empty list by appending `n` queries
one after the other, `length()` is `n`, `Item(i)` is the `i`-th appended query
for every `i < n` and none for every `i ≥ n`; the empty list has length 0 and
`Item(0)` none. -/
theorem MediaList_item_access (media_queries : List MediaQuery) :
    (MediaList.AppendAll media_queries).length = media_queries.length ∧
    (∀ (i : Nat) (h : i < media_queries.length),
      (MediaList.AppendAll media_queries).Item i = some (media_queries.get ⟨i, h⟩)) ∧
    (∀ i : Nat, media_queries.length ≤ i →
      (MediaList.AppendAll media_queries).Item i = none) ∧
    MediaList.create.length = 0 ∧
    MediaList.create.Item 0 = none := by
  have hq := MediaList_AppendAll_queries media_queries
  refine ⟨?_, ?_, ?_, rfl, rfl⟩
  · simp [MediaList.length, hq]
  · intro i h
    simp [MediaList.Item, hq, h]
  · intro i h
    have : ¬ i < media_queries.length := by omega
    simp [MediaList.Item, hq, this]

/-- A concrete instance of claim C15, the test `ItemAccess`: after one query
is appended the length is 1, `Item(0)` is that query and `Item(1)` is none. -/
theorem MediaList_item_access_witness :
    (MediaList.create.Append { handle := 7 }).length = 1 ∧
    (MediaList.create.Append { handle := 7 }).Item 0 = some { handle := 7 } ∧
    (MediaList.create.Append { handle := 7 }).Item 1 = none :=
  ⟨(MediaList_item_access [{ handle := 7 }]).1,
    (MediaList_item_access [{ handle := 7 }]).2.1 0 (by decide),
    (MediaList_item_access [{ handle := 7 }]).2.2.1 1 (by decide)⟩

theorem CascadeLess_key (x y : MatchedDeclaration) :
    CascadeLess x y ↔
      ((x.important = false ∧ y.important = true) ∨
        (x.important = y.important ∧
          (x.origin.rank < y.origin.rank ∨
            (x.origin.rank = y.origin.rank ∧
              (x.specificity.v0 < y.specificity.v0 ∨
                (x.specificity.v0 = y.specificity.v0 ∧
                  (x.specificity.v1 < y.specificity.v1 ∨
                    (x.specificity.v1 = y.specificity.v1 ∧
                      (x.specificity.v2 < y.specificity.v2 ∨
                        (x.specificity.v2 = y.specificity.v2 ∧
                          x.source_index < y.source_index)))))))))) := by
  obtain ⟨xp, xv, xi, xo, ⟨xa, xb, xc⟩, xs⟩ := x
  obtain ⟨yp, yv, yi, yo, ⟨ya, yb, yc⟩, ys⟩ := y
  simp only [CascadeLess, Specificity.Less, Specificity.mk.injEq]
  constructor
  · rintro (h | ⟨h1, h2 | ⟨h3, h4 | ⟨⟨h5, h6, h7⟩, h8⟩⟩⟩)
    · exact Or.inl h
    · exact Or.inr ⟨h1, Or.inl h2⟩
    · refine Or.inr ⟨h1, Or.inr ⟨h3, ?_⟩⟩
      omega
    · refine Or.inr ⟨h1, Or.inr ⟨h3, ?_⟩⟩
      omega
  · rintro (h | ⟨h1, h2 | ⟨h3, h4⟩⟩)
    · exact Or.inl h
    · exact Or.inr ⟨h1, Or.inl h2⟩
    · refine Or.inr ⟨h1, Or.inr ⟨h3, ?_⟩⟩
      by_cases hs : (xa = ya ∧ xb = yb ∧ xc = yc)
      · right
        refine ⟨hs, ?_⟩
        omega
      · left
        omega

theorem CascadeLess_asymm (x y : MatchedDeclaration) (h : CascadeLess x y) :
    ¬ CascadeLess y x := by
  rw [CascadeLess_key] at h ⊢
  cases hx : x.important <;> cases hy : y.important <;> simp only [hx, hy] at h ⊢ <;>
    simp only [Bool.false_eq_true, false_and, and_false, true_and, and_true, false_or, or_false,
      not_false_eq_true, not_true_eq_false, reduceCtorEq] at h ⊢ <;> omega

theorem CascadeLess_le_trans (x y z : MatchedDeclaration) (hxy : ¬ CascadeLess y x)
    (hyz : ¬ CascadeLess z y) : ¬ CascadeLess z x := by
  rw [CascadeLess_key] at hxy hyz ⊢
  cases hx : x.important <;> cases hy : y.important <;> cases hz : z.important <;>
    simp only [hx, hy, hz] at hxy hyz ⊢ <;>
    simp only [Bool.false_eq_true, false_and, and_false, true_and, and_true, false_or, or_false,
      not_false_eq_true, not_true_eq_false, reduceCtorEq] at hxy hyz ⊢ <;> omega

theorem PickWinner_some (l : List MatchedDeclaration) :
    ∀ b : MatchedDeclaration, ∃ w, PickWinner (some b) l = some w ∧ (w = b ∨ w ∈ l) ∧
      ¬ CascadeLess w b ∧ ∀ d ∈ l, ¬ CascadeLess w d := by
  induction l with
  | nil =>
    intro b
    refine ⟨b, rfl, Or.inl rfl, ?_, by simp⟩
    intro h
    exact CascadeLess_asymm b b h h
  | cons d rest ih =>
    intro b
    by_cases hdb : CascadeLess d b
    · obtain ⟨w, hw, hmem, hwb, hall⟩ := ih b
      refine ⟨w, ?_, ?_, hwb, ?_⟩
      · simp only [PickWinner, hdb, if_true]
        exact hw
      · rcases hmem with h | h
        · exact Or.inl h
        · exact Or.inr (List.mem_cons_of_mem _ h)
      · intro e he
        rcases List.mem_cons.mp he with h | h
        · subst h
          exact CascadeLess_le_trans e b w (CascadeLess_asymm e b hdb) hwb
        · exact hall e h
    · obtain ⟨w, hw, hmem, hwd, hall⟩ := ih d
      refine ⟨w, ?_, ?_, ?_, ?_⟩
      · simp only [PickWinner, hdb, if_false]
        exact hw
      · rcases hmem with h | h
        · exact Or.inr (h ▸ List.mem_cons_self _ _)
        · exact Or.inr (List.mem_cons_of_mem _ h)
      · exact CascadeLess_le_trans b d w hdb hwd
      · intro e he
        rcases List.mem_cons.mp he with h | h
        · subst h
          exact hwd
        · exact hall e h

theorem PickWinner_none (l : List MatchedDeclaration) :
    (PickWinner none l = none ↔ l = []) ∧
    ∀ w, PickWinner none l = some w → w ∈ l ∧ ∀ d ∈ l, ¬ CascadeLess w d := by
  cases l with
  | nil =>
    constructor
    · simp [PickWinner]
    · intro w h
      simp [PickWinner] at h
  | cons d rest =>
    obtain ⟨w, hw, hmem, hwd, hall⟩ := PickWinner_some rest d
    constructor
    · simp [PickWinner, hw]
    · intro w2 h
      simp only [PickWinner, hw, Option.some.injEq] at h
      subst h
      constructor
      · rcases hmem with h | h
        · exact h ▸ List.mem_cons_self _ _
        · exact List.mem_cons_of_mem _ h
      · intro e he
        rcases List.mem_cons.mp he with h | h
        · subst h
          exact hwd
        · exact hall e h

theorem mem_CascadeCandidates (matched : List MatchedDeclaration) (property : String)
    (d : MatchedDeclaration) :
    d ∈ CascadeCandidates matched property ↔
      d ∈ matched ∧ d.property = property ∧ d.value.isSome = true := by
  simp [CascadeCandidates, List.mem_filter]

/-- Claim C16: for every list of matched declarations and every property, the
cascade winner is one of the matched declarations of that property with a
non-null value, and no such declaration comes after it in the order "important
before non-important, then origin UserAgent < Author < Inline, then specificity,
then source index"; there is no winner only when there is no candidate. Hence
a non-important Inline declaration does not win against an important Author
one, a non-important Author declaration does not win against an important
UserAgent one, and of two candidates equal in importance, origin and
specificity the one with the smaller source index does not win. -/
theorem cascade_winner_is_maximum (matched : List MatchedDeclaration) (property : String) :
    (CascadeWinner matched property = none ↔
      ∀ d ∈ matched, ¬ (d.property = property ∧ d.value.isSome = true)) ∧
    (∀ w, CascadeWinner matched property = some w →
      w ∈ matched ∧ w.property = property ∧ w.value.isSome = true ∧
      ∀ d ∈ matched, d.property = property → d.value.isSome = true → ¬ CascadeLess w d) ∧
    (∀ a i : MatchedDeclaration,
      a ∈ matched → a.property = property → a.value.isSome = true →
      a.important = true → a.origin = Origin.kAuthor →
      i.important = false → i.origin = Origin.kInline →
      CascadeLess i a ∧ CascadeWinner matched property ≠ some i) ∧
    (∀ n u : MatchedDeclaration,
      u ∈ matched → u.property = property → u.value.isSome = true →
      u.important = true → u.origin = Origin.kUserAgent →
      n.important = false → n.origin = Origin.kAuthor →
      CascadeLess n u ∧ CascadeWinner matched property ≠ some n) ∧
    (∀ x y : MatchedDeclaration,
      y ∈ matched → y.property = property → y.value.isSome = true →
      x.important = y.important → x.origin = y.origin → x.specificity = y.specificity →
      x.source_index < y.source_index →
      CascadeLess x y ∧ CascadeWinner matched property ≠ some x) := by
  obtain ⟨hnone, hsome⟩ := PickWinner_none (CascadeCandidates matched property)
  have hmax : ∀ w, CascadeWinner matched property = some w →
      ∀ d ∈ matched, d.property = property → d.value.isSome = true → ¬ CascadeLess w d := by
    intro w hw d hd hp hv
    exact (hsome w hw).2 d ((mem_CascadeCandidates matched property d).mpr ⟨hd, hp, hv⟩)
  refine ⟨?_, ?_, ?_, ?_, ?_⟩
  · unfold CascadeWinner
    rw [hnone, List.eq_nil_iff_forall_not_mem]
    constructor
    · intro h d hd hc
      exact h d ((mem_CascadeCandidates matched property d).mpr ⟨hd, hc.1, hc.2⟩)
    · intro h d hd
      obtain ⟨h1, h2, h3⟩ := (mem_CascadeCandidates matched property d).mp hd
      exact h d h1 ⟨h2, h3⟩
  · intro w hw
    obtain ⟨h1, h2, h3⟩ := (mem_CascadeCandidates matched property w).mp (hsome w hw).1
    exact ⟨h1, h2, h3, hmax w hw⟩
  · intro a i ha hp hv hai hao hii hio
    have hless : CascadeLess i a := Or.inl ⟨hii, hai⟩
    exact ⟨hless, fun hw => hmax i hw a ha hp hv hless⟩
  · intro n u hu hp hv hui huo hni hno
    have hless : CascadeLess n u := Or.inl ⟨hni, hui⟩
    exact ⟨hless, fun hw => hmax n hw u hu hp hv hless⟩
  · intro x y hy hp hv hi ho hs hlt
    have hless : CascadeLess x y :=
      Or.inr ⟨hi, Or.inr ⟨by rw [ho], Or.inr ⟨hs, hlt⟩⟩⟩
    exact ⟨hless, fun hw => hmax x hw y hy hp hv hless⟩

/-- A concrete instance of claim C16: among `sampleMatched` the winner for
`color` is the important author declaration with the later source index; the
normal inline declaration, the normal author declaration with the ID selector
and the declaration with the null value do not win. -/
theorem cascade_winner_is_maximum_witness :
    CascadeWinner sampleMatched "color" = some sampleWinner ∧
    sampleWinner ∈ sampleMatched ∧
    (∀ d ∈ sampleMatched, d.property = "color" → d.value.isSome = true →
      ¬ CascadeLess sampleWinner d) :=
  have h : CascadeWinner sampleMatched "color" = some sampleWinner := by decide
  ⟨h, ((cascade_winner_is_maximum sampleMatched "color").2.1 sampleWinner h).1,
    ((cascade_winner_is_maximum sampleMatched "color").2.1 sampleWinner h).2.2.2⟩

end cssom

namespace dom

namespace EventTarget

theorem apply_frame (event : Event) (call : EventCall) :
    (EventCall.apply event call).type_ = event.type_ ∧
    (EventCall.apply event call).target_ = event.target_ ∧
    (EventCall.apply event call).current_target_ = event.current_target_ ∧
    (EventCall.apply event call).event_phase_ = event.event_phase_ ∧
    (event.immediate_propagation_stopped_ = true →
      (EventCall.apply event call).immediate_propagation_stopped_ = true) ∧
    (call ≠ EventCall.StopImmediatePropagation →
      (EventCall.apply event call).immediate_propagation_stopped_ =
        event.immediate_propagation_stopped_) ∧
    (call = EventCall.StopImmediatePropagation →
      (EventCall.apply event call).immediate_propagation_stopped_ = true) ∧
    (call = EventCall.StopPropagation →
      (EventCall.apply event call).default_prevented_ = event.default_prevented_) := by
  cases call with
  | StopPropagation => simp [EventCall.apply, Event.StopPropagation]
  | StopImmediatePropagation => simp [EventCall.apply, Event.StopImmediatePropagation]
  | PreventDefault =>
    simp only [EventCall.apply, Event.PreventDefault]
    split <;> simp

theorem foldl_apply_frame (calls : List EventCall) :
    ∀ event : Event,
      (calls.foldl EventCall.apply event).type_ = event.type_ ∧
      (calls.foldl EventCall.apply event).target_ = event.target_ ∧
      (calls.foldl EventCall.apply event).current_target_ = event.current_target_ ∧
      (calls.foldl EventCall.apply event).event_phase_ = event.event_phase_ ∧
      (event.immediate_propagation_stopped_ = true →
        (calls.foldl EventCall.apply event).immediate_propagation_stopped_ = true) ∧
      (EventCall.StopImmediatePropagation ∉ calls →
        (calls.foldl EventCall.apply event).immediate_propagation_stopped_ =
          event.immediate_propagation_stopped_) ∧
      (EventCall.StopImmediatePropagation ∈ calls →
        (calls.foldl EventCall.apply event).immediate_propagation_stopped_ = true) := by
  induction calls with
  | nil =>
    intro event
    simp
  | cons call rest ih =>
    intro event
    obtain ⟨a1, a2, a3, a4, a5, a6, a7, -⟩ := apply_frame event call
    obtain ⟨b1, b2, b3, b4, b5, b6, b7⟩ := ih (EventCall.apply event call)
    simp only [List.foldl_cons]
    refine ⟨by rw [b1, a1], by rw [b2, a2], by rw [b3, a3], by rw [b4, a4], ?_, ?_, ?_⟩
    · intro h
      exact b5 (a5 h)
    · intro h
      have h1 : call ≠ EventCall.StopImmediatePropagation := by
        intro hc
        exact h (hc ▸ List.mem_cons_self _ _)
      have h2 : EventCall.StopImmediatePropagation ∉ rest := by
        intro hc
        exact h (List.mem_cons_of_mem _ hc)
      rw [b6 h2, a6 h1]
    · intro h
      rcases List.mem_cons.mp h with hc | hc
      · exact b5 (a7 hc.symm)
      · exact b7 hc

theorem HandleEvent_frame (listener : EventListener) (event : Event) :
    (listener.HandleEvent event).type_ = event.type_ ∧
    (listener.HandleEvent event).target_ = event.target_ ∧
    (listener.HandleEvent event).current_target_ = event.current_target_ ∧
    (listener.HandleEvent event).event_phase_ = event.event_phase_ ∧
    (event.immediate_propagation_stopped_ = true →
      (listener.HandleEvent event).immediate_propagation_stopped_ = true) ∧
    (EventCall.StopImmediatePropagation ∉ listener.calls event →
      (listener.HandleEvent event).immediate_propagation_stopped_ =
        event.immediate_propagation_stopped_) ∧
    (EventCall.StopImmediatePropagation ∈ listener.calls event →
      (listener.HandleEvent event).immediate_propagation_stopped_ = true) :=
  foldl_apply_frame (listener.calls event) event

theorem FireLoop_stopped (l : List EventListenerInfo) (event : Event)
    (h : event.immediate_propagation_stopped_ = true) : FireLoop l event = (event, []) := by
  induction l with
  | nil => rfl
  | cons info rest ih =>
    simp only [FireLoop, h, if_true]
    exact ih

theorem FireLoop_frame (l : List EventListenerInfo) :
    ∀ event : Event,
      (FireLoop l event).1.type_ = event.type_ ∧
      (FireLoop l event).1.target_ = event.target_ ∧
      (FireLoop l event).1.current_target_ = event.current_target_ ∧
      (FireLoop l event).1.event_phase_ = event.event_phase_ ∧
      ∀ inv ∈ (FireLoop l event).2,
        inv.event.type_ = event.type_ ∧ inv.event.target_ = event.target_ ∧
        inv.event.current_target_ = event.current_target_ ∧
        inv.event.event_phase_ = event.event_phase_ := by
  induction l with
  | nil =>
    intro event
    simp [FireLoop]
  | cons info rest ih =>
    intro event
    obtain ⟨a1, a2, a3, a4, -⟩ := HandleEvent_frame info.listener event
    obtain ⟨b1, b2, b3, b4, b5⟩ := ih (info.listener.HandleEvent event)
    unfold FireLoop
    split
    · exact ih event
    · split
      · exact ih event
      · split
        · exact ih event
        · split
          · exact ih event
          · refine ⟨by rw [b1, a1], by rw [b2, a2], by rw [b3, a3], by rw [b4, a4], ?_⟩
            intro inv hinv
            rcases List.mem_cons.mp hinv with h | h
            · subst h
              exact ⟨rfl, rfl, rfl, rfl⟩
            · obtain ⟨c1, c2, c3, c4⟩ := b5 inv h
              exact ⟨by rw [c1, a1], by rw [c2, a2], by rw [c3, a3], by rw [c4, a4]⟩

theorem FireLoop_at_target (l : List EventListenerInfo) :
    ∀ event : Event, event.event_phase_ = EventPhase.kAtTarget →
      event.immediate_propagation_stopped_ = false →
      (∀ info ∈ l, info.type = event.type_ → ∀ e : Event,
        EventCall.StopImmediatePropagation ∉ info.listener.calls e) →
      (FireLoop l event).2.map Invocation.info =
        l.filter (fun info => info.type == event.type_) := by
  induction l with
  | nil =>
    intro event _ _ _
    simp [FireLoop]
  | cons info rest ih =>
    intro event hphase hfresh hno
    have hrest : ∀ i ∈ rest, i.type = event.type_ → ∀ e : Event,
        EventCall.StopImmediatePropagation ∉ i.listener.calls e :=
      fun i hi => hno i (List.mem_cons_of_mem _ hi)
    by_cases ht : info.type = event.type_
    · obtain ⟨a1, -, -, a4, -, a6, -⟩ := HandleEvent_frame info.listener event
      have hq := hno info (List.mem_cons_self _ _) ht event
      have hrest2 : ∀ i ∈ rest, i.type = (info.listener.HandleEvent event).type_ →
          ∀ e : Event, EventCall.StopImmediatePropagation ∉ i.listener.calls e := by
        intro i hi hit
        exact hrest i hi (hit.trans a1)
      have hih := ih (info.listener.HandleEvent event) (a4.trans hphase)
        ((a6 hq).trans hfresh) hrest2
      have hp1 : (EventPhase.kAtTarget == EventPhase.kCapturingPhase) = false := by decide
      have hp2 : (EventPhase.kAtTarget == EventPhase.kBubblingPhase) = false := by decide
      simp only [FireLoop, hfresh, hphase, ht, bne_self_eq_false, Bool.false_eq_true, if_false,
        List.map_cons, List.filter_cons, beq_self_eq_true, if_true, hp1, hp2, Bool.false_and]
      rw [hih, a1]
    · have hne : (info.type != event.type_) = true := by simpa [bne_iff_ne] using ht
      have hbeq : (info.type == event.type_) = false := by simpa using ht
      simp only [FireLoop, hfresh, hne, Bool.false_eq_true, if_false, if_true, List.filter_cons,
        hbeq]
      exact ih event hphase hfresh hrest

theorem FireLoop_last_after_stop (l : List EventListenerInfo) :
    ∀ (event : Event) (l1 : List Invocation) (inv : Invocation) (l2 : List Invocation),
      (FireLoop l event).2 = l1 ++ inv :: l2 →
      EventCall.StopImmediatePropagation ∈ inv.info.listener.calls inv.event →
      l2 = [] := by
  induction l with
  | nil =>
    intro event l1 inv l2 h _
    simp [FireLoop] at h
  | cons info rest ih =>
    intro event l1 inv l2 h hstop
    unfold FireLoop at h
    split at h
    · exact ih event l1 inv l2 h hstop
    · split at h
      · exact ih event l1 inv l2 h hstop
      · split at h
        · exact ih event l1 inv l2 h hstop
        · split at h
          · exact ih event l1 inv l2 h hstop
          · cases l1 with
            | nil =>
              simp only [List.nil_append, List.cons.injEq] at h
              obtain ⟨h1, h2⟩ := h
              subst h1
              have hs := (HandleEvent_frame info.listener event).2.2.2.2.2.2 hstop
              rw [FireLoop_stopped rest _ hs] at h2
              exact h2.symm
            | cons x l1rest =>
              simp only [List.cons_append, List.cons.injEq] at h
              exact ih _ l1rest inv l2 h.2 hstop

theorem FireLoop_no_match (l : List EventListenerInfo) (event : Event)
    (h : ∀ info ∈ l, info.type ≠ event.type_) : FireLoop l event = (event, []) := by
  induction l with
  | nil => rfl
  | cons info rest ih =>
    have hne : (info.type != event.type_) = true := by
      simpa [bne_iff_ne] using h info (List.mem_cons_self _ _)
    have hrest := ih (fun i hi => h i (List.mem_cons_of_mem _ hi))
    simp only [FireLoop, hne, if_true, ite_self]
    exact hrest

theorem DispatchEvent_parts (target : EventTarget) (event : Event) :
    (target.DispatchEvent event).invocations =
      (FireLoop target.event_listener_infos_
        (((event.set_target (some target.address)).set_event_phase
          EventPhase.kAtTarget).set_current_target (some target.address))).2 ∧
    (target.DispatchEvent event).event =
      (((FireLoop target.event_listener_infos_
        (((event.set_target (some target.address)).set_event_phase
          EventPhase.kAtTarget).set_current_target (some target.address))).1.set_current_target
            none).set_event_phase EventPhase.kNone) ∧
    (target.DispatchEvent event).result =
      !(FireLoop target.event_listener_infos_
        (((event.set_target (some target.address)).set_event_phase
          EventPhase.kAtTarget).set_current_target
            (some target.address))).1.default_prevented_ :=
  ⟨rfl, rfl, rfl⟩

/-- Claim C17: `DispatchEvent(event)` on a target outside the DOM tree, for an
event on which immediate propagation has not been stopped and with no matching
listener stopping it, calls exactly the registrations whose type equals the
type of the event, each once and in registration order, whatever their capture
flag; registrations of another type are not called; at each call the target and
the current target of the event are this event target and the phase is
at-target. -/
theorem DispatchEvent_invokes_matching (target : EventTarget) (event : Event)
    (hfresh : event.immediate_propagation_stopped_ = false)
    (hno : ∀ info ∈ target.event_listener_infos_, info.type = event.type_ →
      ∀ e : Event, EventCall.StopImmediatePropagation ∉ info.listener.calls e) :
    (target.DispatchEvent event).invocations.map Invocation.info =
      target.event_listener_infos_.filter (fun info => info.type == event.type_) ∧
    (∀ inv ∈ (target.DispatchEvent event).invocations,
      inv.event.target_ = some target.address ∧
      inv.event.current_target_ = some target.address ∧
      inv.event.event_phase_ = EventPhase.kAtTarget ∧
      inv.event.type_ = event.type_) := by
  obtain ⟨hinv, -, -⟩ := DispatchEvent_parts target event
  rw [hinv]
  constructor
  · exact FireLoop_at_target target.event_listener_infos_
      (((event.set_target (some target.address)).set_event_phase
        EventPhase.kAtTarget).set_current_target (some target.address)) rfl hfresh hno
  · intro inv hmem
    obtain ⟨c1, c2, c3, c4⟩ := (FireLoop_frame target.event_listener_infos_ _).2.2.2.2 inv hmem
    exact ⟨c2, c3, c4, c1⟩

/-- A concrete instance of claim C17, the test `MultipleEventListeners`: the
two listeners registered for "fired" are called in registration order, the
second although it has the capture flag, and the listener registered for
"notfired" is not called. -/
theorem DispatchEvent_invokes_matching_witness :
    ((multipleListenersTarget.DispatchEvent (Event.create "fired" false false)).invocations.map
      (fun inv => (inv.info.type, inv.info.listener.script_object, inv.info.use_capture))) =
      [("fired", 1, false), ("fired", 2, true)] ∧
    (multipleListenersTarget.DispatchEvent (Event.create "fired" false false)).invocations.map
        Invocation.info =
      multipleListenersTarget.event_listener_infos_.filter (fun info => info.type == "fired") :=
  ⟨by decide,
    (DispatchEvent_invokes_matching multipleListenersTarget (Event.create "fired" false false)
      rfl (by
        intro info _ _ e hmem
        have hq : ∀ i ∈ multipleListenersTarget.event_listener_infos_,
            ∀ e : Event, i.listener.calls e = [] := by
          intro i hi e
          have hl : multipleListenersTarget.event_listener_infos_ =
              [{ type := "fired", listener := quietListener 1, use_capture := false },
                { type := "notfired", listener := quietListener 3, use_capture := false },
                { type := "fired", listener := quietListener 2, use_capture := true }] := by
            rfl
          rw [hl] at hi
          simp only [List.mem_cons, List.mem_singleton, List.not_mem_nil, or_false] at hi
          rcases hi with h | h | h <;> subst h <;> rfl
        rw [hq info ‹_› e] at hmem
        simp at hmem)).1⟩

theorem EraseFirstMatch_no_match (type : String) (listener : EventListener)
    (use_capture : Bool) (l : List EventListenerInfo)
    (h : ∀ info ∈ l, info.Matches type listener use_capture = false) :
    EraseFirstMatch type listener use_capture l = l := by
  induction l with
  | nil => rfl
  | cons info rest ih =>
    have h1 := h info (List.mem_cons_self _ _)
    simp only [EraseFirstMatch, h1, Bool.false_eq_true, if_false]
    rw [ih (fun i hi => h i (List.mem_cons_of_mem _ hi))]

theorem EraseFirstMatch_append (type : String) (listener : EventListener)
    (use_capture : Bool) (pre : List EventListenerInfo) (x : EventListenerInfo)
    (post : List EventListenerInfo)
    (hpre : ∀ info ∈ pre, info.Matches type listener use_capture = false)
    (hx : x.Matches type listener use_capture = true) :
    EraseFirstMatch type listener use_capture (pre ++ x :: post) = pre ++ post := by
  induction pre with
  | nil => simp [EraseFirstMatch, hx]
  | cons info rest ih =>
    have h1 := hpre info (List.mem_cons_self _ _)
    have h2 := ih (fun i hi => hpre i (List.mem_cons_of_mem _ hi))
    rw [List.cons_append, List.cons_append]
    simp only [EraseFirstMatch, h1, Bool.false_eq_true, if_false]
    rw [h2]

/-- Claim C18: `RemoveEventListener(type, listener, use_capture)` erases the
first registration that matches in type, listener and capture flag and nothing
else; `AddEventListener(t,l,c)` followed by `RemoveEventListener(t,l,c)` on a
target that held no registration matching `(t,l,c)` gives back the target as it
was; and a removal whose type or capture flag differs from every registration
leaves the target unchanged. -/
theorem RemoveEventListener_spec (target : EventTarget) (type : String)
    (listener : EventListener) (use_capture : Bool) :
    (∀ (pre : List EventListenerInfo) (x : EventListenerInfo) (post : List EventListenerInfo),
      target.event_listener_infos_ = pre ++ x :: post →
      (∀ info ∈ pre, info.Matches type listener use_capture = false) →
      x.Matches type listener use_capture = true →
      (target.RemoveEventListener type listener use_capture).event_listener_infos_ =
        pre ++ post ∧
      (target.RemoveEventListener type listener use_capture).address = target.address) ∧
    ((∀ info ∈ target.event_listener_infos_,
        info.Matches type listener use_capture = false) →
      (target.AddEventListener type listener use_capture).RemoveEventListener type listener
        use_capture = target) ∧
    ((∀ info ∈ target.event_listener_infos_,
        info.type ≠ type ∨ info.use_capture ≠ use_capture) →
      target.RemoveEventListener type listener use_capture = target) := by
  refine ⟨?_, ?_, ?_⟩
  · intro pre x post hsplit hpre hx
    refine ⟨?_, rfl⟩
    simp only [RemoveEventListener]
    rw [hsplit]
    exact EraseFirstMatch_append type listener use_capture pre x post hpre hx
  · intro hnot
    have hany : (target.event_listener_infos_.any
        (fun info => info.Matches type listener use_capture)) = false := by
      rw [List.any_eq_false]
      intro info hinfo
      simp [hnot info hinfo]
    have hself : ({ type := type, listener := listener, use_capture := use_capture } :
        EventListenerInfo).Matches type listener use_capture = true := by
      simp [EventListenerInfo.Matches, EventListener.EqualTo]
    have herase := EraseFirstMatch_append type listener use_capture
      target.event_listener_infos_
      { type := type, listener := listener, use_capture := use_capture } [] hnot hself
    simp only [AddEventListener, hany, Bool.false_eq_true, if_false, RemoveEventListener]
    rw [herase]
    simp
  · intro hdiff
    have hnot : ∀ info ∈ target.event_listener_infos_,
        info.Matches type listener use_capture = false := by
      intro info hinfo
      rcases hdiff info hinfo with h | h
      · simp [EventListenerInfo.Matches, h]
      · simp [EventListenerInfo.Matches, h]
    simp only [RemoveEventListener]
    rw [EraseFirstMatch_no_match type listener use_capture _ hnot]

/-- A concrete instance of claim C18, from the test `EventListenerReuse`: on an
empty target, adding listener 1 for "fired_1" and removing it again gives back
the empty target, and on the target that holds that registration a removal with
the capture flag set changes nothing. -/
theorem RemoveEventListener_spec_witness :
    ((({ address := 5, event_listener_infos_ := [] } : EventTarget).AddEventListener "fired_1"
      (quietListener 1) false).RemoveEventListener "fired_1" (quietListener 1) false) =
      { address := 5, event_listener_infos_ := [] } ∧
    ((({ address := 5, event_listener_infos_ := [] } : EventTarget).AddEventListener "fired_1"
      (quietListener 1) false).RemoveEventListener "fired_1" (quietListener 1) true) =
      (({ address := 5, event_listener_infos_ := [] } : EventTarget).AddEventListener "fired_1"
        (quietListener 1) false) :=
  ⟨(RemoveEventListener_spec { address := 5, event_listener_infos_ := [] } "fired_1"
      (quietListener 1) false).2.1 (by simp),
    (RemoveEventListener_spec
      (({ address := 5, event_listener_infos_ := [] } : EventTarget).AddEventListener "fired_1"
        (quietListener 1) false) "fired_1" (quietListener 1) true).2.2 (by
      intro info hinfo
      have hl : (({ address := 5, event_listener_infos_ := [] } : EventTarget).AddEventListener
          "fired_1" (quietListener 1) false).event_listener_infos_ =
          [{ type := "fired_1", listener := quietListener 1, use_capture := false }] := rfl
      rw [hl] at hinfo
      simp only [List.mem_singleton] at hinfo
      subst hinfo
      exact Or.inr (by decide))⟩

/-- Claim C19: in a dispatch, the call in which a listener calls
`StopImmediatePropagation` is the last `HandleEvent` call, so no listener later
in the registration list is called; when the listeners call nothing but
`StopPropagation`, on an event whose immediate propagation is not stopped,
every registration of the type of the event is still called. -/
theorem DispatchEvent_stop_rules (target : EventTarget) (event : Event) :
    (∀ (before : List Invocation) (inv : Invocation) (after : List Invocation),
      (target.DispatchEvent event).invocations = before ++ inv :: after →
      EventCall.StopImmediatePropagation ∈ inv.info.listener.calls inv.event →
      after = []) ∧
    (event.immediate_propagation_stopped_ = false →
      (∀ info ∈ target.event_listener_infos_, ∀ e : Event,
        ∀ call ∈ info.listener.calls e, call = EventCall.StopPropagation) →
      (target.DispatchEvent event).invocations.map Invocation.info =
        target.event_listener_infos_.filter (fun info => info.type == event.type_)) := by
  obtain ⟨hinv, -, -⟩ := DispatchEvent_parts target event
  rw [hinv]
  constructor
  · intro before inv after hsplit hstop
    exact FireLoop_last_after_stop target.event_listener_infos_ _ before inv after hsplit hstop
  · intro hfresh honly
    refine FireLoop_at_target target.event_listener_infos_
      (((event.set_target (some target.address)).set_event_phase
        EventPhase.kAtTarget).set_current_target (some target.address)) rfl hfresh ?_
    intro info hinfo _ e hmem
    have := honly info hinfo e _ hmem
    cases this

/-- A concrete instance of claim C19, the tests `StopImmediatePropagation` and
`StopPropagation`: when the first listener stops immediate propagation only
listener 1 is called; when it only stops propagation listeners 1 and 2 are
called. -/
theorem DispatchEvent_stop_rules_witness :
    ((stopImmediateTarget.DispatchEvent (Event.create "fired" false false)).invocations.map
      (fun inv => inv.info.listener.script_object)) = [1] ∧
    (∀ after : List Invocation,
      (stopImmediateTarget.DispatchEvent (Event.create "fired" false false)).invocations =
        [] ++ { info := { type := "fired",
                          listener := callingListener 1 EventCall.StopImmediatePropagation,
                          use_capture := false },
                event := ((((Event.create "fired" false false).set_target (some 2)).set_event_phase
                  EventPhase.kAtTarget).set_current_target (some 2)) } :: after →
      after = []) ∧
    ((stopPropagationTarget.DispatchEvent (Event.create "fired" false false)).invocations.map
      (fun inv => inv.info.listener.script_object)) = [1, 2] :=
  ⟨by decide,
    fun after h =>
      (DispatchEvent_stop_rules stopImmediateTarget (Event.create "fired" false false)).1 []
        _ after h (by simp [callingListener]),
    by decide⟩

/-- Claim C20: `DispatchEvent(event)` returns false exactly when the default of
the event is prevented once the listeners have run, and true otherwise, in
particular when no listener matches an event whose default was not prevented;
on return the phase of the event is `kNone`, its current target is null and its
target is this event target. -/
theorem DispatchEvent_result (target : EventTarget) (event : Event) :
    ((target.DispatchEvent event).result = false ↔
      (FireLoop target.event_listener_infos_
        (((event.set_target (some target.address)).set_event_phase
          EventPhase.kAtTarget).set_current_target
            (some target.address))).1.default_prevented_ = true) ∧
    ((target.DispatchEvent event).result = false ↔
      (target.DispatchEvent event).event.default_prevented_ = true) ∧
    (target.DispatchEvent event).event.event_phase_ = EventPhase.kNone ∧
    (target.DispatchEvent event).event.current_target_ = none ∧
    (target.DispatchEvent event).event.target_ = some target.address ∧
    ((∀ info ∈ target.event_listener_infos_, info.type ≠ event.type_) →
      event.default_prevented_ = false →
      (target.DispatchEvent event).result = true ∧
      (target.DispatchEvent event).invocations = []) := by
  obtain ⟨hinv, hev, hres⟩ := DispatchEvent_parts target event
  refine ⟨?_, ?_, ?_, ?_, ?_, ?_⟩
  · rw [hres]
    simp
  · rw [hres, hev]
    simp [Event.set_current_target, Event.set_event_phase]
  · rw [hev]
    rfl
  · rw [hev]
    rfl
  · rw [hev]
    have h := (FireLoop_frame target.event_listener_infos_
      (((event.set_target (some target.address)).set_event_phase
        EventPhase.kAtTarget).set_current_target (some target.address))).2.1
    simpa [Event.set_current_target, Event.set_event_phase, Event.set_target] using h
  · intro hno hdef
    have hloop := FireLoop_no_match target.event_listener_infos_
      (((event.set_target (some target.address)).set_event_phase
        EventPhase.kAtTarget).set_current_target (some target.address)) hno
    rw [hres, hinv, hloop]
    simp [Event.set_current_target, Event.set_event_phase, Event.set_target, hdef]

/-- A concrete instance of claim C20, the test `PreventDefault`: with a
listener that prevents the default, the dispatch of a cancelable event returns
false and that of an event that is not cancelable returns true; a "fired"
event on a target without matching listener returns true. -/
theorem DispatchEvent_result_witness :
    (preventDefaultTarget.DispatchEvent (Event.create "fired" false true)).result = false ∧
    (preventDefaultTarget.DispatchEvent (Event.create "fired" false false)).result = true ∧
    (preventDefaultTarget.DispatchEvent (Event.create "other" false true)).result = true ∧
    (preventDefaultTarget.DispatchEvent (Event.create "fired" false true)).event.target_ =
      some 4 :=
  ⟨(DispatchEvent_result preventDefaultTarget (Event.create "fired" false true)).1.mpr
      (by decide),
    by decide,
    ((DispatchEvent_result preventDefaultTarget (Event.create "other" false true)).2.2.2.2.2
      (by
        intro info hinfo
        have hl : preventDefaultTarget.event_listener_infos_ =
            [{ type := "fired", listener := callingListener 1 EventCall.PreventDefault,
               use_capture := false }] := rfl
        rw [hl] at hinfo
        simp only [List.mem_singleton] at hinfo
        subst hinfo
        decide)
      rfl).1,
    (DispatchEvent_result preventDefaultTarget (Event.create "fired" false true)).2.2.2.2.1⟩

end EventTarget

end dom

namespace layout

open cssom

theorem create_trigger (cs : ComputedStyle) (para : Paragraph) (s e : Int) (t : Bool)
    (f : FontList) : (TextBox.create cs para s e t f).triggers_line_break_ = t := by
  unfold TextBox.create TextBox.UpdateTextHasTrailingWhiteSpace
    TextBox.UpdateTextHasLeadingWhiteSpace
  simp only [TextBox.WhiteSpaceStyleAllowsCollapsing]
  split <;> rfl

theorem SplitAtPosition_trigger (b : TextBox) (p : Int) :
    (b.SplitAtPosition p).1.triggers_line_break_ = false ∧
    (b.SplitAtPosition p).2.triggers_line_break_ = b.triggers_line_break_ := by
  constructor
  · rfl
  · unfold TextBox.SplitAtPosition
    simp only
    rw [create_trigger]
    exact (TextBox.UpdateTextHasTrailingWhiteSpace_fields _).2.2.2.2.2.2.2.2.1

theorem SplitBoxAt_isEmpty (l : List TextBox) (i : Nat) (p : Int) :
    (SplitBoxAt l i p).isEmpty = l.isEmpty := by
  cases l with
  | nil => rfl
  | cons b rest =>
    cases i <;> rfl

theorem TriggerAtEnd_SplitBoxAt (t : Bool) (l : List TextBox) :
    ∀ (i : Nat) (p : Int), TriggerAtEnd t l → TriggerAtEnd t (SplitBoxAt l i p) := by
  induction l with
  | nil =>
    intro i p h
    exact h
  | cons b rest ih =>
    intro i p h
    obtain ⟨h1, h2⟩ := h
    cases i with
    | zero =>
      obtain ⟨t1, t2⟩ := SplitAtPosition_trigger b p
      simp only [SplitBoxAt, TriggerAtEnd]
      refine ⟨?_, ?_, h2⟩
      · rw [t1]
        rfl
      · rw [t2, h1]
    | succ n =>
      simp only [SplitBoxAt, TriggerAtEnd]
      refine ⟨?_, ih n p h2⟩
      rw [SplitBoxAt_isEmpty]
      exact h1

theorem TriggerAtEnd_ApplySplits (t : Bool) (ops : List (Nat × Int)) :
    ∀ l : List TextBox, TriggerAtEnd t l → TriggerAtEnd t (ApplySplits l ops) := by
  induction ops with
  | nil =>
    intro l h
    exact h
  | cons op ops ih =>
    intro l h
    simp only [ApplySplits]
    exact ih _ (TriggerAtEnd_SplitBoxAt t l op.1 op.2 h)

theorem TriggerAtEnd_index (t : Bool) (l : List TextBox) :
    TriggerAtEnd t l → ∀ (i : Nat) (c : TextBox), l[i]? = some c →
      c.triggers_line_break_ = (decide (i + 1 = l.length) && t) := by
  induction l with
  | nil =>
    intro _ i c hc
    simp at hc
  | cons b rest ih =>
    intro h i c hc
    obtain ⟨h1, h2⟩ := h
    cases i with
    | zero =>
      simp only [List.getElem?_cons_zero, Option.some.injEq] at hc
      subst hc
      rw [h1]
      cases rest <;> simp
    | succ n =>
      simp only [List.getElem?_cons_succ] at hc
      rw [ih h2 n c hc]
      simp

theorem Tiles_last (l : List TextBox) :
    ∀ (s e : Int), Tiles s e l → ∀ c : TextBox, l.getLast? = some c →
      c.text_end_position_ = e := by
  induction l with
  | nil =>
    intro s e _ c hc
    simp at hc
  | cons b rest ih =>
    intro s e ht c hc
    obtain ⟨-, -, h3⟩ := ht
    cases rest with
    | nil =>
      simp only [List.getLast?_singleton, Option.some.injEq] at hc
      subst hc
      exact h3
    | cons b2 rest2 =>
      rw [List.getLast?_cons_cons] at hc
      exact ih _ _ h3 c hc

theorem ApplySplits_ne_nil (ops : List (Nat × Int)) :
    ∀ l : List TextBox, l ≠ [] → ApplySplits l ops ≠ [] := by
  induction ops with
  | nil =>
    intro l h
    exact h
  | cons op ops ih =>
    intro l h
    simp only [ApplySplits]
    apply ih
    intro hnil
    have := SplitBoxAt_isEmpty l op.1 op.2
    rw [hnil] at this
    cases l with
    | nil => exact h rfl
    | cons b rest => simp at this

/-- Claim C23: `SplitAtPosition` passes the line-break trigger to the trailing
sibling: afterwards this box does not trigger a line break and the returned box
does exactly when this box did before. Hence in the row obtained from one text
box by any sequence of splits only the last box can trigger a line break, so at
most one box does, the last box does exactly when the original box did, and
when every cut lies within its box the last box is the one that ends where the
original range ends. -/
theorem line_break_trigger_passes_on (b : TextBox) (ops : List (Nat × Int)) :
    (∀ p : Int, (b.SplitAtPosition p).1.DoesTriggerLineBreak = false ∧
      (b.SplitAtPosition p).2.DoesTriggerLineBreak = b.DoesTriggerLineBreak) ∧
    (∀ (i : Nat) (c : TextBox), (ApplySplits [b] ops)[i]? = some c →
      c.DoesTriggerLineBreak = true → i + 1 = (ApplySplits [b] ops).length) ∧
    (∀ (i j : Nat) (c d : TextBox), (ApplySplits [b] ops)[i]? = some c →
      (ApplySplits [b] ops)[j]? = some d → c.DoesTriggerLineBreak = true →
      d.DoesTriggerLineBreak = true → i = j) ∧
    (∃ c, (ApplySplits [b] ops).getLast? = some c ∧
      c.DoesTriggerLineBreak = b.DoesTriggerLineBreak) ∧
    (SplitsAllowed [b] ops = true → ∀ c, (ApplySplits [b] ops).getLast? = some c →
      c.text_end_position_ = b.text_end_position_) := by
  have h0 : TriggerAtEnd b.triggers_line_break_ [b] := by
    simp [TriggerAtEnd]
  have hrow := TriggerAtEnd_ApplySplits b.triggers_line_break_ ops [b] h0
  have hidx := TriggerAtEnd_index b.triggers_line_break_ _ hrow
  have hone : ∀ (i : Nat) (c : TextBox), (ApplySplits [b] ops)[i]? = some c →
      c.DoesTriggerLineBreak = true → i + 1 = (ApplySplits [b] ops).length := by
    intro i c hc ht
    have := hidx i c hc
    simp only [TextBox.DoesTriggerLineBreak] at ht
    rw [ht] at this
    simp only [Bool.true_eq, Bool.and_eq_true, decide_eq_true_eq] at this
    exact this.1
  refine ⟨fun p => SplitAtPosition_trigger b p, hone, ?_, ?_, ?_⟩
  · intro i j c d hc hd htc htd
    have h1 := hone i c hc htc
    have h2 := hone j d hd htd
    omega
  · have hne := ApplySplits_ne_nil ops [b] (by simp)
    cases hl : (ApplySplits [b] ops).getLast? with
    | none =>
      rw [List.getLast?_eq_none_iff] at hl
      exact absurd hl hne
    | some c =>
      refine ⟨c, rfl, ?_⟩
      have hlen : 0 < (ApplySplits [b] ops).length := List.length_pos.mpr hne
      rw [List.getLast?_eq_getElem?] at hl
      have := hidx _ c hl
      simp only [TextBox.DoesTriggerLineBreak]
      rw [this]
      have he : (ApplySplits [b] ops).length - 1 + 1 = (ApplySplits [b] ops).length := by
        omega
      simp [he]
  · intro hall c hc
    cases ops with
    | nil =>
      simp only [ApplySplits, List.getLast?_singleton, Option.some.injEq] at hc
      rw [← hc]
    | cons op rest =>
      have h1 := hall
      simp only [SplitsAllowed, Bool.and_eq_true] at h1
      have hle : b.text_start_position_ ≤ b.text_end_position_ := by
        have ha := h1.1
        cases hi : op.1 with
        | zero =>
          rw [hi] at ha
          simp only [SplitAllowed, Bool.and_eq_true, decide_eq_true_eq] at ha
          omega
        | succ n =>
          rw [hi] at ha
          simp [SplitAllowed] at ha
      have ht := Tiles_ApplySplits (op :: rest) _ _ _
        (show Tiles b.text_start_position_ b.text_end_position_ [b] from ⟨rfl, hle, rfl⟩) hall
      exact Tiles_last _ _ _ ht c hc

/-- A concrete instance of claim C23: `sampleBox` triggers a line break; after
the three cuts of `sampleSplits` the four boxes trigger as
`false, false, false, true`, and the last box ends at 10. -/
theorem line_break_trigger_passes_on_witness :
    sampleBox.DoesTriggerLineBreak = true ∧
    (ApplySplits [sampleBox] sampleSplits).map TextBox.DoesTriggerLineBreak =
      [false, false, false, true] ∧
    (∀ c, (ApplySplits [sampleBox] sampleSplits).getLast? = some c →
      c.text_end_position_ = sampleBox.text_end_position_) :=
  ⟨by decide, by decide,
    (line_break_trigger_passes_on sampleBox sampleSplits).2.2.2.2 (by decide)⟩

/-- Claim C24 fails as stated: `sampleBox`, built by the constructor over
`[0,10)` with a space at position 0 under `white-space: normal`, is cut at
position 0, which lies within its range. This box becomes the empty range
`[0,0)` and keeps its leading flag set, while "the range is non-empty and the
character at the start is a space" is false. -/
theorem cached_leading_flag_stale :
    sampleBox.WhiteSpaceStyleAllowsCollapsing = true ∧
    SplitsAllowed [sampleBox] [(0, 0)] = true ∧
    (sampleBox.SplitAtPosition 0).1 ∈ ApplySplits [sampleBox] [(0, 0)] ∧
    (sampleBox.SplitAtPosition 0).1.text_start_position_ = 0 ∧
    (sampleBox.SplitAtPosition 0).1.text_end_position_ = 0 ∧
    (sampleBox.SplitAtPosition 0).1.text_has_leading_white_space_ = true ∧
    ¬ FlagsAgree (sampleBox.SplitAtPosition 0).1 := by
  refine ⟨by decide, by decide, ?_, by decide, by decide, by decide, ?_⟩
  · simp [ApplySplits, SplitBoxAt]
  · intro h
    have h1 := h.1
    have h2 : (sampleBox.SplitAtPosition 0).1.text_has_leading_white_space_ = true := by
      decide
    have h3 : (decide ((sampleBox.SplitAtPosition 0).1.text_start_position_ <
        (sampleBox.SplitAtPosition 0).1.text_end_position_) &&
        (sampleBox.SplitAtPosition 0).1.paragraph_.IsSpace
          (sampleBox.SplitAtPosition 0).1.text_start_position_) = false := by
      decide
    rw [h2, h3] at h1
    cases h1

theorem create_FlagsAgree (cs : ComputedStyle) (para : Paragraph) (s e : Int) (t : Bool)
    (f : FontList) (hc : cs.white_space ≠ KeywordValue.kPre) (hse : s ≤ e) :
    FlagsAgree (TextBox.create cs para s e t f) := by
  have hne : (s != e) = decide (s < e) := by
    by_cases hlt : s < e
    · have : s ≠ e := by omega
      simp [hlt, this]
    · have : s = e := by omega
      simp [this]
  have hw : (cs.white_space != KeywordValue.kPre) = true := by
    simpa [bne_iff_ne] using hc
  unfold FlagsAgree TextBox.create TextBox.UpdateTextHasTrailingWhiteSpace
    TextBox.UpdateTextHasLeadingWhiteSpace
  simp only [TextBox.WhiteSpaceStyleAllowsCollapsing, hw, if_true, hne]
  exact ⟨trivial, trivial⟩

theorem SplitAtPosition_FlagsAgree (b : TextBox) (p : Int)
    (hc : b.computed_style.white_space ≠ KeywordValue.kPre) (hf : FlagsAgree b)
    (hsp : b.text_start_position_ < p) (hpe : p ≤ b.text_end_position_) :
    FlagsAgree (b.SplitAtPosition p).1 ∧ FlagsAgree (b.SplitAtPosition p).2 ∧
    (b.SplitAtPosition p).1.computed_style = b.computed_style ∧
    (b.SplitAtPosition p).2.computed_style = b.computed_style := by
  have hw : (b.computed_style.white_space != KeywordValue.kPre) = true := by
    simpa [bne_iff_ne] using hc
  have hne : (b.text_start_position_ != p) = true := by
    have : b.text_start_position_ ≠ p := by omega
    simpa [bne_iff_ne] using this
  have hlt : b.text_start_position_ < b.text_end_position_ := by omega
  refine ⟨?_, ?_, ?_, ?_⟩
  · obtain ⟨h1, -⟩ := hf
    unfold FlagsAgree TextBox.SplitAtPosition TextBox.UpdateTextHasTrailingWhiteSpace
    simp only [TextBox.WhiteSpaceStyleAllowsCollapsing, hw, if_true, hne, Bool.true_and,
      hsp, decide_True]
    refine ⟨?_, trivial⟩
    rw [h1]
    simp [hlt]
  · unfold TextBox.SplitAtPosition
    simp only
    apply create_FlagsAgree
    · rw [(TextBox.UpdateTextHasTrailingWhiteSpace_fields _).2.2.2.1]
      exact hc
    · exact hpe
  · unfold TextBox.SplitAtPosition
    simp only
    exact (TextBox.UpdateTextHasTrailingWhiteSpace_fields _).2.2.2.1
  · exact (TextBox.SplitAtPosition_shares b p).2.2.1

theorem FlagsAgree_SplitBoxAt (l : List TextBox) :
    ∀ (i : Nat) (p : Int),
      (∀ c ∈ l, FlagsAgree c ∧ c.computed_style.white_space ≠ KeywordValue.kPre) →
      SplitInside l i p = true →
      ∀ c ∈ SplitBoxAt l i p,
        FlagsAgree c ∧ c.computed_style.white_space ≠ KeywordValue.kPre := by
  induction l with
  | nil =>
    intro i p _ h
    simp [SplitInside] at h
  | cons b rest ih =>
    intro i p hall hin c hc
    cases i with
    | zero =>
      simp only [SplitInside, Bool.and_eq_true, decide_eq_true_eq] at hin
      obtain ⟨hb1, hb2⟩ := hall b (List.mem_cons_self _ _)
      obtain ⟨g1, g2, g3, g4⟩ := SplitAtPosition_FlagsAgree b p hb2 hb1 hin.1 hin.2
      simp only [SplitBoxAt, List.mem_cons] at hc
      rcases hc with h | h | h
      · subst h
        exact ⟨g1, by rw [g3]; exact hb2⟩
      · subst h
        exact ⟨g2, by rw [g4]; exact hb2⟩
      · exact hall c (List.mem_cons_of_mem _ h)
    | succ n =>
      simp only [SplitInside] at hin
      simp only [SplitBoxAt, List.mem_cons] at hc
      rcases hc with h | h
      · subst h
        exact hall c (List.mem_cons_self _ _)
      · exact ih n p (fun d hd => hall d (List.mem_cons_of_mem _ hd)) hin c h

theorem FlagsAgree_ApplySplits (ops : List (Nat × Int)) :
    ∀ l : List TextBox,
      (∀ c ∈ l, FlagsAgree c ∧ c.computed_style.white_space ≠ KeywordValue.kPre) →
      SplitsInside l ops = true →
      ∀ c ∈ ApplySplits l ops,
        FlagsAgree c ∧ c.computed_style.white_space ≠ KeywordValue.kPre := by
  induction ops with
  | nil =>
    intro l hall _ c hc
    exact hall c hc
  | cons op ops ih =>
    intro l hall hin
    simp only [SplitsInside, Bool.and_eq_true] at hin
    simp only [ApplySplits]
    exact ih _ (FlagsAgree_SplitBoxAt l op.1 op.2 hall hin.1) hin.2

/-- Claim C24 as amended: for every text box built by the constructor over a
range `[s,e)` with `s ≤ e` under a white-space style that allows collapsing,
and every sequence of `SplitAtPosition` calls at positions after the start and
not after the end of the box that is cut, each resulting box has
`text_has_leading_white_space_` equal to "the range is non-empty and the
character at `text_start_position_` is a space" and
`text_has_trailing_white_space_` equal to "the range is non-empty and the
character at `text_end_position_ - 1` is a space". -/
theorem cached_flags_agree (cs : ComputedStyle) (para : Paragraph) (s e : Int) (t : Bool)
    (f : FontList) (ops : List (Nat × Int))
    (hc : cs.white_space ≠ KeywordValue.kPre) (hse : s ≤ e)
    (hin : SplitsInside [TextBox.create cs para s e t f] ops = true) :
    ∀ c ∈ ApplySplits [TextBox.create cs para s e t f] ops,
      c.text_has_leading_white_space_ =
        (decide (c.text_start_position_ < c.text_end_position_) &&
          c.paragraph_.IsSpace c.text_start_position_) ∧
      c.text_has_trailing_white_space_ =
        (decide (c.text_start_position_ < c.text_end_position_) &&
          c.paragraph_.IsSpace (c.text_end_position_ - 1)) := by
  intro c hmem
  have h0 : ∀ d ∈ [TextBox.create cs para s e t f],
      FlagsAgree d ∧ d.computed_style.white_space ≠ KeywordValue.kPre := by
    intro d hd
    simp only [List.mem_singleton] at hd
    subst hd
    refine ⟨create_FlagsAgree cs para s e t f hc hse, ?_⟩
    rw [(TextBox.create_fields cs para s e t f).2.2.2.1]
    exact hc
  exact (FlagsAgree_ApplySplits ops _ h0 hin c hmem).1

/-- A concrete instance of claim C24 as amended: after the three cuts of
`sampleSplits`, each inside its box, the leading flags of the four boxes
`[0,2) [2,4) [4,7) [7,10)` are `true, false, true, false` and the trailing
flags `false, false, false, true`, as the spaces at 0, 4 and 9 give. -/
theorem cached_flags_agree_witness :
    SplitsInside [sampleBox] sampleSplits = true ∧
    (ApplySplits [sampleBox] sampleSplits).map
        (fun c => (c.text_has_leading_white_space_, c.text_has_trailing_white_space_)) =
      [(true, false), (false, false), (true, false), (false, true)] ∧
    (∀ c ∈ ApplySplits [sampleBox] sampleSplits,
      c.text_has_leading_white_space_ =
        (decide (c.text_start_position_ < c.text_end_position_) &&
          c.paragraph_.IsSpace c.text_start_position_) ∧
      c.text_has_trailing_white_space_ =
        (decide (c.text_start_position_ < c.text_end_position_) &&
          c.paragraph_.IsSpace (c.text_end_position_ - 1))) :=
  ⟨by decide, by decide,
    cached_flags_agree normalStyle sampleParagraph 0 10 true sampleFont sampleSplits
      (by decide) (by decide) (by decide)⟩

/-- Claim C25: a text box without non-collapsible text has trailing-space width
0 and text width 0, so the sum of its three width terms is one space width when
`HasLeadingWhiteSpace()` is true and 0 otherwise, and the width set by
`UpdateContentSizeAndMargins` is the rounding of that sum. -/
theorem whitespace_only_box_width (b : TextBox) (hn : b.HasNonCollapsibleText = false) :
    b.GetTrailingWhiteSpaceWidth = 0 ∧
    b.non_collapsible_text_width = 0 ∧
    (b.HasLeadingWhiteSpace = true →
      b.GetLeadingWhiteSpaceWidth + b.non_collapsible_text_width +
        b.GetTrailingWhiteSpaceWidth = b.used_font_.GetSpaceWidth) ∧
    (b.HasLeadingWhiteSpace = false →
      b.GetLeadingWhiteSpaceWidth + b.non_collapsible_text_width +
        b.GetTrailingWhiteSpaceWidth = 0) ∧
    (∀ round : ℚ → ℚ, (TextBox.UpdateContentSizeAndMargins round b).width =
      round (if b.HasLeadingWhiteSpace then b.used_font_.GetSpaceWidth else 0)) := by
  have h1 : b.GetTrailingWhiteSpaceWidth = 0 := by
    simp [TextBox.GetTrailingWhiteSpaceWidth, hn]
  have h2 : b.non_collapsible_text_width = 0 := by
    simp [TextBox.non_collapsible_text_width, hn]
  refine ⟨h1, h2, ?_, ?_, ?_⟩
  · intro hl
    rw [h1, h2]
    simp [TextBox.GetLeadingWhiteSpaceWidth, hl]
  · intro hl
    rw [h1, h2]
    simp [TextBox.GetLeadingWhiteSpaceWidth, hl]
  · intro round
    rw [TextBox.UpdateContentSizeAndMargins_width_eq, h1, h2]
    simp [TextBox.GetLeadingWhiteSpaceWidth]

/-- A concrete instance of claim C25: the box over a single space with no
collapse requested has a leading space and no non-collapsible text, and its
three width terms sum to the one space width 1027/256. -/
theorem whitespace_only_box_width_witness :
    spaceBox.HasNonCollapsibleText = false ∧
    spaceBox.HasLeadingWhiteSpace = true ∧
    spaceBox.text_has_trailing_white_space_ = true ∧
    spaceBox.GetLeadingWhiteSpaceWidth + spaceBox.non_collapsible_text_width +
      spaceBox.GetTrailingWhiteSpaceWidth = 1027 / 256 := by
  have hs : spaceBox.used_font_.GetSpaceWidth = 1027 / 256 := by
    have hf : spaceBox.used_font_ = sampleFont := (TextBox.create_fields _ _ _ _ _ _).2.2.2.2
    rw [hf]
    rfl
  refine ⟨by decide, by decide, by decide, ?_⟩
  rw [(whitespace_only_box_width spaceBox (by decide)).2.2.1 (by decide), hs]

/-- Claim C26: `ValidateUpdateSizeInputs(params)` returns true exactly when the
validation of the base class succeeds and `update_size_results_valid_` was
true, and then leaves the box as it was; whenever it returns false it sets
`update_size_results_valid_`. Hence after a split or a change of a collapse
request the next call returns false and leaves the flag set. -/
theorem ValidateUpdateSizeInputs_spec (b : TextBox) (box_inputs_valid : Bool) :
    ((b.ValidateUpdateSizeInputs box_inputs_valid).1 = true ↔
      (box_inputs_valid = true ∧ b.update_size_results_valid_ = true)) ∧
    ((b.ValidateUpdateSizeInputs box_inputs_valid).1 = true →
      (b.ValidateUpdateSizeInputs box_inputs_valid).2 = b) ∧
    ((b.ValidateUpdateSizeInputs box_inputs_valid).1 = false →
      (b.ValidateUpdateSizeInputs box_inputs_valid).2.update_size_results_valid_ = true) ∧
    (∀ p : Int,
      ((b.SplitAtPosition p).1.ValidateUpdateSizeInputs box_inputs_valid).1 = false ∧
      ((b.SplitAtPosition p).1.ValidateUpdateSizeInputs
        box_inputs_valid).2.update_size_results_valid_ = true) ∧
    (∀ v : Bool, v ≠ b.should_collapse_leading_white_space_ →
      ((b.SetShouldCollapseLeadingWhiteSpace v).ValidateUpdateSizeInputs
        box_inputs_valid).1 = false ∧
      ((b.SetShouldCollapseLeadingWhiteSpace v).ValidateUpdateSizeInputs
        box_inputs_valid).2.update_size_results_valid_ = true) ∧
    (∀ v : Bool, v ≠ b.should_collapse_trailing_white_space_ →
      ((b.SetShouldCollapseTrailingWhiteSpace v).ValidateUpdateSizeInputs
        box_inputs_valid).1 = false ∧
      ((b.SetShouldCollapseTrailingWhiteSpace v).ValidateUpdateSizeInputs
        box_inputs_valid).2.update_size_results_valid_ = true) := by
  have hinvalid : ∀ c : TextBox, c.update_size_results_valid_ = false →
      (c.ValidateUpdateSizeInputs box_inputs_valid).1 = false ∧
      (c.ValidateUpdateSizeInputs box_inputs_valid).2.update_size_results_valid_ = true := by
    intro c hc
    simp [TextBox.ValidateUpdateSizeInputs, hc]
  refine ⟨?_, ?_, ?_, ?_, ?_, ?_⟩
  · unfold TextBox.ValidateUpdateSizeInputs
    split
    · rename_i h
      simpa using h
    · rename_i h
      simpa using h
  · unfold TextBox.ValidateUpdateSizeInputs
    split
    · intro _
      rfl
    · intro h
      cases h
  · unfold TextBox.ValidateUpdateSizeInputs
    split
    · intro h
      cases h
    · intro _
      rfl
  · intro p
    exact hinvalid _ (TextBox.SplitAtPosition_shares b p).2.2.2
  · intro v hv
    apply hinvalid
    have h2 : (b.should_collapse_leading_white_space_ != v) = true := by
      simpa [bne_iff_ne] using fun e => hv e.symm
    simp [TextBox.SetShouldCollapseLeadingWhiteSpace, h2]
  · intro v hv
    apply hinvalid
    have h2 : (b.should_collapse_trailing_white_space_ != v) = true := by
      simpa [bne_iff_ne] using fun e => hv e.symm
    simp [TextBox.SetShouldCollapseTrailingWhiteSpace, h2]

/-- A concrete instance of claim C26: on `sampleBox` with its size marked valid
the call returns true when the base validation succeeds; after a request to
collapse the leading edge the next call returns false and the call after it
returns true again. -/
theorem ValidateUpdateSizeInputs_spec_witness :
    (({ sampleBox with update_size_results_valid_ := true } :
      TextBox).ValidateUpdateSizeInputs true).1 = true ∧
    ((({ sampleBox with update_size_results_valid_ := true } :
      TextBox).SetShouldCollapseLeadingWhiteSpace true).ValidateUpdateSizeInputs true).1 =
        false ∧
    (((({ sampleBox with update_size_results_valid_ := true } :
      TextBox).SetShouldCollapseLeadingWhiteSpace true).ValidateUpdateSizeInputs
        true).2.ValidateUpdateSizeInputs true).1 = true :=
  ⟨(ValidateUpdateSizeInputs_spec { sampleBox with update_size_results_valid_ := true }
      true).1.mpr ⟨rfl, rfl⟩,
    ((ValidateUpdateSizeInputs_spec { sampleBox with update_size_results_valid_ := true }
      true).2.2.2.2.1 true (by decide)).1,
    by decide⟩

namespace ReplacedBox

/-- Claim C27: when exactly one of used width and used height is specified and
the intrinsic ratio of the box (the ratio given to the constructor, or 2 when
absent) is not zero, the sizes set by `UpdateContentSizeAndMargins` satisfy
width = height × ratio, whatever the intrinsic width and height. -/
theorem one_dimension_keeps_ratio
    (UpdateHorizontalMargins : ℚ → ℚ → Option ℚ → Option ℚ → ℚ × ℚ)
    (b : ReplacedBox) (layout_params : ReplacedLayoutParams)
    (hr : b.intrinsic_ratio_ ≠ 0)
    (hone : (layout_params.maybe_width ≠ none ∧ layout_params.maybe_height = none) ∨
      (layout_params.maybe_width = none ∧ layout_params.maybe_height ≠ none)) :
    (UpdateContentSizeAndMargins UpdateHorizontalMargins b layout_params).width =
      (UpdateContentSizeAndMargins UpdateHorizontalMargins b layout_params).height *
        b.intrinsic_ratio_ := by
  have hw := UpdateContentSizeAndMargins_width_cases UpdateHorizontalMargins b layout_params
  have hh := UpdateContentSizeAndMargins_height_cases UpdateHorizontalMargins b layout_params
  rcases hone with ⟨h1, h2⟩ | ⟨h1, h2⟩
  · cases hmw : layout_params.maybe_width with
    | none => exact absurd hmw h1
    | some w =>
      rw [hmw, h2] at hh
      simp only at hh
      rw [hh]
      field_simp
  · cases hmh : layout_params.maybe_height with
    | none => exact absurd hmh h2
    | some h =>
      rw [h1, hmh] at hw hh
      simp only at hw hh
      rw [hw, hh]

/-- A concrete instance of claim C27: the box built without intrinsic ratio
has ratio 2; with used width 100 alone it gets 100 by 50, with used height 100
alone it gets 200 by 100. -/
theorem one_dimension_keeps_ratio_witness :
    sampleReplacedBox.intrinsic_ratio_ = 2 ∧
    (UpdateContentSizeAndMargins zeroAutoMargins sampleReplacedBox widthOnlyParams).width =
      (UpdateContentSizeAndMargins zeroAutoMargins sampleReplacedBox widthOnlyParams).height *
        sampleReplacedBox.intrinsic_ratio_ ∧
    (UpdateContentSizeAndMargins zeroAutoMargins sampleReplacedBox heightOnlyParams).width =
      (UpdateContentSizeAndMargins zeroAutoMargins sampleReplacedBox heightOnlyParams).height *
        sampleReplacedBox.intrinsic_ratio_ :=
  have hr : sampleReplacedBox.intrinsic_ratio_ ≠ 0 := by
    simp [sampleReplacedBox, create, kFallbackIntrinsicRatio]
  ⟨rfl,
    one_dimension_keeps_ratio zeroAutoMargins sampleReplacedBox widthOnlyParams hr
      (Or.inl ⟨by simp [widthOnlyParams], rfl⟩),
    one_dimension_keeps_ratio zeroAutoMargins sampleReplacedBox heightOnlyParams hr
      (Or.inr ⟨rfl, by simp [heightOnlyParams]⟩)⟩

end ReplacedBox

end layout

namespace dom

namespace EventTarget

theorem Matches_iff (info : EventListenerInfo) (type : String) (listener : EventListener)
    (use_capture : Bool) :
    info.Matches type listener use_capture = true ↔
      (info.type = type ∧ info.listener.script_object = listener.script_object ∧
        info.use_capture = use_capture) := by
  simp [EventListenerInfo.Matches, EventListener.EqualTo, and_assoc]

theorem Matches_of_both (a b : EventListenerInfo) (type : String) (listener : EventListener)
    (use_capture : Bool) (ha : a.Matches type listener use_capture = true)
    (hb : b.Matches type listener use_capture = true) :
    a.Matches b.type b.listener b.use_capture = true := by
  rw [Matches_iff] at ha hb ⊢
  exact ⟨ha.1.trans hb.1.symm, ha.2.1.trans hb.2.1.symm, ha.2.2.trans hb.2.2.symm⟩

theorem EraseFirstMatch_subset (type : String) (listener : EventListener)
    (use_capture : Bool) (l : List EventListenerInfo) :
    List.Sublist (EraseFirstMatch type listener use_capture l) l := by
  induction l with
  | nil => exact List.Sublist.slnil
  | cons info rest ih =>
    unfold EraseFirstMatch
    split
    · exact List.sublist_cons_self _ _
    · exact List.Sublist.cons₂ _ ih

theorem AddEventListener_distinct (target : EventTarget) (type : String)
    (listener : EventListener) (use_capture : Bool)
    (h : List.Pairwise (fun a b => a.Matches b.type b.listener b.use_capture = false)
      target.event_listener_infos_) :
    List.Pairwise (fun a b => a.Matches b.type b.listener b.use_capture = false)
      (target.AddEventListener type listener use_capture).event_listener_infos_ := by
  unfold AddEventListener
  split
  · exact h
  · rename_i hany
    simp only [List.any_eq_true, not_exists, not_and, Bool.not_eq_true] at hany
    simp only
    rw [List.pairwise_append]
    refine ⟨h, List.pairwise_singleton _ _, ?_⟩
    intro a ha b hb
    simp only [List.mem_singleton] at hb
    subst hb
    exact hany a ha

theorem RemoveEventListener_distinct (target : EventTarget) (type : String)
    (listener : EventListener) (use_capture : Bool)
    (h : List.Pairwise (fun a b => a.Matches b.type b.listener b.use_capture = false)
      target.event_listener_infos_) :
    List.Pairwise (fun a b => a.Matches b.type b.listener b.use_capture = false)
      (target.RemoveEventListener type listener use_capture).event_listener_infos_ :=
  List.Pairwise.sublist (EraseFirstMatch_subset type listener use_capture _) h

theorem ApplyListenerCommands_distinct (commands : List ListenerCommand) :
    ∀ target : EventTarget,
      List.Pairwise (fun a b => a.Matches b.type b.listener b.use_capture = false)
        target.event_listener_infos_ →
      List.Pairwise (fun a b => a.Matches b.type b.listener b.use_capture = false)
        (ApplyListenerCommands target commands).event_listener_infos_ := by
  induction commands with
  | nil =>
    intro target h
    exact h
  | cons command rest ih =>
    intro target h
    simp only [ApplyListenerCommands, List.foldl_cons]
    apply ih
    cases command with
    | Add type listener use_capture =>
      exact AddEventListener_distinct target type listener use_capture h
    | Remove type listener use_capture =>
      exact RemoveEventListener_distinct target type listener use_capture h

theorem EraseFirstMatch_none_left (type : String) (listener : EventListener)
    (use_capture : Bool) (l : List EventListenerInfo)
    (h : List.Pairwise (fun a b => a.Matches b.type b.listener b.use_capture = false) l) :
    ∀ info ∈ EraseFirstMatch type listener use_capture l,
      info.Matches type listener use_capture = false := by
  induction l with
  | nil =>
    intro info hinfo
    simp [EraseFirstMatch] at hinfo
  | cons info0 rest ih =>
    obtain ⟨h1, h2⟩ := List.pairwise_cons.mp h
    intro info hinfo
    unfold EraseFirstMatch at hinfo
    split at hinfo
    · rename_i hm
      cases hx : info.Matches type listener use_capture with
      | false => rfl
      | true =>
        have := Matches_of_both info0 info type listener use_capture hm hx
        rw [h1 info hinfo] at this
        cases this
    · rename_i hm
      rcases List.mem_cons.mp hinfo with h3 | h3
      · subst h3
        simpa using hm
      · exact ih h2 info h3

/-- Claim C29: starting from an empty listener list, after any sequence of
`AddEventListener` and `RemoveEventListener` calls no two registrations are
equal in type, listener (by `EqualTo`) and capture flag; `AddEventListener`
with a triple that is already registered leaves the target unchanged; and after
`RemoveEventListener(t,l,c)` no registration matching `(t,l,c)` remains. -/
theorem registrations_stay_distinct (address : Nat) (commands : List ListenerCommand) :
    List.Pairwise (fun a b => a.Matches b.type b.listener b.use_capture = false)
      (ApplyListenerCommands { address := address, event_listener_infos_ := [] }
        commands).event_listener_infos_ ∧
    (∀ (type : String) (listener : EventListener) (use_capture : Bool),
      (∃ info ∈ (ApplyListenerCommands { address := address, event_listener_infos_ := [] }
          commands).event_listener_infos_, info.Matches type listener use_capture = true) →
      (ApplyListenerCommands { address := address, event_listener_infos_ := [] }
        commands).AddEventListener type listener use_capture =
        ApplyListenerCommands { address := address, event_listener_infos_ := [] } commands) ∧
    (∀ (type : String) (listener : EventListener) (use_capture : Bool),
      ∀ info ∈ ((ApplyListenerCommands { address := address, event_listener_infos_ := [] }
          commands).RemoveEventListener type listener use_capture).event_listener_infos_,
        info.Matches type listener use_capture = false) := by
  have hd := ApplyListenerCommands_distinct commands
    { address := address, event_listener_infos_ := [] } List.Pairwise.nil
  refine ⟨hd, ?_, ?_⟩
  · intro type listener use_capture hex
    have hany : ((ApplyListenerCommands { address := address, event_listener_infos_ := [] }
        commands).event_listener_infos_.any
        (fun info => info.Matches type listener use_capture)) = true := by
      rw [List.any_eq_true]
      exact hex
    simp [AddEventListener, hany]
  · intro type listener use_capture info hinfo
    exact EraseFirstMatch_none_left type listener use_capture _ hd info hinfo

/-- A concrete instance of claim C29: after adding listener 1 for "fired"
twice, adding it with the capture flag and removing it without the flag, the
target holds the single registration with the capture flag. -/
theorem registrations_stay_distinct_witness :
    ((ApplyListenerCommands { address := 6, event_listener_infos_ := [] }
      sampleListenerCommands).event_listener_infos_.map
        (fun info => (info.type, info.listener.script_object, info.use_capture))) =
      [("fired", 1, true)] ∧
    List.Pairwise (fun a b => a.Matches b.type b.listener b.use_capture = false)
      (ApplyListenerCommands { address := 6, event_listener_infos_ := [] }
        sampleListenerCommands).event_listener_infos_ :=
  ⟨by decide, (registrations_stay_distinct 6 sampleListenerCommands).1⟩

end EventTarget

end dom

namespace webdriver

open protocol

theorem ApplySessionCommand_callback (module : WebDriverModule) (command : SessionCommand) :
    (ApplySessionCommand module command).create_session_driver_cb_ =
      module.create_session_driver_cb_ := by
  cases command with
  | Create requested_capabilities =>
    simp only [ApplySessionCommand, WebDriverModule.CreateSessionInternal]
    split
    · rfl
    · split
      · rfl
      · split <;> rfl
  | Delete session_id_variable =>
    simp only [ApplySessionCommand, WebDriverModule.DeleteSession]
    split
    · split <;> rfl
    · rfl

theorem ApplySessionCommand_session_id (module : WebDriverModule) (command : SessionCommand)
    (hcb : ∀ id d, module.create_session_driver_cb_ id = some d → d.session_id = id)
    (hs : ∀ d, module.session_ = some d → d.session_id = kWebDriverSessionId) :
    ∀ d, (ApplySessionCommand module command).session_ = some d →
      d.session_id = kWebDriverSessionId := by
  cases command with
  | Create requested_capabilities =>
    simp only [ApplySessionCommand, WebDriverModule.CreateSessionInternal]
    split
    · exact hs
    · split
      · exact hs
      · split
        · intro d hd
          cases hd
        · rename_i session hsession
          intro d hd
          simp only [Option.some.injEq] at hd
          subst hd
          exact hcb _ _ hsession
  | Delete session_id_variable =>
    simp only [ApplySessionCommand, WebDriverModule.DeleteSession]
    split
    · split
      · intro d hd
        cases hd
      · exact hs
    · exact hs

theorem ApplySessionCommands_session_id (commands : List SessionCommand) :
    ∀ module : WebDriverModule,
      (∀ id d, module.create_session_driver_cb_ id = some d → d.session_id = id) →
      (∀ d, module.session_ = some d → d.session_id = kWebDriverSessionId) →
      ∀ d, (ApplySessionCommands module commands).session_ = some d →
        d.session_id = kWebDriverSessionId := by
  induction commands with
  | nil =>
    intro module _ hs
    exact hs
  | cons command rest ih =>
    intro module hcb hs
    simp only [ApplySessionCommands, List.foldl_cons]
    apply ih
    · rw [ApplySessionCommand_callback]
      exact hcb
    · exact ApplySessionCommand_session_id module command hcb hs

/-- Claim C21: in every state of the module in which a session exists,
`CreateSessionInternal` returns the failure `kSessionNotCreatedException` for
any requested capabilities and leaves the module, with its session, as it was;
and in a module that starts without session and whose session callback gives a
driver the id it is handed, the session held after any sequence of create and
delete requests, if there is one, has the id "session-0". -/
theorem only_one_session (module : WebDriverModule)
    (requested_capabilities : RequestedCapabilities) (commands : List SessionCommand) :
    (module.session_ ≠ none →
      (module.CreateSessionInternal requested_capabilities).1.status_code =
        StatusCode.kSessionNotCreatedException ∧
      (module.CreateSessionInternal requested_capabilities).1.result = none ∧
      (module.CreateSessionInternal requested_capabilities).1.error_message =
        kMaxSessionsCreatedMessage ∧
      (module.CreateSessionInternal requested_capabilities).2 = module) ∧
    ((∀ id d, module.create_session_driver_cb_ id = some d → d.session_id = id) →
      module.session_ = none →
      ∀ d, (ApplySessionCommands module commands).session_ = some d →
        d.session_id = "session-0") := by
  constructor
  · intro h
    have hsome : module.session_.isSome = true := by
      cases hm : module.session_ with
      | none => exact absurd hm h
      | some d => rfl
    simp [WebDriverModule.CreateSessionInternal, hsome]
  · intro hcb hnone
    exact ApplySessionCommands_session_id commands module hcb
      (fun d hd => by rw [hnone] at hd; cases hd)

/-- A concrete instance of claim C21: on `sampleModule` a first request creates
the session "session-0"; a second request fails with
`kSessionNotCreatedException` and the session is still "session-0". -/
theorem only_one_session_witness :
    ((sampleModule.CreateSessionInternal { required := none }).2.session_.map
      (fun d => d.session_id)) = some "session-0" ∧
    (((sampleModule.CreateSessionInternal { required := none }).2.CreateSessionInternal
      { required := none }).1.status_code) = StatusCode.kSessionNotCreatedException ∧
    (((sampleModule.CreateSessionInternal { required := none }).2.CreateSessionInternal
      { required := none }).2) = (sampleModule.CreateSessionInternal { required := none }).2 ∧
    (∀ d, (ApplySessionCommands sampleModule
        [SessionCommand.Create { required := none }, SessionCommand.Create { required := none },
          SessionCommand.Delete "session-0", SessionCommand.Create { required := none }]).session_ =
        some d → d.session_id = "session-0") :=
  ⟨by decide,
    ((only_one_session (sampleModule.CreateSessionInternal { required := none }).2
      { required := none } []).1 (by decide)).1,
    ((only_one_session (sampleModule.CreateSessionInternal { required := none }).2
      { required := none } []).1 (by decide)).2.2.2,
    (only_one_session sampleModule { required := none } _).2
      (by
        intro id d h
        simp only [sampleModule, sampleCreateSessionDriver, Option.some.injEq] at h
        rw [← h])
      rfl⟩

end webdriver

namespace browser

open debug

namespace DebugConsole

theorem CycleMode_mode (modes : DebugHubModes) (console : DebugConsole)
    (hN : 0 < modes.kDebugConsoleNumModes) (h0 : 0 ≤ console.mode_) :
    (CycleMode modes console).mode_ = (console.mode_ + 1) % modes.kDebugConsoleNumModes := by
  simp only [CycleMode, SaveModeToPreferences]
  exact Int.tmod_eq_emod (by omega) (le_of_lt hN)

theorem CycleMode_iterate (modes : DebugHubModes) (console : DebugConsole)
    (hN : 0 < modes.kDebugConsoleNumModes) (h0 : 0 ≤ console.mode_)
    (h1 : console.mode_ < modes.kDebugConsoleNumModes) (k : Nat) :
    ((CycleMode modes)^[k] console).mode_ =
      (console.mode_ + (k : Int)) % modes.kDebugConsoleNumModes := by
  induction k with
  | zero =>
    simp only [Function.iterate_zero, id_eq, Nat.cast_zero, add_zero]
    exact (Int.emod_eq_of_lt h0 h1).symm
  | succ n ih =>
    rw [Function.iterate_succ_apply']
    have hpos : 0 ≤ ((CycleMode modes)^[n] console).mode_ := by
      rw [ih]
      exact Int.emod_nonneg _ (by omega)
    rw [CycleMode_mode modes _ hN hpos, ih, Int.emod_add_emod]
    congr 1
    push_cast
    ring

theorem mod_visit_unique (n m k1 k2 : Nat) (hk1 : 1 ≤ k1) (hk1n : k1 ≤ n)
    (hk2 : 1 ≤ k2) (hk2n : k2 ≤ n) (h : (m + k1) % n = (m + k2) % n) : k1 = k2 := by
  have hmod : k1 % n = k2 % n := by
    have h' : m + k1 ≡ m + k2 [MOD n] := h
    exact Nat.ModEq.add_left_cancel' m h'
  by_cases e1 : k1 = n
  · by_cases e2 : k2 = n
    · omega
    · have hlt : k2 < n := by omega
      rw [e1, Nat.mod_self, Nat.mod_eq_of_lt hlt] at hmod
      omega
  · have hlt1 : k1 < n := by omega
    by_cases e2 : k2 = n
    · rw [e2, Nat.mod_self, Nat.mod_eq_of_lt hlt1] at hmod
      omega
    · have hlt2 : k2 < n := by omega
      rw [Nat.mod_eq_of_lt hlt1, Nat.mod_eq_of_lt hlt2] at hmod
      exact hmod

theorem mod_visit_exists (n m j : Nat) (hm : m < n) (hj : j < n) :
    ∃ k : Nat, 1 ≤ k ∧ k ≤ n ∧ (m + k) % n = j := by
  by_cases h : m < j
  · refine ⟨j - m, by omega, by omega, ?_⟩
    have : m + (j - m) = j := by omega
    rw [this, Nat.mod_eq_of_lt hj]
  · refine ⟨j + n - m, by omega, by omega, ?_⟩
    have : m + (j + n - m) = j + n := by omega
    rw [this, Nat.add_mod_right, Nat.mod_eq_of_lt hj]

/-- Claim C22: `CycleMode` sets the mode to (mode + 1) modulo
`kDebugConsoleNumModes` and saves the new mode to the preferences. From a mode
`m` with `0 ≤ m < kDebugConsoleNumModes` the new mode is in that range again,
`kDebugConsoleNumModes` successive calls come back to `m`, and every mode of
the range is the mode after exactly one of these calls. -/
theorem CycleMode_cycles (modes : DebugHubModes) (console : DebugConsole)
    (h0 : 0 ≤ console.mode_) (h1 : console.mode_ < modes.kDebugConsoleNumModes) :
    (CycleMode modes console).mode_ = (console.mode_ + 1) % modes.kDebugConsoleNumModes ∧
    0 ≤ (CycleMode modes console).mode_ ∧
    (CycleMode modes console).mode_ < modes.kDebugConsoleNumModes ∧
    (CycleMode modes console).saved_preferences =
      some (DebugConsoleModeIntToString modes (CycleMode modes console).mode_) ∧
    ((CycleMode modes)^[modes.kDebugConsoleNumModes.toNat] console).mode_ = console.mode_ ∧
    (∀ j : Int, 0 ≤ j → j < modes.kDebugConsoleNumModes →
      ∃! k : Nat, 1 ≤ k ∧ k ≤ modes.kDebugConsoleNumModes.toNat ∧
        ((CycleMode modes)^[k] console).mode_ = j) := by
  have hN : 0 < modes.kDebugConsoleNumModes := by omega
  have hmode := CycleMode_mode modes console hN h0
  obtain ⟨n, hn⟩ := Int.eq_ofNat_of_zero_le (le_of_lt hN)
  obtain ⟨m, hm⟩ := Int.eq_ofNat_of_zero_le h0
  have hmn : m < n := by
    rw [hn, hm] at h1
    exact_mod_cast h1
  have hiter : ∀ k : Nat, ((CycleMode modes)^[k] console).mode_ = (((m + k) % n : Nat) : Int) := by
    intro k
    rw [CycleMode_iterate modes console hN h0 h1 k, hn, hm]
    norm_cast
  have htoNat : modes.kDebugConsoleNumModes.toNat = n := by
    rw [hn]
    rfl
  refine ⟨hmode, ?_, ?_, rfl, ?_, ?_⟩
  · rw [hmode]
    exact Int.emod_nonneg _ (by omega)
  · rw [hmode]
    exact Int.emod_lt_of_pos _ hN
  · rw [htoNat, hiter n, Nat.add_mod_right, Nat.mod_eq_of_lt hmn, hm]
  · intro j hj0 hjN
    obtain ⟨j', hj'⟩ := Int.eq_ofNat_of_zero_le hj0
    have hjn : j' < n := by
      rw [hn, hj'] at hjN
      exact_mod_cast hjN
    obtain ⟨k, hk1, hk2, hk3⟩ := mod_visit_exists n m j' hmn hjn
    refine ⟨k, ⟨hk1, by rw [htoNat]; exact hk2, ?_⟩, ?_⟩
    · rw [hiter k, hk3, hj']
    · rintro k' ⟨hk1', hk2', hk3'⟩
      rw [htoNat] at hk2'
      rw [hiter k', hj'] at hk3'
      have hk3'' : (m + k') % n = j' := by exact_mod_cast hk3'
      exact mod_visit_unique n m k' k hk1' hk2' hk1 hk2 (hk3''.trans hk3.symm)

/-- A concrete instance of claim C22: with three modes (off 0, hud 1, on 2) a
console in mode 1 goes to mode 2 and saves "on", then to 0, then back to 1. -/
theorem CycleMode_cycles_witness :
    (CycleMode sampleModes sampleConsole).mode_ = 2 ∧
    (CycleMode sampleModes sampleConsole).saved_preferences = some "on" ∧
    (CycleMode sampleModes (CycleMode sampleModes sampleConsole)).mode_ = 0 ∧
    ((CycleMode sampleModes)^[sampleModes.kDebugConsoleNumModes.toNat] sampleConsole).mode_ =
      sampleConsole.mode_ :=
  ⟨by decide, by decide, by decide,
    (CycleMode_cycles sampleModes sampleConsole (by decide) (by decide)).2.2.2.2.1⟩

end DebugConsole

end browser

end cobalt

namespace glimp

namespace gles

namespace ClearColor

theorem std_min_max_one (value : ℚ) : std_min 1 (std_max 1 value) = 1 := by
  unfold std_min std_max
  by_cases h : 1 < value
  · have h2 : ¬ value < 1 := not_lt.mpr (le_of_lt h)
    simp [h, h2]
  · simp [h]

/-- Claim C28, the behaviour of the code: the four-argument constructor stores 1
in every component whatever the arguments are, since each argument goes through
`std::min(1.0f, std::max(1.0f, value))`; for the arguments (1/2, 1/4, 0, 1) the
stored red is 1 while the clamped value of 1/2 is 1/2. -/
theorem create_stores_one (red green blue alpha : ℚ) :
    create red green blue alpha = { red := 1, green := 1, blue := 1, alpha := 1 } ∧
    (create (1 / 2) (1 / 4) 0 1).red = 1 ∧
    Clamped (1 / 2) = 1 / 2 ∧
    (create (1 / 2) (1 / 4) 0 1).red ≠ Clamped (1 / 2) := by
  have h : ∀ r g b a : ℚ, create r g b a = { red := 1, green := 1, blue := 1, alpha := 1 } := by
    intro r g b a
    simp [create, std_min_max_one]
  have hc : Clamped (1 / 2) = 1 / 2 := by
    unfold Clamped
    norm_num
  refine ⟨h _ _ _ _, ?_, hc, ?_⟩
  · rw [h]
  · rw [h, hc]
    norm_num

end ClearColor

end gles

end glimp

namespace sh

namespace BuiltInGroup

open TOperator

theorem group_ranges (op : TOperator) :
    (IsBuiltIn op = true ↔ 61 < op.value) ∧
    (IsMath op = true ↔ (62 ≤ op.value ∧ op.value ≤ 152)) ∧
    (IsTextureOffsetNoBias op = true ↔ (213 ≤ op.value ∧ op.value ≤ 219)) ∧
    (IsTextureOffsetBias op = true ↔ (220 ≤ op.value ∧ op.value ≤ 221)) ∧
    (IsTextureGatherOffsetNoComp op = true ↔ (223 ≤ op.value ∧ op.value ≤ 223)) ∧
    (IsTextureGatherOffsetComp op = true ↔ (224 ≤ op.value ∧ op.value ≤ 224)) ∧
    (IsTextureGatherOffset op = true ↔ (223 ≤ op.value ∧ op.value ≤ 224)) ∧
    (IsTextureGatherOffsetsNoComp op = true ↔ (225 ≤ op.value ∧ op.value ≤ 225)) ∧
    (IsTextureGatherOffsetsComp op = true ↔ (226 ≤ op.value ∧ op.value ≤ 226)) ∧
    (IsTextureGatherOffsets op = true ↔ (225 ≤ op.value ∧ op.value ≤ 226)) ∧
    (IsTextureGather op = true ↔ (222 ≤ op.value ∧ op.value ≤ 226)) ∧
    (IsTexture op = true ↔ (153 ≤ op.value ∧ op.value ≤ 226)) ∧
    (IsDerivativesFS op = true ↔ (229 ≤ op.value ∧ op.value ≤ 237)) ∧
    (IsInterpolationFS op = true ↔ (238 ≤ op.value ∧ op.value ≤ 240)) ∧
    (IsAtomicCounter op = true ↔ (241 ≤ op.value ∧ op.value ≤ 252)) ∧
    (IsAtomicMemory op = true ↔ (253 ≤ op.value ∧ op.value ≤ 260)) ∧
    (IsImageStore op = true ↔ (263 ≤ op.value ∧ op.value ≤ 263)) ∧
    (IsImageLoad op = true ↔ (264 ≤ op.value ∧ op.value ≤ 264)) ∧
    (IsImageAtomic op = true ↔ (265 ≤ op.value ∧ op.value ≤ 272)) ∧
    (IsImage op = true ↔ (261 ≤ op.value ∧ op.value ≤ 272)) ∧
    (IsPixelLocalLoad op = true ↔ (273 ≤ op.value ∧ op.value ≤ 273)) ∧
    (IsPixelLocalStore op = true ↔ (274 ≤ op.value ∧ op.value ≤ 274)) ∧
    (IsPixelLocal op = true ↔ (273 ≤ op.value ∧ op.value ≤ 274)) := by
  simp only [IsBuiltIn, IsMath, IsTextureOffsetNoBias, IsTextureOffsetBias,
    IsTextureGatherOffsetNoComp, IsTextureGatherOffsetComp, IsTextureGatherOffset,
    IsTextureGatherOffsetsNoComp, IsTextureGatherOffsetsComp, IsTextureGatherOffsets,
    IsTextureGather, IsTexture, IsDerivativesFS, IsInterpolationFS, IsAtomicCounter,
    IsAtomicMemory, IsImageStore, IsImageLoad, IsImageAtomic, IsImage, IsPixelLocalLoad,
    IsPixelLocalStore, IsPixelLocal,
    Bool.and_eq_true, decide_eq_true_eq, ge_iff_le, gt_iff_lt]
  refine ⟨?_, ?_, ?_, ?_, ?_, ?_, ?_, ?_, ?_, ?_, ?_, ?_, ?_, ?_, ?_, ?_, ?_, ?_, ?_, ?_, ?_, ?_, ?_⟩ <;> exact Iff.rfl

/-- Claim C30: for every operator, each group predicate that holds implies
`IsBuiltIn`; `IsTextureGatherOffset` and `IsTextureGatherOffsets` imply
`IsTextureGather`, which implies `IsTexture`; `IsImageStore`, `IsImageLoad` and
`IsImageAtomic` imply `IsImage`; `IsPixelLocal` holds exactly when
`IsPixelLocalLoad` or `IsPixelLocalStore` holds; and no two of the top-level
groups `IsMath`, `IsTexture`, `IsDerivativesFS`, `IsInterpolationFS`,
`IsAtomicCounter`, `IsAtomicMemory`, `IsImage` and `IsPixelLocal` hold
together. -/
theorem groups_nested_and_disjoint (op : TOperator) :
    (IsBuiltIn op = true ↔ op.value > EOpLastNonBuiltIn.value) ∧
    EOpLastNonBuiltIn = TOperator.EOpBitwiseOrAssign ∧
    (IsMath op = true → IsBuiltIn op = true) ∧
    (IsTextureOffsetNoBias op = true → IsBuiltIn op = true) ∧
    (IsTextureOffsetBias op = true → IsBuiltIn op = true) ∧
    (IsTextureGatherOffsetNoComp op = true → IsBuiltIn op = true) ∧
    (IsTextureGatherOffsetComp op = true → IsBuiltIn op = true) ∧
    (IsTextureGatherOffset op = true → IsBuiltIn op = true) ∧
    (IsTextureGatherOffsetsNoComp op = true → IsBuiltIn op = true) ∧
    (IsTextureGatherOffsetsComp op = true → IsBuiltIn op = true) ∧
    (IsTextureGatherOffsets op = true → IsBuiltIn op = true) ∧
    (IsTextureGather op = true → IsBuiltIn op = true) ∧
    (IsTexture op = true → IsBuiltIn op = true) ∧
    (IsDerivativesFS op = true → IsBuiltIn op = true) ∧
    (IsInterpolationFS op = true → IsBuiltIn op = true) ∧
    (IsAtomicCounter op = true → IsBuiltIn op = true) ∧
    (IsAtomicMemory op = true → IsBuiltIn op = true) ∧
    (IsImageStore op = true → IsBuiltIn op = true) ∧
    (IsImageLoad op = true → IsBuiltIn op = true) ∧
    (IsImageAtomic op = true → IsBuiltIn op = true) ∧
    (IsImage op = true → IsBuiltIn op = true) ∧
    (IsPixelLocalLoad op = true → IsBuiltIn op = true) ∧
    (IsPixelLocalStore op = true → IsBuiltIn op = true) ∧
    (IsPixelLocal op = true → IsBuiltIn op = true) ∧
    (IsTextureGatherOffset op = true → IsTextureGather op = true) ∧
    (IsTextureGatherOffsets op = true → IsTextureGather op = true) ∧
    (IsTextureGather op = true → IsTexture op = true) ∧
    (IsImageStore op = true → IsImage op = true) ∧
    (IsImageLoad op = true → IsImage op = true) ∧
    (IsImageAtomic op = true → IsImage op = true) ∧
    (IsPixelLocal op = true ↔ (IsPixelLocalLoad op = true ∨ IsPixelLocalStore op = true)) ∧
    List.Pairwise (fun a b : Bool => ¬ (a = true ∧ b = true))
      [IsMath op, IsTexture op, IsDerivativesFS op, IsInterpolationFS op, IsAtomicCounter op, IsAtomicMemory op, IsImage op, IsPixelLocal op] := by
  obtain ⟨h0, h1, h2, h3, h4, h5, h6, h7, h8, h9, h10, h11, h12, h13, h14, h15, h16, h17, h18, h19, h20, h21, h22⟩ := group_ranges op
  simp only [List.pairwise_cons, List.mem_cons, List.mem_singleton, List.not_mem_nil,
    forall_eq_or_imp, forall_eq, List.Pairwise.nil, and_true, IsEmpty.forall_iff,
    implies_true]
  rw [h0, h1, h2, h3, h4, h5, h6, h7, h8, h9, h10, h11, h12, h13, h14, h15, h16, h17, h18, h19, h20, h21, h22]
  refine ⟨Iff.rfl, rfl, ?_⟩
  omega

/-- A concrete instance of claim C30: `EOpTextureGatherOffsetComp` is in the
groups texture-gather-offset, texture-gather and texture, is a built-in and is
not a math operator; `EOpBitwiseOrAssign` is not a built-in. -/
theorem groups_nested_and_disjoint_witness :
    IsTextureGatherOffset TOperator.EOpTextureGatherOffsetComp = true ∧
    IsTextureGather TOperator.EOpTextureGatherOffsetComp = true ∧
    IsTexture TOperator.EOpTextureGatherOffsetComp = true ∧
    IsBuiltIn TOperator.EOpTextureGatherOffsetComp = true ∧
    IsMath TOperator.EOpTextureGatherOffsetComp = false ∧
    IsBuiltIn TOperator.EOpBitwiseOrAssign = false :=
  have h := groups_nested_and_disjoint TOperator.EOpTextureGatherOffsetComp
  have h1 : IsTextureGatherOffset TOperator.EOpTextureGatherOffsetComp = true := by decide
  ⟨h1, h.2.2.2.2.2.2.2.2.2.2.2.2.2.2.2.2.2.2.2.2.2.2.2.2.1 h1, by decide,
    h.2.2.2.2.2.2.2.1 h1, by decide, by decide⟩

end BuiltInGroup

end sh
